import Mathlib

/-!
# autops RBAC core: authorization gate, grant / revoke, role administration, rebuild, bootstrap

A shallow embedding of

* `internal/middleware/casbin.go` (`CasbinMiddleware`),
* `business/controllers/permission_controller.go` (`AddPolicy`, `RemovePolicy`, `GetPolicies`,
  `CreateRole`, `UpdateRole`, `DeleteRole`, `UpdateUserRole`),
* `business/services/user_service.go` (`CreateUser`, `DeleteUser`),
* `business/repositories/role_repository.go` and `user_repository.go` (the queries the handlers
  and services call),
* `internal/database/casbin_sync.go` (`SyncCasbinPolicy`),
* `internal/database/init.go` and `admin_init.go` (`InitCasbinAndPermissions`,
  `InitRolesAndPermissions`, `InitAdminUser`),
* the five tables of `business/models`.

The relational store (gorm over MySQL) and the policy engine (casbin) are libraries; they are
modelled by the small set of primitives the handlers call.  A call that can return a backend
error takes its outcome from a record of fault flags, one flag per call site, so that every
error branch of the handlers can be exercised.  Soft deletion follows the models: every model
carries a `DeletedAt` column, queries on a model skip the rows where it is set, `Delete` on a
model sets it, and the rows stay in the table with their primary key.  Statements on the join
table of a many-to-many association (`Association("Roles").Replace`) and on a bare table name
(`Table("user_roles")`) have no soft-delete clause: they remove rows.

Definitions come first, theorems after.
-/

namespace Autops

/-! ## Data model (`business/models`) -/

/-- Row of `users`; `deleted` is "`deleted_at` is not null". -/
structure User where
  id : Nat
  username : String
  deleted : Bool
  deriving DecidableEq, Repr

/-- Row of `roles`. -/
structure Role where
  id : Nat
  name : String
  description : String
  deleted : Bool
  deriving DecidableEq, Repr

/-- Row of `permissions`. -/
structure Permission where
  id : Nat
  resource : String
  action : String
  description : String
  deleted : Bool
  deriving DecidableEq, Repr

/-- Row of `user_roles`. -/
structure UserRole where
  userID : Nat
  roleID : Nat
  deleted : Bool
  deriving DecidableEq, Repr

/-- Row of `role_permissions`; primary key `(role_id, permission_id)`, soft-deletable. -/
structure RolePermission where
  roleID : Nat
  permissionID : Nat
  deleted : Bool
  deriving DecidableEq, Repr

/-- The Identity Store: the five tables, each a list of rows in storage order, which is the
order `First` reads them in. -/
structure DB where
  users : List User
  roles : List Role
  permissions : List Permission
  userRoles : List UserRole
  rolePermissions : List RolePermission
  deriving DecidableEq, Repr

/-- A policy tuple `(role, resource, action)` of the engine's relation `P`. -/
abbrev Policy := String × String × String

/-- The in-memory state of the casbin enforcer: relations `P` and `G`. -/
structure Enforcer where
  p : List Policy
  g : List (String × String)
  deriving DecidableEq, Repr

/-- Process state seen by the handlers: `database.DB` and `global.Enforcer` (may be nil). -/
structure State where
  db : DB
  enforcer : Option Enforcer
  deriving DecidableEq, Repr

/-- Calls made to the store and to the engine, recorded in the order they are issued. -/
inductive Call where
  | userFirst
  | rolesFind
  | enforce (role : String)
  | permFirst
  | permCreate
  | roleFirst
  | assocFirst
  | assocCreate
  | assocDelete
  | assocCount
  | permDelete
  | addPolicy
  | removePolicy
  | savePolicy
  | syncCasbinPolicy
  | userByID
  | roleByID
  | rolesByNames
  | rolesReplace
  | userRolesDelete
  | roleDelete
  | roleCreate
  | roleSave
  | userByName
  | userCreate
  | userRoleInsert
  | userDelete
  deriving DecidableEq, Repr

/-- Whether a call goes to the policy engine. -/
def Call.isEngine : Call → Bool
  | .enforce _ => true
  | .addPolicy => true
  | .removePolicy => true
  | .savePolicy => true
  | .syncCasbinPolicy => true
  | _ => false

/-! ## Store primitives (gorm) -/

/-- Query `DB.Where("username = ?", name).First(&user)`: first live row with that username. -/
def findUser (db : DB) (name : String) : Option User :=
  db.users.find? (fun u => !u.deleted && u.username == name)

/-- Query `DB.Model(&user).Association("Roles").Find(&user.Roles)`: live roles joined through
`user_roles` (the many2many join table carries no soft-delete clause). -/
def rolesOfUser (db : DB) (u : User) : List Role :=
  db.roles.filter (fun r => !r.deleted && db.userRoles.any (fun ur => ur.userID == u.id && ur.roleID == r.id))

/-- Query `DB.Where("resource = ? AND action = ?", path, method).First(&permission)`: first
live row carrying the pair. -/
def findPermission (db : DB) (path method : String) : Option Permission :=
  db.permissions.find? (fun p => !p.deleted && p.resource == path && p.action == method)

/-- Query `DB.Where("name = ?", name).First(&role)`: first live row with that name.  Here and
in the other queries strings are compared exactly (a binary collation). -/
def findRole (db : DB) (name : String) : Option Role :=
  db.roles.find? (fun r => !r.deleted && r.name == name)

/-- Query `DB.Where("role_id = ? AND permission_id = ?", rid, pid).First(&rolePermission)`:
first live row with that key. -/
def findRolePermission (db : DB) (rid pid : Nat) : Option RolePermission :=
  db.rolePermissions.find? (fun rp => !rp.deleted && rp.roleID == rid && rp.permissionID == pid)

/-- Auto-increment key handed out by `permissions`: above every id ever stored. -/
def nextPermissionID (db : DB) : Nat :=
  (db.permissions.map (fun p => p.id)).foldr max 0 + 1

/-- Insert `DB.Create(&permission)`: appends the row under a fresh id and returns it. -/
def createPermission (db : DB) (path method : String) : DB × Permission :=
  let perm : Permission :=
    { id := nextPermissionID db, resource := path, action := method,
      description := method ++ " " ++ path ++ "权限", deleted := false }
  ({ db with permissions := db.permissions ++ [perm] }, perm)

/-- Insert `DB.Create(&rolePermission)`: the insert is refused when a row with the same primary key
`(role_id, permission_id)` is stored, soft-deleted or not. -/
def createRolePermission (db : DB) (rid pid : Nat) : Option DB :=
  if db.rolePermissions.any (fun rp => rp.roleID == rid && rp.permissionID == pid) then none
  else some { db with rolePermissions :=
    db.rolePermissions ++ [{ roleID := rid, permissionID := pid, deleted := false }] }

/-- Statement `DB.Where("role_id = ? AND permission_id = ?", rid, pid).Delete(...)` on the
model `RolePermission`, which has a `DeletedAt` column: soft delete of the live matching rows. -/
def deleteRolePermission (db : DB) (rid pid : Nat) : DB :=
  { db with rolePermissions := db.rolePermissions.map (fun rp =>
      if !rp.deleted && rp.roleID == rid && rp.permissionID == pid then { rp with deleted := true }
      else rp) }

/-- Query `DB.Model(...).Where("permission_id = ?", pid).Count(&count)` on the model
`RolePermission`: number of live rows referring to `pid`. -/
def countRolePermissions (db : DB) (pid : Nat) : Nat :=
  (db.rolePermissions.filter (fun rp => !rp.deleted && rp.permissionID == pid)).length

/-- Statement `DB.Delete(&permission)`: soft delete of the live row with that primary key. -/
def deletePermission (db : DB) (pid : Nat) : DB :=
  { db with permissions := db.permissions.map (fun p =>
      if !p.deleted && p.id == pid then { p with deleted := true } else p) }

/-! ## Engine primitives (casbin) -/

/-- Engine call `Enforcer.AddPolicy`: an existing tuple gives `(false, nil)`; otherwise the adapter is
written first (`adapterFails` makes it return an error and leaves `P` alone), then `P`. -/
def Enforcer.addPolicy (e : Enforcer) (adapterFails : Bool) (t : Policy) : Enforcer × Bool × Bool :=
  if t ∈ e.p then (e, false, false)
  else if adapterFails then (e, false, true)
  else ({ e with p := e.p ++ [t] }, true, false)

/-- Engine call `Enforcer.RemovePolicy`: the adapter is written first, then the tuple leaves `P`;
a tuple that is not in `P` gives `(false, nil)`. -/
def Enforcer.removePolicy (e : Enforcer) (adapterFails : Bool) (t : Policy) : Enforcer × Bool × Bool :=
  if adapterFails then (e, false, true)
  else if t ∈ e.p then ({ e with p := e.p.filter (fun q => q ≠ t) }, true, false)
  else (e, false, false)

/-! ## `CasbinMiddleware` -/

/-- Result of `Enforcer.Enforce`: the boolean and the error, if any. -/
structure EnforceResult where
  ok : Bool
  err : Option String
  deriving DecidableEq, Repr

/-- What the gate does with the request. -/
inductive Decision where
  | next
  | abort (code : Nat)
  deriving DecidableEq, Repr

/-- Backend errors of the two store calls of the gate. -/
structure GateFaults where
  userQuery : Bool
  rolesQuery : Bool
  deriving DecidableEq, Repr

/-- Outcome of one run of the gate. -/
structure GateOut where
  decision : Decision
  calls : List Call
  deriving DecidableEq, Repr

/-- The role loop of the gate: `ok, err = Enforce(role.Name, path, method)`, leaving the loop on
the first error and on the first `true`.  Returns the final `(ok, err)` and the roles asked. -/
def checkRoles (enforce : String → String → String → EnforceResult) (path method : String) :
    List Role → EnforceResult × List Call
  | [] => ({ ok := false, err := none }, [])
  | r :: rs =>
    let res := enforce r.name path method
    if res.err.isSome then (res, [Call.enforce r.name])
    else if res.ok then (res, [Call.enforce r.name])
    else
      let rest := checkRoles enforce path method rs
      (rest.1, Call.enforce r.name :: rest.2)

/-- The roles the gate iterates over for user `u`: the result of the association query, which
stays empty when that query fails (its error is not inspected). -/
def loadedRoles (db : DB) (faults : GateFaults) (u : User) : List Role :=
  if faults.rolesQuery then [] else rolesOfUser db u

/-- The handler returned by `CasbinMiddleware()`. `username` is `c.Get("username")`. -/
def CasbinMiddleware (db : DB) (enforce : String → String → String → EnforceResult)
    (faults : GateFaults) (username : Option String) (path method : String) : GateOut :=
  match username with
  | none => { decision := .abort 401, calls := [] }
  | some name =>
    match (if faults.userQuery then none else findUser db name) with
    | none => { decision := .abort 401, calls := [.userFirst] }
    | some user =>
      let roles := loadedRoles db faults user
      if user.id = 0 then { decision := .abort 401, calls := [.userFirst, .rolesFind] }
      else
        let res := checkRoles enforce path method roles
        if res.1.err.isSome then
          { decision := .abort 403, calls := [.userFirst, .rolesFind] ++ res.2 }
        else if !res.1.ok then
          { decision := .abort 403, calls := [.userFirst, .rolesFind] ++ res.2 }
        else
          { decision := .next, calls := [.userFirst, .rolesFind] ++ res.2 }

/-! ## Grant and revoke handlers (`PermissionController`) -/

/-- The `PolicyRequest` structure: the decoded JSON body of grant / revoke. -/
structure PolicyRequest where
  role : String
  path : String
  method : String
  deriving DecidableEq, Repr

/-- Binding `c.ShouldBindJSON(&req)`: `none` is a body that does not decode; every field is tagged
`binding:"required"`, so an empty field is a binding error. -/
def bindPolicyRequest (body : Option PolicyRequest) : Option PolicyRequest :=
  match body with
  | none => none
  | some req => if req.role = "" ∨ req.path = "" ∨ req.method = "" then none else some req

/-- Keys of the `validMethods` map of `AddPolicy`. -/
def validMethods : List String := ["GET", "POST", "PUT", "DELETE", "PATCH"]

/-- Outcome of one run of a handler: the state left behind, the status codes of the response
envelopes written (in order), and the store / engine calls issued. -/
structure Out where
  st : State
  responses : List Nat
  calls : List Call
  deriving DecidableEq, Repr

/-- HTTP status of the run: the code of the first envelope written. -/
def Out.status (o : Out) : Nat := o.responses.headD 0

/-- Backend errors of the calls of `AddPolicy`, one flag per call site. -/
structure GrantFaults where
  permQuery : Bool
  permCreate : Bool
  roleQuery : Bool
  assocQuery : Bool
  assocCreate : Bool
  addPolicy : Bool
  savePolicy : Bool
  deriving DecidableEq, Repr

/-- A run of `AddPolicy` in which no call is made to fail by the backend. -/
def GrantFaults.none : GrantFaults :=
  { permQuery := false, permCreate := false, roleQuery := false, assocQuery := false,
    assocCreate := false, addPolicy := false, savePolicy := false }

/-- The part of `AddPolicy` from the role lookup on (source lines 93-158); `db` is the store after the
permission step, `perm` the permission found or created, `calls` the calls made so far. -/
def addPolicyFrom (e : Enforcer) (f : GrantFaults) (req : PolicyRequest) (db : DB)
    (perm : Permission) (calls : List Call) : Out :=
  match (if f.roleQuery then none else findRole db req.role) with
  | none => { st := ⟨db, some e⟩, responses := [500], calls := calls ++ [.roleFirst] }
  | some role =>
    if f.assocQuery then
      { st := ⟨db, some e⟩, responses := [500], calls := calls ++ [.roleFirst, .assocFirst] }
    else
      match findRolePermission db role.id perm.id with
      | some _ =>
        { st := ⟨db, some e⟩, responses := [400], calls := calls ++ [.roleFirst, .assocFirst] }
      | none =>
        match (if f.assocCreate then none else createRolePermission db role.id perm.id) with
        | none =>
          { st := ⟨db, some e⟩, responses := [500],
            calls := calls ++ [.roleFirst, .assocFirst, .assocCreate] }
        | some db2 =>
          let r := e.addPolicy f.addPolicy (req.role, req.path, req.method)
          if r.2.2 then
            { st := ⟨db2, some e⟩, responses := [500],
              calls := calls ++ [.roleFirst, .assocFirst, .assocCreate, .addPolicy] }
          else if !r.2.1 then
            { st := ⟨db2, some e⟩, responses := [400],
              calls := calls ++ [.roleFirst, .assocFirst, .assocCreate, .addPolicy] }
          else if f.savePolicy then
            { st := ⟨db2, some r.1⟩, responses := [500],
              calls := calls ++ [.roleFirst, .assocFirst, .assocCreate, .addPolicy, .savePolicy] }
          else
            { st := ⟨db2, some r.1⟩, responses := [200],
              calls := calls ++ [.roleFirst, .assocFirst, .assocCreate, .addPolicy, .savePolicy] }

/-- The handler `PermissionController.AddPolicy` (grant). -/
def AddPolicy (st : State) (f : GrantFaults) (body : Option PolicyRequest) : Out :=
  match bindPolicyRequest body with
  | none => { st := st, responses := [400], calls := [] }
  | some req =>
    if req.role = "" ∨ req.path = "" ∨ req.method = "" ∨ req.method ∉ validMethods then
      { st := st, responses := [400], calls := [] }
    else
      match st.enforcer with
      | none => { st := st, responses := [500], calls := [] }
      | some e =>
        if f.permQuery then { st := st, responses := [500], calls := [.permFirst] }
        else
          match findPermission st.db req.path req.method with
          | some perm => addPolicyFrom e f req st.db perm [.permFirst]
          | none =>
            if f.permCreate then
              { st := st, responses := [500], calls := [.permFirst, .permCreate] }
            else
              let c := createPermission st.db req.path req.method
              addPolicyFrom e f req c.1 c.2 [.permFirst, .permCreate]

/-- Backend errors of the calls of `RemovePolicy`, one flag per call site. -/
structure RevokeFaults where
  permQuery : Bool
  roleQuery : Bool
  assocDelete : Bool
  assocCount : Bool
  permDelete : Bool
  removePolicy : Bool
  savePolicy : Bool
  savePolicyAgain : Bool
  deriving DecidableEq, Repr

/-- A run of `RemovePolicy` in which no call is made to fail by the backend. -/
def RevokeFaults.none : RevokeFaults :=
  { permQuery := false, roleQuery := false, assocDelete := false, assocCount := false,
    permDelete := false, removePolicy := false, savePolicy := false, savePolicyAgain := false }

/-- The part of `RemovePolicy` from the engine call on (source lines 235-267); `db` is the store after the
store steps, `calls` the calls made so far. -/
def removePolicyFrom (e : Enforcer) (f : RevokeFaults) (req : PolicyRequest) (db : DB)
    (calls : List Call) : Out :=
  let r := e.removePolicy f.removePolicy (req.role, req.path, req.method)
  if r.2.2 then
    { st := ⟨db, some e⟩, responses := [500], calls := calls ++ [.removePolicy] }
  else if !r.2.1 then
    { st := ⟨db, some e⟩, responses := [400], calls := calls ++ [.removePolicy] }
  else if f.savePolicy then
    { st := ⟨db, some r.1⟩, responses := [500], calls := calls ++ [.removePolicy, .savePolicy] }
  else if f.savePolicyAgain then
    { st := ⟨db, some r.1⟩, responses := [200, 500],
      calls := calls ++ [.removePolicy, .savePolicy, .savePolicy] }
  else
    { st := ⟨db, some r.1⟩, responses := [200, 200],
      calls := calls ++ [.removePolicy, .savePolicy, .savePolicy] }

/-- The handler `PermissionController.RemovePolicy` (revoke).  The error of the `Count` query is not
inspected: when that query fails `count` keeps the value 0. -/
def RemovePolicy (st : State) (f : RevokeFaults) (body : Option PolicyRequest) : Out :=
  match bindPolicyRequest body with
  | none => { st := st, responses := [400], calls := [] }
  | some req =>
    if req.role = "" ∨ req.path = "" ∨ req.method = "" then
      { st := st, responses := [400], calls := [] }
    else
      match st.enforcer with
      | none => { st := st, responses := [500], calls := [] }
      | some e =>
        match (if f.permQuery then none else findPermission st.db req.path req.method) with
        | none => { st := st, responses := [500], calls := [.permFirst] }
        | some perm =>
          match (if f.roleQuery then none else findRole st.db req.role) with
          | none => { st := st, responses := [500], calls := [.permFirst, .roleFirst] }
          | some role =>
            if f.assocDelete then
              { st := st, responses := [500], calls := [.permFirst, .roleFirst, .assocDelete] }
            else
              let db1 := deleteRolePermission st.db role.id perm.id
              let count := if f.assocCount then 0 else countRolePermissions db1 perm.id
              if count = 0 then
                if f.permDelete then
                  { st := ⟨db1, some e⟩, responses := [500],
                    calls := [.permFirst, .roleFirst, .assocDelete, .assocCount, .permDelete] }
                else
                  removePolicyFrom e f req (deletePermission db1 perm.id)
                    [.permFirst, .roleFirst, .assocDelete, .assocCount, .permDelete]
              else
                removePolicyFrom e f req db1 [.permFirst, .roleFirst, .assocDelete, .assocCount]

/-! ## Store primitives of the role and user administration -/

/-- Query `DB.Preload("Roles").First(&user, id)`: first live row of `users` with that key. -/
def findUserByID (db : DB) (id : Nat) : Option User :=
  db.users.find? (fun u => !u.deleted && u.id == id)

/-- Query `db.First(&role, id)`: first live row of `roles` with that key. -/
def findRoleByID (db : DB) (id : Nat) : Option Role :=
  db.roles.find? (fun r => !r.deleted && r.id == id)

/-- Repository call `GetByNameIn`: `Where("name IN ?", names).Find(&roles)`, the live rows of
`roles` whose name is in the list. -/
def getByNameIn (db : DB) (names : List String) : List Role :=
  db.roles.filter (fun r => !r.deleted && names.contains r.name)

/-- Insert into the join table `user_roles` with `ON CONFLICT DO NOTHING`, as the association
writes do: a row with the key `(uid, rid)` is added unless one is stored. -/
def insertUserRole (rows : List UserRole) (uid rid : Nat) : List UserRole :=
  if rows.any (fun ur => ur.userID == uid && ur.roleID == rid) then rows
  else rows ++ [{ userID := uid, roleID := rid, deleted := false }]

/-- Association call `DB.Model(&user).Association("Roles").Replace(roles)`: the join rows of
the given roles are inserted, then the join rows of the user whose role is not among them are
deleted from the table. -/
def replaceUserRoles (db : DB) (uid : Nat) (rids : List Nat) : DB :=
  { db with userRoles :=
      (List.filter (fun ur => !(ur.userID == uid) || rids.contains ur.roleID)
        (rids.foldl (fun rows rid => insertUserRole rows uid rid) db.userRoles)) }

/-- Statement `db.Table("user_roles").Where("role_id = ?", id).Delete(nil)`: the rows of the
role leave the table. -/
def deleteUserRolesOfRole (db : DB) (rid : Nat) : DB :=
  { db with userRoles := db.userRoles.filter (fun ur => !(ur.roleID == rid)) }

/-- Statement `db.Delete(&models.Role{}, id)`: soft delete of the live row with that key. -/
def softDeleteRole (db : DB) (rid : Nat) : DB :=
  { db with roles := db.roles.map (fun r =>
      if !r.deleted && r.id == rid then { r with deleted := true } else r) }

/-- Auto-increment key handed out by `roles`. -/
def nextRoleID (db : DB) : Nat :=
  (db.roles.map (fun r => r.id)).foldr max 0 + 1

/-- Insert `db.Create(role)`: refused when a stored row, soft-deleted or not, carries the name
(unique index on `name`); otherwise the row is appended under a fresh key. -/
def createRole (db : DB) (name description : String) : Option (DB × Role) :=
  if db.roles.any (fun r => r.name == name) then none
  else
    let role : Role :=
      { id := nextRoleID db, name := name, description := description, deleted := false }
    some ({ db with roles := db.roles ++ [role] }, role)

/-- Auto-increment key handed out by `users`. -/
def nextUserID (db : DB) : Nat :=
  (db.users.map (fun u => u.id)).foldr max 0 + 1

/-- Insert `DB.Create(&user)`: refused when a stored row, soft-deleted or not, carries the
username (unique index); the other columns are not modelled. -/
def createUser (db : DB) (username : String) : Option (DB × User) :=
  if db.users.any (fun u => u.username == username) then none
  else
    let user : User := { id := nextUserID db, username := username, deleted := false }
    some ({ db with users := db.users ++ [user] }, user)

/-! ## Engine primitives of the full rebuild -/

/-- Engine call `Enforcer.AddGroupingPolicy`: as `Enforcer.addPolicy`, on `G`. -/
def Enforcer.addGroupingPolicy (e : Enforcer) (adapterFails : Bool) (t : String × String) :
    Enforcer × Bool × Bool :=
  if t ∈ e.g then (e, false, false)
  else if adapterFails then (e, false, true)
  else ({ e with g := e.g ++ [t] }, true, false)

/-- Engine call `Enforcer.ClearPolicy`: empties `P` and `G`. -/
def Enforcer.clearPolicy (_e : Enforcer) : Enforcer := { p := [], g := [] }

/-! ## `SyncCasbinPolicy` -/

/-- Username that `Preload("User")` puts on a `user_roles` row: that of the live user with the
key; the zero value when there is none. -/
def preloadUsername (db : DB) (uid : Nat) : String :=
  match findUserByID db uid with
  | some u => u.username
  | none => ""

/-- Role name that `Preload("Role")` puts on an association row: that of the live role with the
key; the zero value when there is none. -/
def preloadRoleName (db : DB) (rid : Nat) : String :=
  match findRoleByID db rid with
  | some r => r.name
  | none => ""

/-- Resource and action that `Preload("Permission")` puts on a `role_permissions` row: those of
the live permission with the key; zero values when there is none. -/
def preloadPermission (db : DB) (pid : Nat) : String × String :=
  match db.permissions.find? (fun p => !p.deleted && p.id == pid) with
  | some p => (p.resource, p.action)
  | none => ("", "")

/-- The grouping tuples `SyncCasbinPolicy` submits, in order: one per live `user_roles` row. -/
def groupingRows (db : DB) : List (String × String) :=
  (db.userRoles.filter (fun ur => !ur.deleted)).map
    (fun ur => (preloadUsername db ur.userID, preloadRoleName db ur.roleID))

/-- The policy tuples `SyncCasbinPolicy` submits, in order: one per live `role_permissions`
row. -/
def policyRows (db : DB) : List Policy :=
  (db.rolePermissions.filter (fun rp => !rp.deleted)).map
    (fun rp => (preloadRoleName db rp.roleID, preloadPermission db rp.permissionID))

/-- Backend errors of the calls of `SyncCasbinPolicy`: the two queries, the save, and for each
loop the index of the call whose adapter write fails, if any. -/
structure SyncFaults where
  userRolesFind : Bool
  addGrouping : Option Nat
  rolePermissionsFind : Bool
  addPolicy : Option Nat
  savePolicy : Bool
  deriving DecidableEq, Repr

/-- A run of `SyncCasbinPolicy` in which no call is made to fail by the backend. -/
def SyncFaults.none : SyncFaults :=
  { userRolesFind := false, addGrouping := Option.none, rolePermissionsFind := false,
    addPolicy := Option.none, savePolicy := false }

/-- The first loop of `SyncCasbinPolicy`, from call number `i` on: returns the engine and
whether the loop returned an error. -/
def addGroupings (failAt : Option Nat) : Nat → Enforcer → List (String × String) → Enforcer × Bool
  | _, e, [] => (e, false)
  | i, e, t :: ts =>
    let r := e.addGroupingPolicy (failAt == some i) t
    if r.2.2 then (r.1, true) else addGroupings failAt (i + 1) r.1 ts

/-- The second loop of `SyncCasbinPolicy`, from call number `i` on. -/
def addPolicies (failAt : Option Nat) : Nat → Enforcer → List Policy → Enforcer × Bool
  | _, e, [] => (e, false)
  | i, e, t :: ts =>
    let r := e.addPolicy (failAt == some i) t
    if r.2.2 then (r.1, true) else addPolicies failAt (i + 1) r.1 ts

/-- The function `SyncCasbinPolicy`: returns the engine it leaves and whether it returned an
error. -/
def SyncCasbinPolicy (db : DB) (e : Enforcer) (f : SyncFaults) : Enforcer × Bool :=
  let e0 := e.clearPolicy
  if f.userRolesFind then (e0, true)
  else
    let g := addGroupings f.addGrouping 0 e0 (groupingRows db)
    if g.2 then (g.1, true)
    else if f.rolePermissionsFind then (g.1, true)
    else
      let p := addPolicies f.addPolicy 0 g.1 (policyRows db)
      if p.2 then (p.1, true)
      else if f.savePolicy then (p.1, true)
      else (p.1, false)

/-! ## Role and user administration handlers (`PermissionController`) -/

/-- The `UpdateUserRoleRequest` structure: the decoded JSON body of role assignment. -/
structure UpdateUserRoleRequest where
  userID : Nat
  roles : List String
  deriving DecidableEq, Repr

/-- Binding of `UpdateUserRoleRequest`: `user_id` is `required` (not 0), `roles` is
`required,min=1` (not empty). -/
def bindUpdateUserRole (body : Option UpdateUserRoleRequest) : Option UpdateUserRoleRequest :=
  match body with
  | none => none
  | some req => if req.userID = 0 ∨ req.roles = [] then none else some req

/-- Backend errors of the calls of `UpdateUserRole`. -/
structure AssignFaults where
  userQuery : Bool
  rolesQuery : Bool
  replace : Bool
  sync : SyncFaults
  deriving DecidableEq, Repr

/-- A run of `UpdateUserRole` in which no call is made to fail by the backend. -/
def AssignFaults.none : AssignFaults :=
  { userQuery := false, rolesQuery := false, replace := false, sync := SyncFaults.none }

/-- The handler `PermissionController.UpdateUserRole` (assign roles).  It uses the engine
without a nil test, so it is given the engine.  The error of `SyncCasbinPolicy` is logged and
the success envelope is written all the same. -/
def UpdateUserRole (db : DB) (e : Enforcer) (f : AssignFaults)
    (body : Option UpdateUserRoleRequest) : Out :=
  match bindUpdateUserRole body with
  | none => { st := ⟨db, some e⟩, responses := [400], calls := [] }
  | some req =>
    match (if f.userQuery then none else findUserByID db req.userID) with
    | none => { st := ⟨db, some e⟩, responses := [500], calls := [.userByID] }
    | some user =>
      if user.id = 0 then { st := ⟨db, some e⟩, responses := [404], calls := [.userByID] }
      else if f.rolesQuery then
        { st := ⟨db, some e⟩, responses := [500], calls := [.userByID, .rolesByNames] }
      else
        let roles := getByNameIn db req.roles
        if roles.length ≠ req.roles.length then
          { st := ⟨db, some e⟩, responses := [400], calls := [.userByID, .rolesByNames] }
        else if f.replace then
          { st := ⟨db, some e⟩, responses := [500],
            calls := [.userByID, .rolesByNames, .rolesReplace] }
        else
          let db1 := replaceUserRoles db user.id (roles.map (fun r => r.id))
          let s := SyncCasbinPolicy db1 e f.sync
          { st := ⟨db1, some s.1⟩, responses := [200],
            calls := [.userByID, .rolesByNames, .rolesReplace, .syncCasbinPolicy] }

/-- Backend errors of the calls of `DeleteRole`. -/
structure DeleteRoleFaults where
  roleQuery : Bool
  userRolesDelete : Bool
  roleDelete : Bool
  sync : SyncFaults
  deriving DecidableEq, Repr

/-- A run of `DeleteRole` in which no call is made to fail by the backend. -/
def DeleteRoleFaults.none : DeleteRoleFaults :=
  { roleQuery := false, userRolesDelete := false, roleDelete := false, sync := SyncFaults.none }

/-- The handler `PermissionController.DeleteRole`, with `roleRepository.Delete` inlined: the
`user_roles` rows of the role are deleted, then the role is soft-deleted.  `idParam` is the
path segment as parsed by `strconv.ParseUint` (`none` when it does not parse). -/
def DeleteRole (db : DB) (e : Enforcer) (f : DeleteRoleFaults) (idParam : Option Nat) : Out :=
  match idParam with
  | none => { st := ⟨db, some e⟩, responses := [400], calls := [] }
  | some id =>
    match (if f.roleQuery then none else findRoleByID db id) with
    | none => { st := ⟨db, some e⟩, responses := [500], calls := [.roleByID] }
    | some role =>
      if role.id = 0 then { st := ⟨db, some e⟩, responses := [404], calls := [.roleByID] }
      else if f.userRolesDelete then
        { st := ⟨db, some e⟩, responses := [500], calls := [.roleByID, .userRolesDelete] }
      else
        let db1 := deleteUserRolesOfRole db id
        if f.roleDelete then
          { st := ⟨db1, some e⟩, responses := [500],
            calls := [.roleByID, .userRolesDelete, .roleDelete] }
        else
          let db2 := softDeleteRole db1 id
          let s := SyncCasbinPolicy db2 e f.sync
          { st := ⟨db2, some s.1⟩, responses := [200],
            calls := [.roleByID, .userRolesDelete, .roleDelete, .syncCasbinPolicy] }

/-- The `CreateRoleRequest` structure. -/
structure CreateRoleRequest where
  name : String
  description : String
  deriving DecidableEq, Repr

/-- Binding of `CreateRoleRequest`: `name` is `required,min=2,max=50`, `description` is
`max=255` (lengths in characters). -/
def bindCreateRole (body : Option CreateRoleRequest) : Option CreateRoleRequest :=
  match body with
  | none => none
  | some req =>
    if req.name.length < 2 ∨ 50 < req.name.length ∨ 255 < req.description.length then none
    else some req

/-- Backend errors of the calls of `CreateRole`. -/
structure CreateRoleFaults where
  rolesQuery : Bool
  roleCreate : Bool
  sync : SyncFaults
  deriving DecidableEq, Repr

/-- A run of `CreateRole` in which no call is made to fail by the backend. -/
def CreateRoleFaults.none : CreateRoleFaults :=
  { rolesQuery := false, roleCreate := false, sync := SyncFaults.none }

/-- The handler `PermissionController.CreateRole`. -/
def CreateRole (db : DB) (e : Enforcer) (f : CreateRoleFaults)
    (body : Option CreateRoleRequest) : Out :=
  match bindCreateRole body with
  | none => { st := ⟨db, some e⟩, responses := [400], calls := [] }
  | some req =>
    if f.rolesQuery then { st := ⟨db, some e⟩, responses := [500], calls := [.rolesByNames] }
    else if 0 < (getByNameIn db [req.name]).length then
      { st := ⟨db, some e⟩, responses := [400], calls := [.rolesByNames] }
    else
      match (if f.roleCreate then none else createRole db req.name req.description) with
      | none =>
        { st := ⟨db, some e⟩, responses := [500], calls := [.rolesByNames, .roleCreate] }
      | some c =>
        let s := SyncCasbinPolicy c.1 e f.sync
        { st := ⟨c.1, some s.1⟩, responses := [200],
          calls := [.rolesByNames, .roleCreate, .syncCasbinPolicy] }

/-! ## Role update and user administration (`UpdateRole`, `userService`) -/

/-- Statement `db.Save(role)` of `roleRepository.Update`, on a row read from the store: the row
with the key takes the values of the struct; refused when another stored row, soft-deleted or
not, carries the name (unique index on `name`). -/
def saveRole (db : DB) (role : Role) : Option DB :=
  if db.roles.any (fun r => r.name == role.name && r.id != role.id) then none
  else some { db with roles := db.roles.map (fun r => if r.id == role.id then role else r) }

/-- The `UpdateRoleRequest` structure. -/
structure UpdateRoleRequest where
  id : Nat
  name : String
  description : String
  deriving DecidableEq, Repr

/-- Binding of `UpdateRoleRequest`: `id` is `required` (not 0), `name` is
`required,min=2,max=50`, `description` is `max=255`. -/
def bindUpdateRole (body : Option UpdateRoleRequest) : Option UpdateRoleRequest :=
  match body with
  | none => none
  | some req =>
    if req.id = 0 ∨ req.name.length < 2 ∨ 50 < req.name.length ∨ 255 < req.description.length
    then none
    else some req

/-- Backend errors of the calls of `UpdateRole`. -/
structure UpdateRoleFaults where
  roleQuery : Bool
  rolesQuery : Bool
  roleSave : Bool
  deriving DecidableEq, Repr

/-- A run of `UpdateRole` in which no call is made to fail by the backend. -/
def UpdateRoleFaults.none : UpdateRoleFaults :=
  { roleQuery := false, rolesQuery := false, roleSave := false }

/-- The part of `UpdateRole` from the update on (source lines 447-455). -/
def updateRoleFrom (db : DB) (e : Enforcer) (f : UpdateRoleFaults) (req : UpdateRoleRequest)
    (role : Role) (calls : List Call) : Out :=
  match (if f.roleSave then none
      else saveRole db { role with name := req.name, description := req.description }) with
  | none => { st := ⟨db, some e⟩, responses := [500], calls := calls ++ [.roleSave] }
  | some db1 => { st := ⟨db1, some e⟩, responses := [200], calls := calls ++ [.roleSave] }

/-- The handler `PermissionController.UpdateRole`.  It makes no call to the engine. -/
def UpdateRole (db : DB) (e : Enforcer) (f : UpdateRoleFaults)
    (body : Option UpdateRoleRequest) : Out :=
  match bindUpdateRole body with
  | none => { st := ⟨db, some e⟩, responses := [400], calls := [] }
  | some req =>
    match (if f.roleQuery then none else findRoleByID db req.id) with
    | none => { st := ⟨db, some e⟩, responses := [500], calls := [.roleByID] }
    | some role =>
      if role.id = 0 then { st := ⟨db, some e⟩, responses := [404], calls := [.roleByID] }
      else if req.name ≠ role.name then
        if f.rolesQuery then
          { st := ⟨db, some e⟩, responses := [500], calls := [.roleByID, .rolesByNames] }
        else if 0 < (getByNameIn db [req.name]).length then
          { st := ⟨db, some e⟩, responses := [400], calls := [.roleByID, .rolesByNames] }
        else updateRoleFrom db e f req role [.roleByID, .rolesByNames]
      else updateRoleFrom db e f req role [.roleByID]

/-- Repository call `AssignRole`: the raw `INSERT INTO user_roles (user_id, role_id)`, refused
when a row with that primary key is stored. -/
def assignRole (db : DB) (uid rid : Nat) : Option DB :=
  if db.userRoles.any (fun ur => ur.userID == uid && ur.roleID == rid) then none
  else some { db with userRoles :=
    db.userRoles ++ [{ userID := uid, roleID := rid, deleted := false }] }

/-- Backend errors of the calls of `userService.CreateUser`: the username query, the password
hash, the insert (which the unique indexes on `email` and `phone`, not modelled, can refuse as
well), the role query and the raw insert of `AssignRole`. -/
structure CreateUserFaults where
  userQuery : Bool
  hash : Bool
  create : Bool
  rolesQuery : Bool
  assignRole : Bool
  deriving DecidableEq, Repr

/-- A run of `CreateUser` in which no call is made to fail by the backend. -/
def CreateUserFaults.none : CreateUserFaults :=
  { userQuery := false, hash := false, create := false, rolesQuery := false,
    assignRole := false }

/-- The part of `userService.CreateUser` after the user row is stored (source lines 63-79):
the default role `user` is attached when it exists; errors are logged only.  Returns the
store. -/
def assignDefaultRole (db : DB) (f : CreateUserFaults) (user : User) : DB :=
  if f.rolesQuery then db
  else
    match getByNameIn db ["user"] with
    | [] => db
    | role :: _ =>
      match (if f.assignRole then none else assignRole db user.id role.id) with
      | none => db
      | some db1 => db1

/-- The function `userService.CreateUser`, called by `Register`: the error of the username
query is dropped, a live user of that name is an error.  It makes no call to the engine.
Returns the store and whether it returned an error (`Register` answers 200 exactly when it
did not). -/
def CreateUser (db : DB) (f : CreateUserFaults) (username : String) : DB × Bool :=
  match (if f.userQuery then none else findUser db username) with
  | some existing =>
    if 0 < existing.id then (db, true)
    else if f.hash then (db, true)
    else
      match (if f.create then none else createUser db username) with
      | none => (db, true)
      | some c => (assignDefaultRole c.1 f c.2, false)
  | none =>
    if f.hash then (db, true)
    else
      match (if f.create then none else createUser db username) with
      | none => (db, true)
      | some c => (assignDefaultRole c.1 f c.2, false)

/-- Statement `DB.Delete(&models.User{}, id)` of `userRepository.Delete`: soft delete of the
live row with that key. -/
def softDeleteUser (db : DB) (id : Nat) : DB :=
  { db with users := db.users.map (fun u =>
      if !u.deleted && u.id == id then { u with deleted := true } else u) }

/-- The function `userService.DeleteUser`, called by the handler `DeleteUser`.  It makes no
call to the engine and leaves `user_roles` alone.  Returns the store and whether it returned
an error. -/
def DeleteUser (db : DB) (deleteFails : Bool) (id : Nat) : DB × Bool :=
  if deleteFails then (db, true) else (softDeleteUser db id, false)

/-! ## Invariants and observations on the store -/

/-- The projection of invariant I4: the tuples `(role.name, perm.resource, perm.action)` over
the join of the live rows of `role_permissions`, `roles` and `permissions`. -/
def policyProjection (db : DB) : List Policy :=
  (db.rolePermissions.filter (fun rp => !rp.deleted)).flatMap (fun rp =>
    (db.roles.filter (fun r => !r.deleted && r.id == rp.roleID)).flatMap (fun r =>
      (db.permissions.filter (fun p => !p.deleted && p.id == rp.permissionID)).map
        (fun p => (r.name, p.resource, p.action))))

/-- Invariant I4: the engine's `P` and the projection of the store hold the same tuples. -/
def I4 (db : DB) (e : Enforcer) : Prop :=
  (∀ t ∈ e.p, t ∈ policyProjection db) ∧ (∀ t ∈ policyProjection db, t ∈ e.p)

instance (db : DB) (e : Enforcer) : Decidable (I4 db e) := by
  unfold I4; infer_instance

/-- Invariant I4 on a process state: the engine is there and holds the projection. -/
def State.inSync (st : State) : Prop :=
  match st.enforcer with
  | some e => I4 st.db e
  | none => False

instance (st : State) : Decidable st.inSync := by
  unfold State.inSync; split <;> infer_instance

/-- The projection of invariant I5: the tuples `(user.username, role.name)` over the join of
the live rows of `user_roles`, `users` and `roles`. -/
def groupingProjection (db : DB) : List (String × String) :=
  (db.userRoles.filter (fun ur => !ur.deleted)).flatMap (fun ur =>
    (db.users.filter (fun u => !u.deleted && u.id == ur.userID)).flatMap (fun u =>
      (db.roles.filter (fun r => !r.deleted && r.id == ur.roleID)).map
        (fun r => (u.username, r.name))))

/-- Invariant I5: the engine's `G` and the projection of the store hold the same tuples. -/
def I5 (db : DB) (e : Enforcer) : Prop :=
  (∀ t ∈ e.g, t ∈ groupingProjection db) ∧ (∀ t ∈ groupingProjection db, t ∈ e.g)

instance (db : DB) (e : Enforcer) : Decidable (I5 db e) := by
  unfold I5; infer_instance

/-- The pair `(resource, action)` is unique among the live rows of `permissions`. -/
def uniquePermissions (db : DB) : Prop :=
  ∀ p ∈ db.permissions, ∀ q ∈ db.permissions, p.deleted = false → q.deleted = false →
    p.resource = q.resource → p.action = q.action → p = q

instance (db : DB) : Decidable (uniquePermissions db) := by
  unfold uniquePermissions; infer_instance

/-- Role names are unique among the live rows of `roles`. -/
def uniqueRoleNames (db : DB) : Prop :=
  ∀ r ∈ db.roles, ∀ q ∈ db.roles, r.deleted = false → q.deleted = false → r.name = q.name → r = q

instance (db : DB) : Decidable (uniqueRoleNames db) := by
  unfold uniqueRoleNames; infer_instance

/-- Constraints kept by the schema itself: the primary keys of `roles` and of `permissions`
identify a row, and every `role_permissions.permission_id` is the key of a stored row of
`permissions` (foreign key; a soft-deleted row still counts). -/
def schemaKeys (db : DB) : Prop :=
  (∀ r ∈ db.roles, ∀ q ∈ db.roles, r.id = q.id → r = q) ∧
  (∀ p ∈ db.permissions, ∀ q ∈ db.permissions, p.id = q.id → p = q) ∧
  (∀ rp ∈ db.rolePermissions, ∃ p ∈ db.permissions, p.id = rp.permissionID)

instance (db : DB) : Decidable (schemaKeys db) := by
  unfold schemaKeys; infer_instance

/-- Usernames are unique among the live rows of `users`. -/
def uniqueUsernames (db : DB) : Prop :=
  ∀ u ∈ db.users, ∀ v ∈ db.users, u.deleted = false → v.deleted = false →
    u.username = v.username → u.id = v.id

instance (db : DB) : Decidable (uniqueUsernames db) := by
  unfold uniqueUsernames; infer_instance

/-- The primary key of `roles` identifies a row, and no row is stored twice. -/
def roleKeys (db : DB) : Prop :=
  (∀ r ∈ db.roles, ∀ q ∈ db.roles, r.id = q.id → r = q) ∧ db.roles.Nodup

instance (db : DB) : Decidable (roleKeys db) := by
  unfold roleKeys; infer_instance

/-- Whether a live row of `permissions` carries the key `pid`. -/
def permissionLive (db : DB) (pid : Nat) : Bool :=
  db.permissions.any (fun p => !p.deleted && p.id == pid)

/-- Whether a live row of `role_permissions` of a role other than `rid` refers to `pid`. -/
def heldByOtherRole (db : DB) (rid pid : Nat) : Bool :=
  db.rolePermissions.any (fun rp => !rp.deleted && rp.permissionID == pid && rp.roleID != rid)

/-- The live rows of `permissions`. -/
def livePermissions (db : DB) : List Permission := db.permissions.filter (fun p => !p.deleted)

/-- The live rows of `role_permissions`. -/
def liveRolePermissions (db : DB) : List RolePermission :=
  db.rolePermissions.filter (fun rp => !rp.deleted)

/-- The state after `AddPolicy` followed by `RemovePolicy` on the same request, no call being
made to fail by the backend. -/
def grantThenRevoke (st : State) (req : PolicyRequest) : State :=
  (RemovePolicy (AddPolicy st GrantFaults.none (some req)).st RevokeFaults.none (some req)).st

/-- Whether role `rid` holds `(path, method)`: a live `role_permissions` row of the role refers
to a live permission row carrying the pair. -/
def holds (db : DB) (rid : Nat) (path method : String) : Bool :=
  db.rolePermissions.any (fun rp => !rp.deleted && rp.roleID == rid &&
    db.permissions.any (fun p =>
      !p.deleted && p.id == rp.permissionID && p.resource == path && p.action == method))

/-! ## Bootstrap (`internal/database`)

Backend errors are not injected in the bootstrap: a store call fails only when the store
refuses it (an absent row, a unique index). -/

/-- Statement `DB.Save(&existingRole)` after the description was set: the row with the key of
the role takes the values of the struct. -/
def saveRoleDescription (db : DB) (role : Role) (description : String) : DB :=
  { db with roles := db.roles.map (fun r =>
      if r.id == role.id then { role with description := description } else r) }

/-- Statement `DB.Save(&existingPermission)` after the description was set. -/
def savePermissionDescription (db : DB) (perm : Permission) (description : String) : DB :=
  { db with permissions := db.permissions.map (fun p =>
      if p.id == perm.id then { perm with description := description } else p) }

/-- Insert `DB.Create(&permission)` of a seeded permission, with its own description. -/
def insertPermission (db : DB) (resource action description : String) : DB :=
  { db with permissions := db.permissions ++
      [{ id := nextPermissionID db, resource := resource, action := action,
         description := description, deleted := false }] }

/-- Insert into the join table `role_permissions` with `ON CONFLICT DO NOTHING`. -/
def insertRolePermission (rows : List RolePermission) (rid pid : Nat) : List RolePermission :=
  if rows.any (fun rp => rp.roleID == rid && rp.permissionID == pid) then rows
  else rows ++ [{ roleID := rid, permissionID := pid, deleted := false }]

/-- Association call `DB.Model(&role).Association("Permissions").Replace(permissions)`: the
join rows of the given permissions are inserted, then the join rows of the role whose
permission is not among them are deleted from the table. -/
def replaceRolePermissions (db : DB) (rid : Nat) (pids : List Nat) : DB :=
  { db with rolePermissions :=
      (List.filter (fun rp => !(rp.roleID == rid) || pids.contains rp.permissionID)
        (pids.foldl (fun rows pid => insertRolePermission rows rid pid) db.rolePermissions)) }

/-- The preset roles of `InitRolesAndPermissions`: name and description. -/
def seedRoles : List (String × String) :=
  [("admin", "超级管理员"), ("user", "普通用户")]

/-- The preset permissions of `InitRolesAndPermissions`: resource, action, description. -/
def seedPermissions : List (String × String × String) :=
  [("/api/v1/users/", "GET", "查看用户列表"),
   ("/api/v1/users/register", "POST", "创建用户"),
   ("/api/v1/users/*", "GET", "查看用户详情"),
   ("/api/v1/users/*", "PUT", "更新用户信息"),
   ("/api/v1/users/*", "DELETE", "删除用户"),
   ("/api/v1/users/:id/password", "PUT", "更新用户密码"),
   ("/api/v1/roles/*", "GET", "查看角色列表"),
   ("/api/v1/roles/*", "POST", "创建角色"),
   ("/api/v1/roles/*", "GET", "查看角色详情"),
   ("/api/v1/roles/*", "PUT", "更新角色信息"),
   ("/api/v1/roles/*", "DELETE", "删除角色"),
   ("/api/v1/permissions/policy", "POST", "添加权限策略"),
   ("/api/v1/permissions/policy", "DELETE", "删除权限策略"),
   ("/api/v1/permissions/policies", "GET", "获取所有权限策略"),
   ("/api/v1/permissions/user-role", "PUT", "更新用户角色"),
   ("/api/v1/test", "GET", "示例接口")]

/-- The first loop of `InitRolesAndPermissions`: an existing role gets the preset description,
an absent one is created.  Returns the store and whether the loop returned an error. -/
def seedRolesFrom : DB → List (String × String) → DB × Bool
  | db, [] => (db, false)
  | db, (name, description) :: rest =>
    match findRole db name with
    | some r => seedRolesFrom (saveRoleDescription db r description) rest
    | none =>
      match createRole db name description with
      | none => (db, true)
      | some c => seedRolesFrom c.1 rest

/-- One step of the second loop of `InitRolesAndPermissions`. -/
def seedPermission (db : DB) (s : String × String × String) : DB :=
  match findPermission db s.1 s.2.1 with
  | some p => savePermissionDescription db p s.2.2
  | none => insertPermission db s.1 s.2.1 s.2.2

/-- The function `InitRolesAndPermissions`; `persisted` is what `LoadPolicy` reads back from
the adapter.  Returns the store, the engine and whether it returned an error. -/
def InitRolesAndPermissions (db : DB) (e persisted : Enforcer) : DB × Enforcer × Bool :=
  let r := seedRolesFrom db seedRoles
  if r.2 then (r.1, e, true)
  else
    let db2 := seedPermissions.foldl seedPermission r.1
    match findRole db2 "admin" with
    | none => (db2, e, true)
    | some adminRole =>
      let db3 := replaceRolePermissions db2 adminRole.id ((livePermissions db2).map (fun p => p.id))
      match findRole db3 "user" with
      | none => (db3, e, true)
      | some userRole =>
        let userPermissions := db3.permissions.filter (fun p =>
          !p.deleted && (p.resource == "/api/v1/users" || p.resource == "/api/v1/users/:id") &&
            p.action == "GET")
        let db4 := replaceRolePermissions db3 userRole.id (userPermissions.map (fun p => p.id))
        (db4, persisted, false)

/-- The function `InitCasbinAndPermissions`: `initCasbin` fails when the model file is absent,
otherwise the engine is created and loaded; the error of `InitRolesAndPermissions` is logged
only.  Returns the state and whether it returned an error. -/
def InitCasbinAndPermissions (db : DB) (persisted : Enforcer) (modelFile : Bool) : State × Bool :=
  if !modelFile then (⟨db, none⟩, true)
  else
    let r := InitRolesAndPermissions db persisted persisted
    (⟨r.1, some r.2.1⟩, false)

/-- Query `DB.Where("user_id = ? AND role_id = ?", uid, rid).First(&userRole)`. -/
def findUserRole (db : DB) (uid rid : Nat) : Option UserRole :=
  db.userRoles.find? (fun ur => !ur.deleted && ur.userID == uid && ur.roleID == rid)

/-- The part of `InitAdminUser` after the user is there (source lines 46-73). -/
def initAdminUserFrom (db : DB) (e : Enforcer) (f : SyncFaults) (user : User) :
    DB × Enforcer × Bool :=
  match findRole db "admin" with
  | none => (db, e, true)
  | some adminRole =>
    let db2 : DB :=
      match findUserRole db user.id adminRole.id with
      | some ur => if 0 < ur.userID then db
          else { db with userRoles := insertUserRole db.userRoles user.id adminRole.id }
      | none => { db with userRoles := insertUserRole db.userRoles user.id adminRole.id }
    let s := SyncCasbinPolicy db2 e f
    (db2, s.1, s.2)

/-- The function `InitAdminUser`.  Returns the store, the engine and whether it returned an
error. -/
def InitAdminUser (db : DB) (e : Enforcer) (f : SyncFaults) : DB × Enforcer × Bool :=
  match findUser db "admin" with
  | some user =>
    if 0 < user.id then initAdminUserFrom db e f user
    else
      match createUser db "admin" with
      | none => (db, e, true)
      | some c => initAdminUserFrom c.1 e f c.2
  | none =>
    match createUser db "admin" with
    | none => (db, e, true)
    | some c => initAdminUserFrom c.1 e f c.2

/-- The start-up sequence of `main`: `InitCasbinAndPermissions`, fatal on error, then
`InitAdminUser`, whose error is logged only. -/
def bootstrap (db : DB) (persisted : Enforcer) (modelFile : Bool) (f : SyncFaults) :
    State × Bool :=
  let r := InitCasbinAndPermissions db persisted modelFile
  if r.2 then (r.1, true)
  else
    match r.1.enforcer with
    | none => (r.1, true)
    | some e =>
      let a := InitAdminUser r.1.db e f
      (⟨a.1, some a.2.1⟩, false)

/-! ## `Enforce` -/

/-- Segments of a path: the characters between the `/`. -/
def splitSegments : List Char → List (List Char)
  | [] => [[]]
  | c :: cs =>
    if c = '/' then [] :: splitSegments cs
    else
      match splitSegments cs with
      | seg :: rest => (c :: seg) :: rest
      | [] => [[c]]

/-- Segment-wise match of a request path against a pattern.  A `*` that ends the pattern
stands after a `/`; the path has to reach that place, and whatever it has from there on is
matched: nothing (`/api/v1/users/` against `/api/v1/users/*`, the case of zero remaining
segments of section 8) or any number of segments. -/
def matchSegments : List (List Char) → List (List Char) → Bool
  | _ :: _, [['*']] => true
  | [], [] => true
  | s :: ss, p :: ps => (p == ['*'] || p.head? == some ':' || s == p) && matchSegments ss ps
  | _, _ => false

/-- Modelled from the spec: the matcher function of `configs/casbin_model.conf`, which is not
among the sources.  Section 4.3: path and pattern are split by `/`; a `*` segment matches that
single segment, a trailing `*` matches zero or more remaining segments, a `:name` segment is a
single-segment wildcard, otherwise segments must be literally equal.  Section 8 fixes the
boundary: the pattern `/api/v1/users/*` matches `/api/v1/users/`, with zero segments after the
last `/`. -/
def keyMatch (path pattern : String) : Bool :=
  matchSegments (splitSegments path.data) (splitSegments pattern.data)

/-- The role link `g(sub, role)` of the casbin role manager: the two names are equal, or a
chain of `G` pairs of at most `fuel` steps leads from the first to the second. -/
def hasLink (g : List (String × String)) : Nat → String → String → Bool
  | 0, a, b => a == b
  | fuel + 1, a, b => a == b || g.any (fun t => t.1 == a && hasLink g fuel t.2 b)

/-- Modelled from the spec: `Enforce` under the matcher of `configs/casbin_model.conf`, which
is not among the sources.  Section 4.2: `g(r.sub, p.sub) && keyMatch(r.obj, p.obj) &&
r.act == p.act`, allow when some policy matches; the role manager follows chains of up to ten
links. -/
def Enforcer.enforce (e : Enforcer) (sub obj act : String) : Bool :=
  e.p.any (fun t => hasLink e.g 10 sub t.1 && keyMatch obj t.2.1 && act == t.2.2)

/-- The answer the gate gets from `Enforce` on engine `e`: the matcher returns no error. -/
def Enforcer.answer (e : Enforcer) (sub obj act : String) : EnforceResult :=
  { ok := e.enforce sub obj act, err := none }

/-! ## Concrete states used to exercise the definitions -/

/-- A small store: users `admin` (live) and `bob` (soft-deleted), roles `admin` and `user`,
one permission `GET /t` held by `admin`. -/
def exDB : DB :=
  { users := [⟨1, "admin", false⟩, ⟨2, "bob", true⟩],
    roles := [⟨1, "admin", "", false⟩, ⟨2, "user", "", false⟩],
    permissions := [⟨1, "/t", "GET", "", false⟩],
    userRoles := [⟨1, 2, false⟩, ⟨1, 1, false⟩],
    rolePermissions := [⟨1, 1, false⟩] }

/-- An engine answer that allows exactly `(admin, /t, GET)` and never errs. -/
def exEnforce (sub obj act : String) : EnforceResult :=
  { ok := decide (sub = "admin" ∧ obj = "/t" ∧ act = "GET"), err := none }

/-- Engine and store in step: roles `admin` and `user`, permission `GET /t` held by `admin`. -/
def exState : State := { db := exDB, enforcer := some { p := [("admin", "/t", "GET")], g := [] } }

/-- The request `(user, /t, GET)`. -/
def exReq : PolicyRequest := { role := "user", path := "/t", method := "GET" }

/-- The state left by grant to `user`, then revoke from `user`, starting from `exState`:
`admin` still holds `GET /t`, and the `role_permissions` row of `user` is soft-deleted. -/
def exRevoked : State :=
  (RemovePolicy (AddPolicy exState GrantFaults.none (some exReq)).st RevokeFaults.none
    (some exReq)).st

/-- Roles `admin` and `user`, no permission, nothing granted. -/
def exBare : State :=
  { db := { users := [], roles := [⟨1, "admin", "", false⟩, ⟨2, "user", "", false⟩],
            permissions := [], userRoles := [], rolePermissions := [] },
    enforcer := some { p := [], g := [] } }

/-- The state left by a grant to the unknown role `ghost` on `exBare`: the handler has created
the permission row `GET /t` before it looked the role up, so the row is live and no role
holds it. -/
def exOrphan : State :=
  (AddPolicy exBare GrantFaults.none (some ⟨"ghost", "/t", "GET"⟩)).st

/-- The state left by the grant of `(user, /t, GET)` on `exState`: `admin` and `user` both hold
`GET /t`. -/
def exBoth : State := (AddPolicy exState GrantFaults.none (some exReq)).st

/-- A run of `RemovePolicy` in which only the `Count` query fails. -/
def countFails : RevokeFaults := { RevokeFaults.none with assocCount := true }

/-- The store before the first start-up: five empty tables. -/
def emptyDB : DB :=
  { users := [], roles := [], permissions := [], userRoles := [], rolePermissions := [] }

/-- The state left by the start-up sequence on the empty store, nothing persisted before, the
model file present, no call failing. -/
def bootState : State := (bootstrap emptyDB ⟨[], []⟩ true SyncFaults.none).1

/-- The engine of the bootstrap state. -/
def bootEngine : Enforcer := (SyncCasbinPolicy bootState.db ⟨[], []⟩ SyncFaults.none).1

/-- A run of `AddPolicy` in which only the adapter write of `Enforcer.AddPolicy` fails. -/
def addPolicyFails : GrantFaults := { GrantFaults.none with addPolicy := true }

/-- The engine after a rebuild from `exDB`. -/
def exEngine : Enforcer := (SyncCasbinPolicy exDB ⟨[], []⟩ SyncFaults.none).1

/-- A run of `UpdateUserRole` in which only the first query of `SyncCasbinPolicy` fails. -/
def syncFails : AssignFaults :=
  { AssignFaults.none with sync := { SyncFaults.none with userRolesFind := true } }

/-- The state left by `DeleteRole` of role `user` (key 2) on `exBoth`, where `user` holds
`GET /t`. -/
def exRoleDeleted : State :=
  (DeleteRole exBoth.db ⟨[("admin", "/t", "GET"), ("user", "/t", "GET")], []⟩
    DeleteRoleFaults.none (some 2)).st

/-- The assignment of the one role `user` to user 1. -/
def exAssign : Option UpdateUserRoleRequest := some ⟨1, ["user"]⟩

/-- A run of `RemovePolicy` in which only the adapter write of `Enforcer.RemovePolicy` fails. -/
def removePolicyFails : RevokeFaults := { RevokeFaults.none with removePolicy := true }

/-- The store left by `InitRolesAndPermissions` on the empty store. -/
def seededDB : DB := (InitRolesAndPermissions emptyDB ⟨[], []⟩ ⟨[], []⟩).1

/-- The request `(user, /api/v1/permissions/policies, GET)`. -/
def policiesReq : PolicyRequest :=
  { role := "user", path := "/api/v1/permissions/policies", method := "GET" }

/-- The state left by the grant of `policiesReq` on the bootstrap state, no call failing. -/
def bootGranted : State := (AddPolicy bootState GrantFaults.none (some policiesReq)).st

/-- The state left by the revoke of `policiesReq` right after that grant, no call failing. -/
def bootRevoked : State := (RemovePolicy bootGranted RevokeFaults.none (some policiesReq)).st

/-- The handler `PermissionController.GetPolicies`: the status and the listing, one string
`sub,obj,act` per tuple of `Enforcer.GetPolicy()`, in the order of `P`. -/
def GetPolicies (e : Enforcer) (getPolicyFails : Bool) : Nat × List String :=
  if getPolicyFails then (500, [])
  else (200, e.p.map (fun t => String.intercalate "," [t.1, t.2.1, t.2.2]))

/-- A run of `RemovePolicy` in which only the second `SavePolicy` fails. -/
def secondSaveFails : RevokeFaults := { RevokeFaults.none with savePolicyAgain := true }

/-- The rename of the role `admin` (key 1) to `root`. -/
def renameReq : UpdateRoleRequest := { id := 1, name := "root", description := "超级管理员" }

/-- The state left by `UpdateRole` with `renameReq` on the bootstrap state, no call failing. -/
def bootRenamed : State :=
  (UpdateRole bootState.db bootEngine UpdateRoleFaults.none (some renameReq)).st

/-- The store left by `CreateUser` of `bob` on the bootstrap state, no call failing. -/
def bootRegistered : DB := (CreateUser bootState.db CreateUserFaults.none "bob").1

/-- The store left by `DeleteUser` of the user `admin` (key 1) on the bootstrap state. -/
def bootUserDeleted : DB := (DeleteUser bootState.db false 1).1

/-- The state left by `DeleteRole` of the role `user` (key 2) after the grant of
`policiesReq` on the bootstrap state, no call failing. -/
def bootRoleDeleted : State :=
  (DeleteRole bootGranted.db bootEngine DeleteRoleFaults.none (some 2)).st

/-- The state reached from the bootstrap state by the registration of a user named `user`,
the registration of `bob`, and the assignment of the role `admin` to the user named `user`
(key 2), no call failing. -/
def exCollision : State :=
  (UpdateUserRole
    (CreateUser (CreateUser bootState.db CreateUserFaults.none "user").1
      CreateUserFaults.none "bob").1
    bootEngine AssignFaults.none (some ⟨2, ["admin"]⟩)).st

/-- The engine of `exCollision`, rebuilt by `SyncCasbinPolicy`. -/
def collisionEngine : Enforcer := (SyncCasbinPolicy exCollision.db ⟨[], []⟩ SyncFaults.none).1

/-- The store `exDB` with the rows of `roles` in the other order. -/
def exDBSwapped : DB := { exDB with roles := [⟨2, "user", "", false⟩, ⟨1, "admin", "", false⟩] }

/-- The role loop ends with `(true, nil)` exactly when some role gets `(true, nil)` and no role
before it gets an error. -/
theorem checkRoles_allow_iff (enforce : String → String → String → EnforceResult)
    (path method : String) (R : List Role) :
    ((checkRoles enforce path method R).1.err = none ∧
        (checkRoles enforce path method R).1.ok = true) ↔
      ∃ pre r post, R = pre ++ r :: post ∧ enforce r.name path method = ⟨true, none⟩ ∧
        ∀ q ∈ pre, (enforce q.name path method).err = none := by
  induction R with
  | nil => simp [checkRoles]
  | cons r rs ih =>
    rcases hres : enforce r.name path method with ⟨ok, err⟩
    cases err with
    | some msg =>
      have hl : ¬ ((checkRoles enforce path method (r :: rs)).1.err = none ∧
          (checkRoles enforce path method (r :: rs)).1.ok = true) := by
        simp [checkRoles, hres]
      refine iff_of_false hl ?_
      rintro ⟨pre, x, post, hsplit, hx, hpre⟩
      cases pre with
      | nil =>
        simp only [List.nil_append, List.cons.injEq] at hsplit
        rw [← hsplit.1, hres] at hx
        simp at hx
      | cons y ys =>
        simp only [List.cons_append, List.cons.injEq] at hsplit
        have := hpre y (List.mem_cons_self _ _)
        rw [← hsplit.1, hres] at this
        simp at this
    | none =>
      cases ok with
      | true =>
        have hl : (checkRoles enforce path method (r :: rs)).1.err = none ∧
            (checkRoles enforce path method (r :: rs)).1.ok = true := by
          simp [checkRoles, hres]
        refine iff_of_true hl ⟨[], r, rs, rfl, hres, ?_⟩
        simp
      | false =>
        have hstep : (checkRoles enforce path method (r :: rs)).1 =
            (checkRoles enforce path method rs).1 := by
          simp [checkRoles, hres]
        rw [hstep, ih]
        constructor
        · rintro ⟨pre, x, post, hsplit, hx, hpre⟩
          refine ⟨r :: pre, x, post, by simp [hsplit], hx, ?_⟩
          intro q hq
          rcases List.mem_cons.1 hq with rfl | hq
          · simp [hres]
          · exact hpre q hq
        · rintro ⟨pre, x, post, hsplit, hx, hpre⟩
          cases pre with
          | nil =>
            simp only [List.nil_append, List.cons.injEq] at hsplit
            rw [← hsplit.1, hres] at hx
            simp at hx
          | cons y ys =>
            simp only [List.cons_append, List.cons.injEq] at hsplit
            exact ⟨ys, x, post, hsplit.2, hx, fun q hq => hpre q (List.mem_cons_of_mem _ hq)⟩

/-- The role loop ends with `(false, nil)` when every role gets `(false, nil)`. -/
theorem checkRoles_all_false (enforce : String → String → String → EnforceResult)
    (path method : String) (R : List Role)
    (h : ∀ r ∈ R, enforce r.name path method = ⟨false, none⟩) :
    (checkRoles enforce path method R).1 = ⟨false, none⟩ := by
  induction R with
  | nil => rfl
  | cons r rs ih =>
    have hr := h r (List.mem_cons_self _ _)
    simp [checkRoles, hr, ih (fun q hq => h q (List.mem_cons_of_mem _ hq))]

/-- The role loop ends with an error when a role gets one after roles that got
`(false, nil)`. -/
theorem checkRoles_error (enforce : String → String → String → EnforceResult)
    (path method : String) (pre : List Role) (r : Role) (post : List Role)
    (hr : (enforce r.name path method).err ≠ none)
    (hpre : ∀ q ∈ pre, enforce q.name path method = ⟨false, none⟩) :
    (checkRoles enforce path method (pre ++ r :: post)).1.err ≠ none := by
  induction pre with
  | nil =>
    cases herr : (enforce r.name path method).err with
    | none => exact absurd herr hr
    | some msg => simp [checkRoles, herr]
  | cons y ys ih =>
    have hy := hpre y (List.mem_cons_self _ _)
    simpa [checkRoles, hy] using ih (fun q hq => hpre q (List.mem_cons_of_mem _ hq))

/-- The role loop only asks the engine about roles of the list. -/
theorem checkRoles_calls (enforce : String → String → String → EnforceResult)
    (path method : String) (R : List Role) :
    ∀ c ∈ (checkRoles enforce path method R).2, ∃ r ∈ R, c = Call.enforce r.name := by
  induction R with
  | nil => simp [checkRoles]
  | cons r rs ih =>
    intro c hc
    by_cases h1 : (enforce r.name path method).err.isSome = true
    · simp [checkRoles, h1] at hc
      exact ⟨r, List.mem_cons_self _ _, hc⟩
    · by_cases h2 : (enforce r.name path method).ok = true
      · simp [checkRoles, h1, h2] at hc
        exact ⟨r, List.mem_cons_self _ _, hc⟩
      · simp [checkRoles, h1, h2] at hc
        rcases hc with rfl | hc
        · exact ⟨r, List.mem_cons_self _ _, rfl⟩
        · obtain ⟨q, hq, hcq⟩ := ih c hc
          exact ⟨q, List.mem_cons_of_mem _ hq, hcq⟩

/-- C1. Gate decision.  For a request whose `username` resolves to the live user `u` (store
key different from 0), with `R` the roles loaded for `u`: the gate calls `next` exactly when
some role of `R` gets `(true, nil)` from `Enforce` and no role before it got an error; when
every role gets `(false, nil)` (also when `R` is empty) it aborts with 403; when a role gets an
error after roles that got `(false, nil)` it aborts with 403; no other outcome occurs. -/
theorem casbinMiddleware_decision (db : DB) (enforce : String → String → String → EnforceResult)
    (faults : GateFaults) (name path method : String) (u : User)
    (hq : faults.userQuery = false) (hu : findUser db name = some u) (hid : u.id ≠ 0) :
    ((CasbinMiddleware db enforce faults (some name) path method).decision = Decision.next ↔
        ∃ pre r post, loadedRoles db faults u = pre ++ r :: post ∧
          enforce r.name path method = ⟨true, none⟩ ∧
          ∀ q ∈ pre, (enforce q.name path method).err = none) ∧
      ((∀ r ∈ loadedRoles db faults u, enforce r.name path method = ⟨false, none⟩) →
        (CasbinMiddleware db enforce faults (some name) path method).decision
          = Decision.abort 403) ∧
      ((∃ pre r post, loadedRoles db faults u = pre ++ r :: post ∧
          (enforce r.name path method).err ≠ none ∧
          ∀ q ∈ pre, enforce q.name path method = ⟨false, none⟩) →
        (CasbinMiddleware db enforce faults (some name) path method).decision
          = Decision.abort 403) ∧
      ((CasbinMiddleware db enforce faults (some name) path method).decision = Decision.next ∨
        (CasbinMiddleware db enforce faults (some name) path method).decision
          = Decision.abort 403) := by
  have hrun : (CasbinMiddleware db enforce faults (some name) path method).decision =
      if (checkRoles enforce path method (loadedRoles db faults u)).1.err = none ∧
          (checkRoles enforce path method (loadedRoles db faults u)).1.ok = true
      then Decision.next else Decision.abort 403 := by
    cases herr : (checkRoles enforce path method (loadedRoles db faults u)).1.err <;>
      cases hok : (checkRoles enforce path method (loadedRoles db faults u)).1.ok <;>
      simp [CasbinMiddleware, hq, hu, hid, herr, hok]
  refine ⟨?_, ?_, ?_, ?_⟩
  · rw [hrun, ← checkRoles_allow_iff]
    split <;> simp_all
  · intro h
    rw [hrun, checkRoles_all_false enforce path method _ h]
    simp
  · rintro ⟨pre, r, post, hsplit, hr, hpre⟩
    have := checkRoles_error enforce path method pre r post hr hpre
    rw [hrun, hsplit]
    simp [this]
  · rw [hrun]
    split <;> simp

/-- C1, at `admin` asking `GET /t` on `exDB`. -/
theorem casbinMiddleware_decision_witness :
    (GateFaults.mk false false).userQuery = false ∧
      findUser exDB "admin" = some ⟨1, "admin", false⟩ ∧ (1 : Nat) ≠ 0 ∧
      ((CasbinMiddleware exDB exEnforce ⟨false, false⟩ (some "admin") "/t" "GET").decision
          = Decision.next ∨
        (CasbinMiddleware exDB exEnforce ⟨false, false⟩ (some "admin") "/t" "GET").decision
          = Decision.abort 403) :=
  ⟨rfl, by decide, by decide,
    (casbinMiddleware_decision exDB exEnforce ⟨false, false⟩ "admin" "/t" "GET"
      ⟨1, "admin", false⟩ rfl (by decide) (by decide)).2.2.2⟩

/-- C2. Gate authentication failures.  When the context carries no `username`, or the user
query fails, or every `users` row with that username is soft-deleted (in particular when there
is none), the gate aborts with 401 and the run contains no call to the engine. -/
theorem casbinMiddleware_unauthenticated (db : DB)
    (enforce : String → String → String → EnforceResult) (faults : GateFaults)
    (username : Option String) (path method : String)
    (h : username = none ∨ ∃ n, username = some n ∧
      (faults.userQuery = true ∨ ∀ u ∈ db.users, u.username = n → u.deleted = true)) :
    (CasbinMiddleware db enforce faults username path method).decision = Decision.abort 401 ∧
      ∀ c ∈ (CasbinMiddleware db enforce faults username path method).calls,
        c.isEngine = false := by
  rcases h with rfl | ⟨n, rfl, h⟩
  · simp [CasbinMiddleware]
  · have hnone : (if faults.userQuery then none else findUser db n) = none := by
      rcases h with h | h
      · simp [h]
      · have : findUser db n = none := by
          simp only [findUser, List.find?_eq_none]
          intro u hu
          by_cases hn : u.username = n
          · simp [h u hu hn]
          · simp [hn]
        simp [this]
    simp [CasbinMiddleware, hnone, Call.isEngine]

/-- C2, at the soft-deleted user `bob` on `exDB`. -/
theorem casbinMiddleware_unauthenticated_witness :
    ((some "bob" : Option String) = none ∨ ∃ n, some "bob" = some n ∧
        ((GateFaults.mk false false).userQuery = true ∨
          ∀ u ∈ exDB.users, u.username = n → u.deleted = true)) ∧
      (CasbinMiddleware exDB exEnforce ⟨false, false⟩ (some "bob") "/t" "GET").decision
        = Decision.abort 401 :=
  ⟨Or.inr ⟨"bob", rfl, Or.inr (by decide)⟩,
    (casbinMiddleware_unauthenticated exDB exEnforce ⟨false, false⟩ (some "bob") "/t" "GET"
      (Or.inr ⟨"bob", rfl, Or.inr (by decide)⟩)).1⟩

/-! ## Input validation -/

/-- C3. Grant input validation.  A request in which role, path or method is empty, or whose
method is not literally one of GET, POST, PUT, DELETE, PATCH, is answered 400 by `AddPolicy`;
the store and the engine are left as they were and no store or engine call is made. -/
theorem addPolicy_invalid_input (st : State) (f : GrantFaults) (req : PolicyRequest)
    (h : req.role = "" ∨ req.path = "" ∨ req.method = "" ∨
      ¬ (req.method = "GET" ∨ req.method = "POST" ∨ req.method = "PUT" ∨
        req.method = "DELETE" ∨ req.method = "PATCH")) :
    (AddPolicy st f (some req)).status = 400 ∧ (AddPolicy st f (some req)).st = st ∧
      (AddPolicy st f (some req)).calls = [] := by
  by_cases hb : req.role = "" ∨ req.path = "" ∨ req.method = ""
  · simp [AddPolicy, bindPolicyRequest, hb, Out.status]
  · have hm : req.method ∉ validMethods := by
      rcases h with h | h | h | h
      · exact absurd (Or.inl h) hb
      · exact absurd (Or.inr (Or.inl h)) hb
      · exact absurd (Or.inr (Or.inr h)) hb
      · simpa [validMethods] using h
    have hv : req.role = "" ∨ req.path = "" ∨ req.method = "" ∨ req.method ∉ validMethods :=
      Or.inr (Or.inr (Or.inr hm))
    simp only [AddPolicy, bindPolicyRequest, hb, if_false, hv, if_true, Out.status]
    simp

/-- C3, at the lower-case method `get`. -/
theorem addPolicy_invalid_input_witness :
    (("user" : String) = "" ∨ ("/t" : String) = "" ∨ ("get" : String) = "" ∨
        ¬ (("get" : String) = "GET" ∨ ("get" : String) = "POST" ∨ ("get" : String) = "PUT" ∨
          ("get" : String) = "DELETE" ∨ ("get" : String) = "PATCH")) ∧
      (AddPolicy exState GrantFaults.none (some ⟨"user", "/t", "get"⟩)).status = 400 :=
  ⟨by decide,
    (addPolicy_invalid_input exState GrantFaults.none ⟨"user", "/t", "get"⟩ (by decide)).1⟩

/-- C4. Revoke with a method outside GET, POST, PUT, DELETE, PATCH: `RemovePolicy` does not
reject `(admin, /t, FETCH)` as invalid input; it goes on to the permission lookup and answers
500. -/
theorem removePolicy_unknown_method_not_rejected :
    (RemovePolicy exState RevokeFaults.none (some ⟨"admin", "/t", "FETCH"⟩)).status = 500 ∧
      (RemovePolicy exState RevokeFaults.none (some ⟨"admin", "/t", "FETCH"⟩)).calls
        = [Call.permFirst] ∧
      (AddPolicy exState GrantFaults.none (some ⟨"admin", "/t", "FETCH"⟩)).status = 400 := by
  decide

/-! ## Grant twice -/

/-- C5. Grant twice in the state left by grant-then-revoke (role `user` exists and does not
hold `GET /t`): the soft-deleted `role_permissions` row blocks the insert, and the first and
the second grant are both answered 500; the second leaves the state of the first. -/
theorem addPolicy_twice_after_revoke :
    exRevoked.db.rolePermissions = [⟨1, 1, false⟩, ⟨2, 1, true⟩] ∧
      findRole exRevoked.db "user" = some ⟨2, "user", "", false⟩ ∧
      (AddPolicy exRevoked GrantFaults.none (some exReq)).status = 500 ∧
      (AddPolicy (AddPolicy exRevoked GrantFaults.none (some exReq)).st GrantFaults.none
        (some exReq)).status = 500 ∧
      (AddPolicy (AddPolicy exRevoked GrantFaults.none (some exReq)).st GrantFaults.none
        (some exReq)).st = (AddPolicy exRevoked GrantFaults.none (some exReq)).st := by
  decide

/-! ## Grant and revoke: what a run answered 200 did -/

/-- Membership in the projection, row by row. -/
theorem mem_policyProjection (db : DB) (t : Policy) :
    t ∈ policyProjection db ↔
      ∃ rp ∈ db.rolePermissions, rp.deleted = false ∧
        ∃ r ∈ db.roles, r.deleted = false ∧ r.id = rp.roleID ∧
          ∃ p ∈ db.permissions, p.deleted = false ∧ p.id = rp.permissionID ∧
            t = (r.name, p.resource, p.action) := by
  simp only [policyProjection, List.mem_flatMap, List.mem_filter, List.mem_map,
    Bool.and_eq_true, Bool.not_eq_true', beq_iff_eq]
  constructor
  · rintro ⟨rp, ⟨hrp, hrpd⟩, r, ⟨hr, hrd, hrid⟩, p, ⟨hp, hpd, hpid⟩, rfl⟩
    exact ⟨rp, hrp, hrpd, r, hr, hrd, hrid, p, hp, hpd, hpid, rfl⟩
  · rintro ⟨rp, hrp, hrpd, r, hr, hrd, hrid, p, hp, hpd, hpid, rfl⟩
    exact ⟨rp, ⟨hrp, hrpd⟩, r, ⟨hr, hrd, hrid⟩, p, ⟨hp, hpd, hpid⟩, rfl⟩

/-- Invariant I4 as an equivalence of memberships. -/
theorem I4_iff (db : DB) (e : Enforcer) : I4 db e ↔ ∀ t, t ∈ e.p ↔ t ∈ policyProjection db :=
  ⟨fun h t => ⟨h.1 t, h.2 t⟩, fun h => ⟨fun t => (h t).1, fun t => (h t).2⟩⟩

/-- The next key of `permissions` is above every stored key. -/
theorem lt_nextPermissionID (db : DB) : ∀ p ∈ db.permissions, p.id < nextPermissionID db := by
  unfold nextPermissionID
  generalize db.permissions = l
  induction l with
  | nil => simp
  | cons a l ih =>
    intro p hp
    simp only [List.map_cons, List.foldr_cons]
    rcases List.mem_cons.1 hp with rfl | hp
    · omega
    · have := ih p hp
      omega

theorem findPermission_some {db : DB} {path method : String} {perm : Permission}
    (h : findPermission db path method = some perm) :
    perm ∈ db.permissions ∧ perm.deleted = false ∧ perm.resource = path ∧ perm.action = method := by
  have h1 := List.mem_of_find?_eq_some h
  have h2 := List.find?_some h
  simp only [Bool.and_eq_true, Bool.not_eq_true', beq_iff_eq] at h2
  exact ⟨h1, h2.1.1, h2.1.2, h2.2⟩

theorem findRole_some {db : DB} {name : String} {role : Role}
    (h : findRole db name = some role) :
    role ∈ db.roles ∧ role.deleted = false ∧ role.name = name := by
  have h1 := List.mem_of_find?_eq_some h
  have h2 := List.find?_some h
  simp only [Bool.and_eq_true, Bool.not_eq_true', beq_iff_eq] at h2
  exact ⟨h1, h2.1, h2.2⟩

/-- What a run of the tail of `AddPolicy` answered 200 went through. -/
theorem addPolicyFrom_ok (e : Enforcer) (f : GrantFaults) (req : PolicyRequest) (db : DB)
    (perm : Permission) (calls : List Call)
    (h : (addPolicyFrom e f req db perm calls).status = 200) :
    ∃ role db2, findRole db req.role = some role ∧
      findRolePermission db role.id perm.id = none ∧
      createRolePermission db role.id perm.id = some db2 ∧
      (req.role, req.path, req.method) ∉ e.p ∧
      (addPolicyFrom e f req db perm calls).st =
        ⟨db2, some { e with p := e.p ++ [(req.role, req.path, req.method)] }⟩ := by
  unfold addPolicyFrom at h ⊢
  by_cases h1 : f.roleQuery = true
  · simp [h1, Out.status] at h
  replace h1 : f.roleQuery = false := by simpa using h1
  simp only [h1, Bool.false_eq_true, if_false] at h ⊢
  cases hrole : findRole db req.role with
  | none => simp [hrole, Out.status] at h
  | some role =>
    simp only [hrole] at h ⊢
    by_cases h2 : f.assocQuery = true
    · simp [h2, Out.status] at h
    replace h2 : f.assocQuery = false := by simpa using h2
    simp only [h2, Bool.false_eq_true, if_false] at h ⊢
    cases hrp : findRolePermission db role.id perm.id with
    | some rp => simp [hrp, Out.status] at h
    | none =>
      simp only [hrp] at h ⊢
      by_cases h3 : f.assocCreate = true
      · simp [h3, Out.status] at h
      replace h3 : f.assocCreate = false := by simpa using h3
      simp only [h3, Bool.false_eq_true, if_false] at h ⊢
      cases hcr : createRolePermission db role.id perm.id with
      | none => simp [hcr, Out.status] at h
      | some db2 =>
        simp only [hcr] at h ⊢
        by_cases h4 : (req.role, req.path, req.method) ∈ e.p
        · simp [Enforcer.addPolicy, h4, Out.status] at h
        by_cases h5 : f.addPolicy = true
        · simp [Enforcer.addPolicy, h4, h5, Out.status] at h
        replace h5 : f.addPolicy = false := by simpa using h5
        by_cases h6 : f.savePolicy = true
        · simp [Enforcer.addPolicy, h4, h5, h6, Out.status] at h
        replace h6 : f.savePolicy = false := by simpa using h6
        exact ⟨role, db2, rfl, hrp, hcr, h4, by simp [Enforcer.addPolicy, h4, h5, h6]⟩

theorem bindPolicyRequest_some {body : Option PolicyRequest} {req : PolicyRequest}
    (hb : bindPolicyRequest body = some req) : body = some req := by
  cases body with
  | none => simp [bindPolicyRequest] at hb
  | some r =>
    simp only [bindPolicyRequest] at hb
    split at hb
    · simp at hb
    · simpa using hb

/-- What a run of `AddPolicy` answered 200 went through: the request was valid, the permission
was found or created, the role was found, the association was absent and inserted, the tuple
was new to `P`. -/
theorem addPolicy_ok (st : State) (f : GrantFaults) (body : Option PolicyRequest)
    (h : (AddPolicy st f body).status = 200) :
    ∃ req e db1 perm role db2, body = some req ∧ st.enforcer = some e ∧
      ((findPermission st.db req.path req.method = some perm ∧ db1 = st.db) ∨
        (findPermission st.db req.path req.method = none ∧
          (db1, perm) = createPermission st.db req.path req.method)) ∧
      findRole db1 req.role = some role ∧
      findRolePermission db1 role.id perm.id = none ∧
      createRolePermission db1 role.id perm.id = some db2 ∧
      (req.role, req.path, req.method) ∉ e.p ∧
      (AddPolicy st f body).st =
        ⟨db2, some { e with p := e.p ++ [(req.role, req.path, req.method)] }⟩ ∧
      ¬ (req.role = "" ∨ req.path = "" ∨ req.method = "" ∨ req.method ∉ validMethods) := by
  unfold AddPolicy at h ⊢
  cases hb : bindPolicyRequest body with
  | none => simp [hb, Out.status] at h
  | some req =>
    have hbody := bindPolicyRequest_some hb
    simp only [hb] at h ⊢
    by_cases hv : req.role = "" ∨ req.path = "" ∨ req.method = "" ∨ req.method ∉ validMethods
    · simp [hv, Out.status] at h
    simp only [hv, if_false] at h ⊢
    cases he : st.enforcer with
    | none => simp [he, Out.status] at h
    | some e =>
      simp only [he] at h ⊢
      by_cases h1 : f.permQuery = true
      · simp [h1, Out.status] at h
      replace h1 : f.permQuery = false := by simpa using h1
      simp only [h1, Bool.false_eq_true, if_false] at h ⊢
      cases hp : findPermission st.db req.path req.method with
      | some perm =>
        simp only [hp] at h ⊢
        obtain ⟨role, db2, a, b, c, d, e5⟩ := addPolicyFrom_ok _ _ _ _ _ _ h
        exact ⟨req, e, st.db, perm, role, db2, hbody, rfl, Or.inl ⟨hp, rfl⟩, a, b, c, d, e5, hv⟩
      | none =>
        simp only [hp] at h ⊢
        by_cases h2 : f.permCreate = true
        · simp [h2, Out.status] at h
        replace h2 : f.permCreate = false := by simpa using h2
        simp only [h2, Bool.false_eq_true, if_false] at h ⊢
        obtain ⟨role, db2, a, b, c, d, e5⟩ := addPolicyFrom_ok _ _ _ _ _ _ h
        exact ⟨req, e, _, _, role, db2, hbody, rfl, Or.inr ⟨hp, rfl⟩, a, b, c, d, e5, hv⟩

/-- What a run of the tail of `RemovePolicy` answered 200 went through. -/
theorem removePolicyFrom_ok (e : Enforcer) (f : RevokeFaults) (req : PolicyRequest) (db : DB)
    (calls : List Call) (h : (removePolicyFrom e f req db calls).status = 200) :
    (req.role, req.path, req.method) ∈ e.p ∧
      (removePolicyFrom e f req db calls).st =
        ⟨db, some { e with p := e.p.filter (fun q => q ≠ (req.role, req.path, req.method)) }⟩ := by
  unfold removePolicyFrom at h ⊢
  by_cases h1 : f.removePolicy = true
  · simp [Enforcer.removePolicy, h1, Out.status] at h
  replace h1 : f.removePolicy = false := by simpa using h1
  by_cases h2 : (req.role, req.path, req.method) ∈ e.p
  · by_cases h3 : f.savePolicy = true
    · simp [Enforcer.removePolicy, h1, h2, h3, Out.status] at h
    replace h3 : f.savePolicy = false := by simpa using h3
    cases h4 : f.savePolicyAgain <;> simp [Enforcer.removePolicy, h1, h2, h3, h4]
  · simp [Enforcer.removePolicy, h1, h2, Out.status] at h

/-- What a run of `RemovePolicy` answered 200 went through, and the state it left. -/
theorem removePolicy_ok (st : State) (f : RevokeFaults) (body : Option PolicyRequest)
    (h : (RemovePolicy st f body).status = 200) :
    ∃ req e perm role, body = some req ∧ st.enforcer = some e ∧
      findPermission st.db req.path req.method = some perm ∧
      findRole st.db req.role = some role ∧
      (req.role, req.path, req.method) ∈ e.p ∧
      (RemovePolicy st f body).st =
        ⟨if (if f.assocCount then 0
              else countRolePermissions (deleteRolePermission st.db role.id perm.id) perm.id) = 0
          then deletePermission (deleteRolePermission st.db role.id perm.id) perm.id
          else deleteRolePermission st.db role.id perm.id,
         some { e with p := e.p.filter (fun q => q ≠ (req.role, req.path, req.method)) }⟩ := by
  unfold RemovePolicy at h ⊢
  cases hb : bindPolicyRequest body with
  | none => simp [hb, Out.status] at h
  | some req =>
    have hbody := bindPolicyRequest_some hb
    simp only [hb] at h ⊢
    by_cases hv : req.role = "" ∨ req.path = "" ∨ req.method = ""
    · simp [hv, Out.status] at h
    simp only [hv, if_false] at h ⊢
    cases he : st.enforcer with
    | none => simp [he, Out.status] at h
    | some e =>
      simp only [he] at h ⊢
      by_cases h1 : f.permQuery = true
      · simp [h1, Out.status] at h
      replace h1 : f.permQuery = false := by simpa using h1
      simp only [h1, Bool.false_eq_true, if_false] at h ⊢
      cases hp : findPermission st.db req.path req.method with
      | none => simp [hp, Out.status] at h
      | some perm =>
        simp only [hp] at h ⊢
        by_cases h2 : f.roleQuery = true
        · simp [h2, Out.status] at h
        replace h2 : f.roleQuery = false := by simpa using h2
        simp only [h2, Bool.false_eq_true, if_false] at h ⊢
        cases hr : findRole st.db req.role with
        | none => simp [hr, Out.status] at h
        | some role =>
          simp only [hr] at h ⊢
          by_cases h3 : f.assocDelete = true
          · simp [h3, Out.status] at h
          replace h3 : f.assocDelete = false := by simpa using h3
          simp only [h3, Bool.false_eq_true, if_false] at h ⊢
          refine ⟨req, e, perm, role, hbody, rfl, hp, hr, ?_⟩
          by_cases hc : (if f.assocCount then 0
              else countRolePermissions (deleteRolePermission st.db role.id perm.id) perm.id) = 0
          · simp only [hc, if_true] at h ⊢
            by_cases h4 : f.permDelete = true
            · simp [h4, Out.status] at h
            replace h4 : f.permDelete = false := by simpa using h4
            simp only [h4, Bool.false_eq_true, if_false] at h ⊢
            exact removePolicyFrom_ok _ _ _ _ _ h
          · simp only [hc, if_false] at h ⊢
            exact removePolicyFrom_ok _ _ _ _ _ h

/-- The live rows of `role_permissions` after the soft delete of the key `(rid, pid)`. -/
theorem mem_deleteRolePermission_live (db : DB) (rid pid : Nat) (rp : RolePermission) :
    (rp ∈ (deleteRolePermission db rid pid).rolePermissions ∧ rp.deleted = false) ↔
      (rp ∈ db.rolePermissions ∧ rp.deleted = false ∧ ¬ (rp.roleID = rid ∧ rp.permissionID = pid)) := by
  simp only [deleteRolePermission, List.mem_map]
  constructor
  · rintro ⟨⟨a, ha, rfl⟩, hd⟩
    by_cases hc : (!a.deleted && a.roleID == rid && a.permissionID == pid) = true
    · simp [hc] at hd
    · simp only [hc, if_false, Bool.false_eq_true] at hd ⊢
      refine ⟨ha, hd, ?_⟩
      intro hk
      exact hc (by simp [hd, hk.1, hk.2])
  · rintro ⟨ha, hd, hk⟩
    refine ⟨⟨rp, ha, ?_⟩, hd⟩
    have hc : ¬ (!rp.deleted && rp.roleID == rid && rp.permissionID == pid) = true := by
      simp only [Bool.and_eq_true, Bool.not_eq_true', beq_iff_eq]
      rintro ⟨⟨_, h1⟩, h2⟩
      exact hk ⟨h1, h2⟩
    simp [hc]

/-- The live rows of `permissions` after the soft delete of the key `pid`. -/
theorem mem_deletePermission_live (db : DB) (pid : Nat) (p : Permission) :
    (p ∈ (deletePermission db pid).permissions ∧ p.deleted = false) ↔
      (p ∈ db.permissions ∧ p.deleted = false ∧ p.id ≠ pid) := by
  simp only [deletePermission, List.mem_map]
  constructor
  · rintro ⟨⟨a, ha, rfl⟩, hd⟩
    by_cases hc : (!a.deleted && a.id == pid) = true
    · simp [hc] at hd
    · simp only [hc, if_false, Bool.false_eq_true] at hd ⊢
      refine ⟨ha, hd, ?_⟩
      intro hk
      exact hc (by simp [hd, hk])
  · rintro ⟨ha, hd, hk⟩
    refine ⟨⟨p, ha, ?_⟩, hd⟩
    have hc : ¬ (!p.deleted && p.id == pid) = true := by
      simp only [Bool.and_eq_true, Bool.not_eq_true', beq_iff_eq, not_and]
      intro _ h1
      exact hk h1
    simp [hc]

theorem countRolePermissions_eq_zero (db : DB) (pid : Nat) :
    countRolePermissions db pid = 0 ↔
      ∀ rp ∈ db.rolePermissions, rp.deleted = false → rp.permissionID ≠ pid := by
  simp only [countRolePermissions, List.length_eq_zero, List.filter_eq_nil_iff,
    Bool.and_eq_true, Bool.not_eq_true', beq_iff_eq, not_and]

theorem count_after_delete_eq_zero (db : DB) (rid pid : Nat) :
    countRolePermissions (deleteRolePermission db rid pid) pid = 0 ↔
      ∀ rp ∈ db.rolePermissions, rp.deleted = false → rp.permissionID = pid → rp.roleID = rid := by
  rw [countRolePermissions_eq_zero]
  constructor
  · intro h rp hrp hd hp
    by_contra hne
    exact h rp ((mem_deleteRolePermission_live db rid pid rp).2 ⟨hrp, hd, fun hk => hne hk.1⟩).1 hd hp
  · intro h rp hrp hd hp
    have := (mem_deleteRolePermission_live db rid pid rp).1 ⟨hrp, hd⟩
    exact this.2.2 ⟨h rp this.1 hd hp, hp⟩

/-- The projection after the store steps of a revoke: the tuple of the revoked pair leaves,
every other tuple stays. -/
theorem policyProjection_revoke (db : DB) (role : Role) (perm : Permission)
    (hkeys : schemaKeys db) (hup : uniquePermissions db) (hur : uniqueRoleNames db)
    (hrole : role ∈ db.roles) (hrl : role.deleted = false)
    (hperm : perm ∈ db.permissions) (hpl : perm.deleted = false) (t : Policy) :
    t ∈ policyProjection
        (if countRolePermissions (deleteRolePermission db role.id perm.id) perm.id = 0
          then deletePermission (deleteRolePermission db role.id perm.id) perm.id
          else deleteRolePermission db role.id perm.id) ↔
      t ∈ policyProjection db ∧ t ≠ (role.name, perm.resource, perm.action) := by
  obtain ⟨hrk, hpk, -⟩ := hkeys
  rw [mem_policyProjection, mem_policyProjection]
  by_cases hc : countRolePermissions (deleteRolePermission db role.id perm.id) perm.id = 0
  · simp only [hc, if_true]
    have hc' := (count_after_delete_eq_zero db role.id perm.id).1 hc
    constructor
    · rintro ⟨rp, hrp, hrpd, r, hr, hrd, hrid, p, hp, hpd, hpid, rfl⟩
      have h1 := (mem_deleteRolePermission_live db role.id perm.id rp).1 ⟨hrp, hrpd⟩
      have h2 := (mem_deletePermission_live (deleteRolePermission db role.id perm.id) perm.id p).1
        ⟨hp, hpd⟩
      refine ⟨⟨rp, h1.1, hrpd, r, hr, hrd, hrid, p, h2.1, hpd, hpid, rfl⟩, ?_⟩
      intro heq
      simp only [Prod.mk.injEq] at heq
      have hpp : p = perm := hup p h2.1 perm hperm hpd hpl heq.2.1 heq.2.2
      exact h2.2.2 (by rw [hpp])
    · rintro ⟨⟨rp, hrp, hrpd, r, hr, hrd, hrid, p, hp, hpd, hpid, rfl⟩, hne⟩
      have hk : ¬ (rp.roleID = role.id ∧ rp.permissionID = perm.id) := by
        rintro ⟨k1, k2⟩
        have hrr : r = role := hrk r hr role hrole (by rw [hrid, k1])
        have hpp : p = perm := hpk p hp perm hperm (by rw [hpid, k2])
        exact hne (by rw [hrr, hpp])
      have hpne : p.id ≠ perm.id := by
        intro k
        exact hk ⟨hc' rp hrp hrpd (by rw [← hpid, k]), by rw [← hpid, k]⟩
      exact ⟨rp, ((mem_deleteRolePermission_live db role.id perm.id rp).2 ⟨hrp, hrpd, hk⟩).1, hrpd,
        r, hr, hrd, hrid, p,
        ((mem_deletePermission_live (deleteRolePermission db role.id perm.id) perm.id p).2
          ⟨hp, hpd, hpne⟩).1, hpd, hpid, rfl⟩
  · simp only [hc, if_false]
    constructor
    · rintro ⟨rp, hrp, hrpd, r, hr, hrd, hrid, p, hp, hpd, hpid, rfl⟩
      have h1 := (mem_deleteRolePermission_live db role.id perm.id rp).1 ⟨hrp, hrpd⟩
      refine ⟨⟨rp, h1.1, hrpd, r, hr, hrd, hrid, p, hp, hpd, hpid, rfl⟩, ?_⟩
      intro heq
      simp only [Prod.mk.injEq] at heq
      have hpp : p = perm := hup p hp perm hperm hpd hpl heq.2.1 heq.2.2
      have hrr : r = role := hur r hr role hrole hrd hrl heq.1
      exact h1.2.2 ⟨by rw [← hrid, hrr], by rw [← hpid, hpp]⟩
    · rintro ⟨⟨rp, hrp, hrpd, r, hr, hrd, hrid, p, hp, hpd, hpid, rfl⟩, hne⟩
      have hk : ¬ (rp.roleID = role.id ∧ rp.permissionID = perm.id) := by
        rintro ⟨k1, k2⟩
        have hrr : r = role := hrk r hr role hrole (by rw [hrid, k1])
        have hpp : p = perm := hpk p hp perm hperm (by rw [hpid, k2])
        exact hne (by rw [hrr, hpp])
      exact ⟨rp, ((mem_deleteRolePermission_live db role.id perm.id rp).2 ⟨hrp, hrpd, hk⟩).1, hrpd,
        r, hr, hrd, hrid, p, hp, hpd, hpid, rfl⟩

theorem createRolePermission_some {db db2 : DB} {rid pid : Nat}
    (h : createRolePermission db rid pid = some db2) :
    db2 = { db with rolePermissions :=
      db.rolePermissions ++ [{ roleID := rid, permissionID := pid, deleted := false }] } := by
  unfold createRolePermission at h
  split at h
  · simp at h
  · simpa using h.symm

/-- A permission row inserted under a fresh key joins no stored association. -/
theorem policyProjection_createPermission (db : DB) (path method : String)
    (hkeys : schemaKeys db) (t : Policy) :
    t ∈ policyProjection (createPermission db path method).1 ↔ t ∈ policyProjection db := by
  obtain ⟨-, -, hfk⟩ := hkeys
  rw [mem_policyProjection, mem_policyProjection]
  constructor
  · rintro ⟨rp, hrp, hrpd, r, hr, hrd, hrid, p, hp, hpd, hpid, rfl⟩
    simp only [createPermission, List.mem_append, List.mem_singleton] at hp hrp hr
    rcases hp with hp | rfl
    · exact ⟨rp, hrp, hrpd, r, hr, hrd, hrid, p, hp, hpd, hpid, rfl⟩
    · obtain ⟨q, hq, hqid⟩ := hfk rp hrp
      have := lt_nextPermissionID db q hq
      simp only at hpid
      omega
  · rintro ⟨rp, hrp, hrpd, r, hr, hrd, hrid, p, hp, hpd, hpid, rfl⟩
    exact ⟨rp, hrp, hrpd, r, hr, hrd, hrid, p,
      by simp only [createPermission, List.mem_append]; exact Or.inl hp, hpd, hpid, rfl⟩

/-- The projection after the insert of an association: the tuple of the pair is added. -/
theorem policyProjection_createRolePermission (db db2 : DB) (role : Role) (perm : Permission)
    (hrk : ∀ r ∈ db.roles, ∀ q ∈ db.roles, r.id = q.id → r = q)
    (hpk : ∀ p ∈ db.permissions, ∀ q ∈ db.permissions, p.id = q.id → p = q)
    (hrole : role ∈ db.roles) (hrl : role.deleted = false)
    (hperm : perm ∈ db.permissions) (hpl : perm.deleted = false)
    (hcr : createRolePermission db role.id perm.id = some db2) (t : Policy) :
    t ∈ policyProjection db2 ↔
      t ∈ policyProjection db ∨ t = (role.name, perm.resource, perm.action) := by
  rw [createRolePermission_some hcr, mem_policyProjection, mem_policyProjection]
  constructor
  · rintro ⟨rp, hrp, hrpd, r, hr, hrd, hrid, p, hp, hpd, hpid, rfl⟩
    simp only [List.mem_append, List.mem_singleton] at hrp
    rcases hrp with hrp | rfl
    · exact Or.inl ⟨rp, hrp, hrpd, r, hr, hrd, hrid, p, hp, hpd, hpid, rfl⟩
    · right
      have hrr : r = role := hrk r hr role hrole hrid
      have hpp : p = perm := hpk p hp perm hperm hpid
      rw [hrr, hpp]
  · rintro (⟨rp, hrp, hrpd, r, hr, hrd, hrid, p, hp, hpd, hpid, rfl⟩ | rfl)
    · exact ⟨rp, by simp only [List.mem_append]; exact Or.inl hrp, hrpd, r, hr, hrd, hrid,
        p, hp, hpd, hpid, rfl⟩
    · exact ⟨⟨role.id, perm.id, false⟩, by simp, rfl, role, hrole, hrl, rfl,
        perm, hperm, hpl, rfl, rfl⟩

theorem State.inSync_iff (st : State) :
    st.inSync ↔ ∃ e, st.enforcer = some e ∧ I4 st.db e := by
  unfold State.inSync
  cases st.enforcer <;> simp

/-- Incremental sync keeps I4 on the runs whose count query does not fail (the part of C6 that
holds).  In a state where `P` holds exactly the projection of the
live `role_permissions` join, `(resource, action)` is unique among live permissions and names
are unique among live roles (the store keeping its primary and foreign keys), a grant answered
200 and a revoke answered 200 (its count query not having failed) each leave a state in which
`P` again holds exactly the projection of the updated store. -/
theorem incremental_sync_keeps_I4 (st : State) (body : Option PolicyRequest)
    (hkeys : schemaKeys st.db) (hup : uniquePermissions st.db)
    (hur : uniqueRoleNames st.db) (hsync : st.inSync) :
    (∀ f : GrantFaults, (AddPolicy st f body).status = 200 →
        (AddPolicy st f body).st.inSync) ∧
      (∀ f : RevokeFaults, f.assocCount = false → (RemovePolicy st f body).status = 200 →
        (RemovePolicy st f body).st.inSync) := by
  obtain ⟨e, he, hI4⟩ := (State.inSync_iff st).1 hsync
  rw [I4_iff] at hI4
  constructor
  · intro f h
    obtain ⟨req, e1, db1, perm, role, db2, -, he1, hperm, hrole, -, hcr, -, hst, -⟩ :=
      addPolicy_ok st f body h
    rw [he] at he1
    cases he1
    rw [State.inSync_iff]
    refine ⟨_, by rw [hst], ?_⟩
    rw [hst, I4_iff]
    intro t
    obtain ⟨hrm, hrl, hrn⟩ := findRole_some hrole
    rcases hperm with ⟨hfp, rfl⟩ | ⟨hfp, hcp⟩
    · obtain ⟨hpm, hpl, hpr, hpa⟩ := findPermission_some hfp
      rw [policyProjection_createRolePermission st.db db2 role perm hkeys.1 hkeys.2.1 hrm hrl
        hpm hpl hcr t, ← hI4 t, hrn, hpr, hpa]
      simp
    · have hc1 : db1 = (createPermission st.db req.path req.method).1 := by rw [← hcp]
      have hc2 : perm = (createPermission st.db req.path req.method).2 := by rw [← hcp]
      have hroles : db1.roles = st.db.roles := by rw [hc1]; rfl
      have hperms : db1.permissions = st.db.permissions ++ [perm] := by rw [hc1, hc2]; rfl
      have hpid : perm.id = nextPermissionID st.db := by rw [hc2]; rfl
      have hpk1 : ∀ p ∈ db1.permissions, ∀ q ∈ db1.permissions, p.id = q.id → p = q := by
        intro p hp q hq hpq
        rw [hperms] at hp hq
        simp only [List.mem_append, List.mem_singleton] at hp hq
        rcases hp with hp | rfl <;> rcases hq with hq | rfl
        · exact hkeys.2.1 p hp q hq hpq
        · have := lt_nextPermissionID st.db p hp; omega
        · have := lt_nextPermissionID st.db q hq; omega
        · rfl
      rw [policyProjection_createRolePermission db1 db2 role perm (by rw [hroles]; exact hkeys.1)
        hpk1 hrm hrl (by rw [hperms]; simp) (by rw [hc2]; rfl) hcr t, hc1,
        policyProjection_createPermission st.db req.path req.method hkeys t, ← hI4 t, hrn, hc2]
      simp [createPermission]
  · intro f hf h
    obtain ⟨req, e1, perm, role, -, he1, hfp, hrole, -, hst⟩ := removePolicy_ok st f body h
    rw [he] at he1
    cases he1
    rw [State.inSync_iff]
    refine ⟨_, by rw [hst], ?_⟩
    obtain ⟨hrm, hrl, hrn⟩ := findRole_some hrole
    obtain ⟨hpm, hpl, hpr, hpa⟩ := findPermission_some hfp
    rw [hst, I4_iff]
    intro t
    simp only [hf, Bool.false_eq_true, if_false]
    rw [policyProjection_revoke st.db role perm hkeys hup hur hrm hrl hpm hpl t, ← hI4 t, hrn,
      hpr, hpa]
    simp [List.mem_filter]

/-- Incremental sync keeps I4, at the grant of `(user, /t, GET)` on `exState`. -/
theorem incremental_sync_keeps_I4_witness :
    (schemaKeys exState.db ∧ uniquePermissions exState.db ∧ uniqueRoleNames exState.db ∧
        exState.inSync ∧ (AddPolicy exState GrantFaults.none (some exReq)).status = 200) ∧
      (AddPolicy exState GrantFaults.none (some exReq)).st.inSync :=
  ⟨by decide,
    (incremental_sync_keeps_I4 exState (some exReq) (by decide) (by decide) (by decide)
      (by decide)).1 GrantFaults.none (by decide)⟩

theorem permissionLive_iff (db : DB) (pid : Nat) :
    permissionLive db pid = true ↔ ∃ p, (p ∈ db.permissions ∧ p.deleted = false) ∧ p.id = pid := by
  simp only [permissionLive, List.any_eq_true, Bool.and_eq_true, Bool.not_eq_true', beq_iff_eq]
  constructor
  · rintro ⟨p, hp, hd, hid⟩
    exact ⟨p, ⟨hp, hd⟩, hid⟩
  · rintro ⟨p, ⟨hp, hd⟩, hid⟩
    exact ⟨p, hp, hd, hid⟩

theorem heldByOtherRole_iff (db : DB) (rid pid : Nat) :
    heldByOtherRole db rid pid = true ↔
      ∃ rp, (rp ∈ db.rolePermissions ∧ rp.deleted = false) ∧ rp.permissionID = pid ∧
        rp.roleID ≠ rid := by
  simp only [heldByOtherRole, List.any_eq_true, Bool.and_eq_true, Bool.not_eq_true', beq_iff_eq,
    bne_iff_ne]
  constructor
  · rintro ⟨rp, hrp, ⟨hd, hp⟩, hr⟩
    exact ⟨rp, ⟨hrp, hd⟩, hp, hr⟩
  · rintro ⟨rp, ⟨hrp, hd⟩, hp, hr⟩
    exact ⟨rp, hrp, ⟨hd, hp⟩, hr⟩

theorem heldByOtherRole_delete (db : DB) (rid pid : Nat) :
    heldByOtherRole (deleteRolePermission db rid pid) rid pid = heldByOtherRole db rid pid := by
  rw [Bool.eq_iff_iff, heldByOtherRole_iff, heldByOtherRole_iff]
  constructor
  · rintro ⟨rp, h, hp, hr⟩
    have := (mem_deleteRolePermission_live db rid pid rp).1 h
    exact ⟨rp, ⟨this.1, this.2.1⟩, hp, hr⟩
  · rintro ⟨rp, h, hp, hr⟩
    exact ⟨rp, (mem_deleteRolePermission_live db rid pid rp).2 ⟨h.1, h.2, fun hk => hr hk.1⟩, hp, hr⟩

theorem count_after_delete_eq_zero_iff_not_held (db : DB) (rid pid : Nat) :
    countRolePermissions (deleteRolePermission db rid pid) pid = 0 ↔
      heldByOtherRole db rid pid = false := by
  rw [count_after_delete_eq_zero, ← Bool.not_eq_true, heldByOtherRole_iff]
  constructor
  · rintro h ⟨rp, hm, hp, hr⟩
    exact hr (h rp hm.1 hm.2 hp)
  · intro h rp hrp hd hp
    by_contra hne
    exact h ⟨rp, ⟨hrp, hd⟩, hp, hne⟩

/-- Orphan-permission rule on revoke, on the runs whose count query does not fail (the part of
C7 that holds).  After a revoke answered 200 (its count query not having failed), with `perm`
and `role` the rows the request resolves to: the permission row is
still live exactly when a live `role_permissions` row of another role refers to it; the rows of
other roles are those from before the call; and when no other role held the permission before
the call, the permission row is no longer live. -/
theorem revoke_orphan_rule (st : State) (f : RevokeFaults) (body : Option PolicyRequest)
    (hf : f.assocCount = false) (h : (RemovePolicy st f body).status = 200) :
    ∃ req perm role, body = some req ∧
      findPermission st.db req.path req.method = some perm ∧
      findRole st.db req.role = some role ∧
      (permissionLive (RemovePolicy st f body).st.db perm.id = true ↔
        heldByOtherRole (RemovePolicy st f body).st.db role.id perm.id = true) ∧
      heldByOtherRole (RemovePolicy st f body).st.db role.id perm.id
        = heldByOtherRole st.db role.id perm.id ∧
      (heldByOtherRole st.db role.id perm.id = false →
        permissionLive (RemovePolicy st f body).st.db perm.id = false) := by
  obtain ⟨req, e1, perm, role, hb, -, hfp, hrole, -, hst⟩ := removePolicy_ok st f body h
  obtain ⟨hpm, hpl, -, -⟩ := findPermission_some hfp
  refine ⟨req, perm, role, hb, hfp, hrole, ?_⟩
  rw [hst]
  simp only [hf, Bool.false_eq_true, if_false]
  by_cases hc : countRolePermissions (deleteRolePermission st.db role.id perm.id) perm.id = 0
  · have hnot := (count_after_delete_eq_zero_iff_not_held st.db role.id perm.id).1 hc
    have hheld : heldByOtherRole
        (deletePermission (deleteRolePermission st.db role.id perm.id) perm.id) role.id perm.id
        = heldByOtherRole st.db role.id perm.id := by
      rw [← heldByOtherRole_delete st.db role.id perm.id]
      rfl
    have hdead : permissionLive
        (deletePermission (deleteRolePermission st.db role.id perm.id) perm.id) perm.id
        = false := by
      rw [← Bool.not_eq_true, permissionLive_iff]
      rintro ⟨p, hp, hid⟩
      exact ((mem_deletePermission_live _ perm.id p).1 hp).2.2 hid
    simp only [hc, if_true, hheld, hdead, hnot]
    simp
  · have hyes : heldByOtherRole st.db role.id perm.id = true := by
      rw [← Bool.not_eq_false]
      exact fun hk => hc ((count_after_delete_eq_zero_iff_not_held st.db role.id perm.id).2 hk)
    have hlive : permissionLive (deleteRolePermission st.db role.id perm.id) perm.id = true :=
      (permissionLive_iff _ _).2 ⟨perm, ⟨hpm, hpl⟩, rfl⟩
    simp only [hc, if_false, heldByOtherRole_delete, hlive, hyes]
    simp

/-- Orphan-permission rule, at the revoke of `(admin, /t, GET)` on `exState`, where `admin` is
the only holder. -/
theorem revoke_orphan_rule_witness :
    ((RevokeFaults.none).assocCount = false ∧
        (RemovePolicy exState RevokeFaults.none (some ⟨"admin", "/t", "GET"⟩)).status = 200) ∧
      ∃ req perm role, some (PolicyRequest.mk "admin" "/t" "GET") = some req ∧
        findPermission exState.db req.path req.method = some perm ∧
        findRole exState.db req.role = some role ∧
        (permissionLive (RemovePolicy exState RevokeFaults.none
            (some ⟨"admin", "/t", "GET"⟩)).st.db perm.id = true ↔
          heldByOtherRole (RemovePolicy exState RevokeFaults.none
            (some ⟨"admin", "/t", "GET"⟩)).st.db role.id perm.id = true) ∧
        heldByOtherRole (RemovePolicy exState RevokeFaults.none
            (some ⟨"admin", "/t", "GET"⟩)).st.db role.id perm.id
          = heldByOtherRole exState.db role.id perm.id ∧
        (heldByOtherRole exState.db role.id perm.id = false →
          permissionLive (RemovePolicy exState RevokeFaults.none
            (some ⟨"admin", "/t", "GET"⟩)).st.db perm.id = false) :=
  ⟨by decide,
    revoke_orphan_rule exState RevokeFaults.none (some ⟨"admin", "/t", "GET"⟩) rfl (by decide)⟩

/-! ## Grant followed by revoke, and revoke of a pair the role does not hold -/

theorem deleteRolePermission_noop (db : DB) (rid pid : Nat)
    (h : ∀ rp ∈ db.rolePermissions, rp.deleted = false →
      ¬ (rp.roleID = rid ∧ rp.permissionID = pid)) :
    deleteRolePermission db rid pid = db := by
  have hmap : db.rolePermissions.map (fun rp =>
      if !rp.deleted && rp.roleID == rid && rp.permissionID == pid then
        { rp with deleted := true } else rp) = db.rolePermissions := by
    conv_rhs => rw [← List.map_id db.rolePermissions]
    apply List.map_congr_left
    intro rp hrp
    have hc : ¬ (!rp.deleted && rp.roleID == rid && rp.permissionID == pid) = true := by
      simp only [Bool.and_eq_true, Bool.not_eq_true', beq_iff_eq]
      rintro ⟨⟨hd, h1⟩, h2⟩
      exact h rp hrp hd ⟨h1, h2⟩
    simp [hc]
  unfold deleteRolePermission
  rw [hmap]

theorem bindPolicyRequest_of_nonempty (req : PolicyRequest)
    (hne : ¬ (req.role = "" ∨ req.path = "" ∨ req.method = "")) :
    bindPolicyRequest (some req) = some req := by
  simp [bindPolicyRequest, hne]

/-- The state left by `RemovePolicy` when the role does not hold the permission. -/
theorem removePolicy_absent_run (st : State) (e : Enforcer) (req : PolicyRequest) (role : Role)
    (perm : Permission) (he : st.enforcer = some e)
    (hne : ¬ (req.role = "" ∨ req.path = "" ∨ req.method = ""))
    (hperm : findPermission st.db req.path req.method = some perm)
    (hrole : findRole st.db req.role = some role)
    (hnot : ∀ rp ∈ st.db.rolePermissions, rp.deleted = false →
      ¬ (rp.roleID = role.id ∧ rp.permissionID = perm.id))
    (hP : (req.role, req.path, req.method) ∉ e.p) :
    (RemovePolicy st RevokeFaults.none (some req)).st =
      ⟨if countRolePermissions st.db perm.id = 0 then deletePermission st.db perm.id else st.db,
        some e⟩ := by
  have hdel := deleteRolePermission_noop st.db role.id perm.id hnot
  unfold RemovePolicy
  simp only [bindPolicyRequest_of_nonempty req hne, hne, if_false, he, RevokeFaults.none,
    Bool.false_eq_true, hperm, hrole, hdel]
  by_cases hc : countRolePermissions st.db perm.id = 0
  · simp [hc, removePolicyFrom, Enforcer.removePolicy, hP]
  · simp [hc, removePolicyFrom, Enforcer.removePolicy, hP, he.symm]

theorem addPolicy_invalid_state (st : State) (f : GrantFaults) (req : PolicyRequest)
    (hv : req.method ∉ validMethods) : (AddPolicy st f (some req)).st = st := by
  unfold AddPolicy
  cases hb : bindPolicyRequest (some req) with
  | none => rfl
  | some r =>
    cases bindPolicyRequest_some hb
    simp [hv]

theorem removePolicy_no_permission (st : State) (req : PolicyRequest)
    (hperm : findPermission st.db req.path req.method = none) :
    (RemovePolicy st RevokeFaults.none (some req)).st = st := by
  unfold RemovePolicy
  cases hb : bindPolicyRequest (some req) with
  | none => rfl
  | some r =>
    cases bindPolicyRequest_some hb
    simp only []
    split
    · rfl
    · cases he : st.enforcer with
      | none => rfl
      | some e => simp [RevokeFaults.none, hperm]

theorem findRolePermission_none_of_not_held (db : DB) (rid pid : Nat)
    (hnot : ∀ rp ∈ db.rolePermissions, rp.deleted = false →
      ¬ (rp.roleID = rid ∧ rp.permissionID = pid)) :
    findRolePermission db rid pid = none := by
  simp only [findRolePermission, List.find?_eq_none, Bool.and_eq_true, Bool.not_eq_true',
    beq_iff_eq]
  rintro rp hrp ⟨⟨hd, h1⟩, h2⟩
  exact hnot rp hrp hd ⟨h1, h2⟩

/-- Grant on an existing permission that the role does not hold, the insert being refused. -/
theorem addPolicy_existing_blocked (st : State) (e : Enforcer) (req : PolicyRequest)
    (role : Role) (perm : Permission) (he : st.enforcer = some e)
    (hne : ¬ (req.role = "" ∨ req.path = "" ∨ req.method = ""))
    (hv : req.method ∈ validMethods)
    (hperm : findPermission st.db req.path req.method = some perm)
    (hrole : findRole st.db req.role = some role)
    (hnot : ∀ rp ∈ st.db.rolePermissions, rp.deleted = false →
      ¬ (rp.roleID = role.id ∧ rp.permissionID = perm.id))
    (hcr : createRolePermission st.db role.id perm.id = none) :
    (AddPolicy st GrantFaults.none (some req)).st = st := by
  have hfrp := findRolePermission_none_of_not_held st.db role.id perm.id hnot
  have hval : ¬ (req.role = "" ∨ req.path = "" ∨ req.method = "" ∨ req.method ∉ validMethods) := by
    rintro (h | h | h | h)
    · exact hne (Or.inl h)
    · exact hne (Or.inr (Or.inl h))
    · exact hne (Or.inr (Or.inr h))
    · exact h hv
  unfold AddPolicy
  simp only [bindPolicyRequest_of_nonempty req hne, hval, if_false, he, GrantFaults.none,
    Bool.false_eq_true, hperm, addPolicyFrom, hrole, hfrp, hcr]
  cases st
  simp_all

/-- Grant on an existing permission that the role does not hold, the insert going through. -/
theorem addPolicy_existing_run (st : State) (e : Enforcer) (req : PolicyRequest)
    (role : Role) (perm : Permission) (db2 : DB) (he : st.enforcer = some e)
    (hne : ¬ (req.role = "" ∨ req.path = "" ∨ req.method = ""))
    (hv : req.method ∈ validMethods)
    (hperm : findPermission st.db req.path req.method = some perm)
    (hrole : findRole st.db req.role = some role)
    (hnot : ∀ rp ∈ st.db.rolePermissions, rp.deleted = false →
      ¬ (rp.roleID = role.id ∧ rp.permissionID = perm.id))
    (hcr : createRolePermission st.db role.id perm.id = some db2)
    (hP : (req.role, req.path, req.method) ∉ e.p) :
    (AddPolicy st GrantFaults.none (some req)).st =
      ⟨{ st.db with rolePermissions := st.db.rolePermissions ++ [⟨role.id, perm.id, false⟩] },
        some { e with p := e.p ++ [(req.role, req.path, req.method)] }⟩ := by
  have hfrp := findRolePermission_none_of_not_held st.db role.id perm.id hnot
  have hval : ¬ (req.role = "" ∨ req.path = "" ∨ req.method = "" ∨ req.method ∉ validMethods) := by
    rintro (h | h | h | h)
    · exact hne (Or.inl h)
    · exact hne (Or.inr (Or.inl h))
    · exact hne (Or.inr (Or.inr h))
    · exact h hv
  have hdb2 := createRolePermission_some hcr
  unfold AddPolicy
  simp only [bindPolicyRequest_of_nonempty req hne, hval, if_false, he, GrantFaults.none,
    Bool.false_eq_true, hperm, addPolicyFrom, hrole, hfrp, hcr]
  simp [Enforcer.addPolicy, hP, hdb2]

theorem map_softDelete_rolePermissions (l : List RolePermission) (rid pid : Nat)
    (h : ∀ rp ∈ l, rp.deleted = false → ¬ (rp.roleID = rid ∧ rp.permissionID = pid)) :
    l.map (fun rp =>
      if !rp.deleted && rp.roleID == rid && rp.permissionID == pid then
        { rp with deleted := true } else rp) = l := by
  conv_rhs => rw [← List.map_id l]
  apply List.map_congr_left
  intro rp hrp
  have hc : ¬ (!rp.deleted && rp.roleID == rid && rp.permissionID == pid) = true := by
    simp only [Bool.and_eq_true, Bool.not_eq_true', beq_iff_eq]
    rintro ⟨⟨hd, h1⟩, h2⟩
    exact h rp hrp hd ⟨h1, h2⟩
  simp [hc]

theorem map_softDelete_permissions (l : List Permission) (pid : Nat)
    (h : ∀ p ∈ l, p.deleted = false → p.id ≠ pid) :
    l.map (fun p => if !p.deleted && p.id == pid then { p with deleted := true } else p) = l := by
  conv_rhs => rw [← List.map_id l]
  apply List.map_congr_left
  intro p hp
  have hc : ¬ (!p.deleted && p.id == pid) = true := by
    simp only [Bool.and_eq_true, Bool.not_eq_true', beq_iff_eq]
    rintro ⟨hd, h1⟩
    exact h p hp hd h1
  simp [hc]

theorem filter_not_eq_self (l : List Policy) (t : Policy) (h : t ∉ l) :
    l.filter (fun q => !decide (q = t)) = l := by
  rw [List.filter_eq_self]
  intro a ha
  have : a ≠ t := fun hk => h (hk ▸ ha)
  simpa using this

/-- Revoke right after the grant of `addPolicy_existing_run`. -/
theorem removePolicy_after_existing (db : DB) (e : Enforcer) (req : PolicyRequest)
    (role : Role) (perm : Permission)
    (hne : ¬ (req.role = "" ∨ req.path = "" ∨ req.method = ""))
    (hperm : findPermission db req.path req.method = some perm)
    (hrole : findRole db req.role = some role)
    (hnot : ∀ rp ∈ db.rolePermissions, rp.deleted = false →
      ¬ (rp.roleID = role.id ∧ rp.permissionID = perm.id))
    (hP : (req.role, req.path, req.method) ∉ e.p) :
    (RemovePolicy
        ⟨{ db with rolePermissions := db.rolePermissions ++ [⟨role.id, perm.id, false⟩] },
          some { e with p := e.p ++ [(req.role, req.path, req.method)] }⟩
        RevokeFaults.none (some req)).st =
      ⟨if countRolePermissions db perm.id = 0 then
          deletePermission
            { db with rolePermissions := db.rolePermissions ++ [⟨role.id, perm.id, true⟩] } perm.id
        else { db with rolePermissions := db.rolePermissions ++ [⟨role.id, perm.id, true⟩] },
        some e⟩ := by
  have hfp : findPermission
      { db with rolePermissions := db.rolePermissions ++ [⟨role.id, perm.id, false⟩] }
      req.path req.method = some perm := hperm
  have hfr : findRole
      { db with rolePermissions := db.rolePermissions ++ [⟨role.id, perm.id, false⟩] }
      req.role = some role := hrole
  have hdel : deleteRolePermission
      { db with rolePermissions := db.rolePermissions ++ [⟨role.id, perm.id, false⟩] }
      role.id perm.id =
      { db with rolePermissions := db.rolePermissions ++ [⟨role.id, perm.id, true⟩] } := by
    unfold deleteRolePermission
    simp only [List.map_append, List.map_cons, List.map_nil]
    rw [map_softDelete_rolePermissions _ _ _ hnot]
    simp
  have hcount : countRolePermissions
      { db with rolePermissions := db.rolePermissions ++ [⟨role.id, perm.id, true⟩] } perm.id
      = countRolePermissions db perm.id := by
    simp [countRolePermissions, List.filter_append]
  unfold RemovePolicy
  simp only [bindPolicyRequest_of_nonempty req hne, hne, if_false, RevokeFaults.none,
    Bool.false_eq_true, hfp, hfr, hdel, hcount]
  by_cases hc : countRolePermissions db perm.id = 0
  · simp [hc, removePolicyFrom, Enforcer.removePolicy, filter_not_eq_self e.p _ hP]
  · simp [hc, removePolicyFrom, Enforcer.removePolicy, filter_not_eq_self e.p _ hP]

theorem no_reference_to_next (db : DB) (hkeys : schemaKeys db) :
    ∀ rp ∈ db.rolePermissions, rp.permissionID ≠ nextPermissionID db := by
  intro rp hrp hk
  obtain ⟨q, hq, hqid⟩ := hkeys.2.2 rp hrp
  have := lt_nextPermissionID db q hq
  omega

/-- Grant that has to create the permission. -/
theorem addPolicy_new_run (st : State) (e : Enforcer) (req : PolicyRequest) (role : Role)
    (he : st.enforcer = some e)
    (hne : ¬ (req.role = "" ∨ req.path = "" ∨ req.method = ""))
    (hv : req.method ∈ validMethods) (hkeys : schemaKeys st.db)
    (hperm : findPermission st.db req.path req.method = none)
    (hrole : findRole st.db req.role = some role)
    (hP : (req.role, req.path, req.method) ∉ e.p) :
    (AddPolicy st GrantFaults.none (some req)).st =
      ⟨{ st.db with
          permissions := st.db.permissions ++ [(createPermission st.db req.path req.method).2],
          rolePermissions := st.db.rolePermissions ++
            [⟨role.id, nextPermissionID st.db, false⟩] },
        some { e with p := e.p ++ [(req.role, req.path, req.method)] }⟩ := by
  have hval : ¬ (req.role = "" ∨ req.path = "" ∨ req.method = "" ∨ req.method ∉ validMethods) := by
    rintro (h | h | h | h)
    · exact hne (Or.inl h)
    · exact hne (Or.inr (Or.inl h))
    · exact hne (Or.inr (Or.inr h))
    · exact h hv
  have hnoref := no_reference_to_next st.db hkeys
  have hfr : findRole (createPermission st.db req.path req.method).1 req.role = some role := hrole
  have hfrp : findRolePermission (createPermission st.db req.path req.method).1 role.id
      (createPermission st.db req.path req.method).2.id = none := by
    apply findRolePermission_none_of_not_held
    rintro rp hrp - ⟨-, h2⟩
    exact hnoref rp hrp h2
  have hcr : createRolePermission (createPermission st.db req.path req.method).1 role.id
      (createPermission st.db req.path req.method).2.id =
      some { st.db with
          permissions := st.db.permissions ++ [(createPermission st.db req.path req.method).2],
          rolePermissions := st.db.rolePermissions ++
            [⟨role.id, nextPermissionID st.db, false⟩] } := by
    have hany : ((createPermission st.db req.path req.method).1.rolePermissions.any (fun rp =>
        rp.roleID == role.id &&
          rp.permissionID == (createPermission st.db req.path req.method).2.id)) = false := by
      rw [← Bool.not_eq_true, List.any_eq_true]
      rintro ⟨rp, hrp, hk⟩
      simp only [Bool.and_eq_true, beq_iff_eq] at hk
      exact hnoref rp hrp hk.2
    unfold createRolePermission
    rw [hany]
    rfl
  unfold AddPolicy
  simp only [bindPolicyRequest_of_nonempty req hne, hval, if_false, he, GrantFaults.none,
    Bool.false_eq_true, hperm, addPolicyFrom, hfr, hfrp, hcr]
  simp [Enforcer.addPolicy, hP]

/-- Revoke right after the grant of `addPolicy_new_run`. -/
theorem removePolicy_after_new (db : DB) (e : Enforcer) (req : PolicyRequest) (role : Role)
    (hne : ¬ (req.role = "" ∨ req.path = "" ∨ req.method = ""))
    (hkeys : schemaKeys db)
    (hperm : findPermission db req.path req.method = none)
    (hrole : findRole db req.role = some role)
    (hP : (req.role, req.path, req.method) ∉ e.p) :
    (RemovePolicy
        ⟨{ db with
            permissions := db.permissions ++ [(createPermission db req.path req.method).2],
            rolePermissions := db.rolePermissions ++ [⟨role.id, nextPermissionID db, false⟩] },
          some { e with p := e.p ++ [(req.role, req.path, req.method)] }⟩
        RevokeFaults.none (some req)).st =
      ⟨{ db with
          permissions := db.permissions ++
            [{ (createPermission db req.path req.method).2 with deleted := true }],
          rolePermissions := db.rolePermissions ++ [⟨role.id, nextPermissionID db, true⟩] },
        some e⟩ := by
  have hnoref := no_reference_to_next db hkeys
  have hfresh := lt_nextPermissionID db
  have hfp : findPermission
      { db with
        permissions := db.permissions ++ [(createPermission db req.path req.method).2],
        rolePermissions := db.rolePermissions ++ [⟨role.id, nextPermissionID db, false⟩] }
      req.path req.method = some (createPermission db req.path req.method).2 := by
    unfold findPermission at hperm ⊢
    simp only [List.find?_append, hperm]
    simp [createPermission]
  have hfr : findRole
      { db with
        permissions := db.permissions ++ [(createPermission db req.path req.method).2],
        rolePermissions := db.rolePermissions ++ [⟨role.id, nextPermissionID db, false⟩] }
      req.role = some role := hrole
  have hid : (createPermission db req.path req.method).2.id = nextPermissionID db := rfl
  have hdel : deleteRolePermission
      { db with
        permissions := db.permissions ++ [(createPermission db req.path req.method).2],
        rolePermissions := db.rolePermissions ++ [⟨role.id, nextPermissionID db, false⟩] }
      role.id (nextPermissionID db) =
      { db with
        permissions := db.permissions ++ [(createPermission db req.path req.method).2],
        rolePermissions := db.rolePermissions ++ [⟨role.id, nextPermissionID db, true⟩] } := by
    unfold deleteRolePermission
    simp only [List.map_append, List.map_cons, List.map_nil]
    rw [map_softDelete_rolePermissions _ _ _ (fun rp hrp _ hk => hnoref rp hrp hk.2)]
    simp
  have hcount : countRolePermissions
      { db with
        permissions := db.permissions ++ [(createPermission db req.path req.method).2],
        rolePermissions := db.rolePermissions ++ [⟨role.id, nextPermissionID db, true⟩] }
      (nextPermissionID db) = 0 := by
    rw [countRolePermissions_eq_zero]
    intro rp hrp hd
    simp only [List.mem_append, List.mem_singleton] at hrp
    rcases hrp with hrp | rfl
    · exact hnoref rp hrp
    · simp at hd
  have hdp : deletePermission
      { db with
        permissions := db.permissions ++ [(createPermission db req.path req.method).2],
        rolePermissions := db.rolePermissions ++ [⟨role.id, nextPermissionID db, true⟩] }
      (nextPermissionID db) =
      { db with
        permissions := db.permissions ++
          [{ (createPermission db req.path req.method).2 with deleted := true }],
        rolePermissions := db.rolePermissions ++ [⟨role.id, nextPermissionID db, true⟩] } := by
    unfold deletePermission
    simp only [List.map_append, List.map_cons, List.map_nil]
    rw [map_softDelete_permissions _ _ (fun p hp _ hk => by have := hfresh p hp; omega)]
    simp [createPermission]
  unfold RemovePolicy
  simp only [bindPolicyRequest_of_nonempty req hne, hne, if_false, RevokeFaults.none,
    Bool.false_eq_true, hfp, hfr, hid, hdel, hcount, if_true, hdp]
  simp [removePolicyFrom, Enforcer.removePolicy, filter_not_eq_self e.p _ hP]

theorem livePermissions_deletePermission (db : DB) (pid : Nat) :
    livePermissions (deletePermission db pid) =
      (livePermissions db).filter (fun q => q.id != pid) := by
  unfold livePermissions deletePermission
  simp only
  generalize db.permissions = l
  induction l with
  | nil => rfl
  | cons a l ih =>
    simp only [List.map_cons, List.filter_cons]
    rw [ih]
    cases hd : a.deleted <;> by_cases hid : a.id = pid <;> simp [hd, hid, List.filter_cons]

/-- The four shapes of the state left by grant followed by revoke of a pair the role does not
hold. -/
theorem roundtrip_forms (st : State) (e : Enforcer) (req : PolicyRequest) (role : Role)
    (he : st.enforcer = some e)
    (hne : ¬ (req.role = "" ∨ req.path = "" ∨ req.method = ""))
    (hkeys : schemaKeys st.db)
    (hrole : findRole st.db req.role = some role)
    (hnot : ∀ perm, findPermission st.db req.path req.method = some perm →
      ∀ rp ∈ st.db.rolePermissions, rp.deleted = false →
        ¬ (rp.roleID = role.id ∧ rp.permissionID = perm.id))
    (hP : (req.role, req.path, req.method) ∉ e.p) :
    (findPermission st.db req.path req.method = none ∧
        (grantThenRevoke st req = st ∨
          grantThenRevoke st req =
            ⟨{ st.db with
                permissions := st.db.permissions ++
                  [{ (createPermission st.db req.path req.method).2 with deleted := true }],
                rolePermissions := st.db.rolePermissions ++
                  [⟨role.id, nextPermissionID st.db, true⟩] },
              some e⟩)) ∨
      ∃ perm, findPermission st.db req.path req.method = some perm ∧
        (grantThenRevoke st req =
            ⟨if countRolePermissions st.db perm.id = 0 then deletePermission st.db perm.id
              else st.db, some e⟩ ∨
          grantThenRevoke st req =
            ⟨if countRolePermissions st.db perm.id = 0 then
                deletePermission { st.db with rolePermissions :=
                  st.db.rolePermissions ++ [⟨role.id, perm.id, true⟩] } perm.id
              else { st.db with rolePermissions :=
                st.db.rolePermissions ++ [⟨role.id, perm.id, true⟩] }, some e⟩) := by
  unfold grantThenRevoke
  by_cases hv : req.method ∈ validMethods
  · cases hperm : findPermission st.db req.path req.method with
    | none =>
      left
      refine ⟨rfl, Or.inr ?_⟩
      rw [addPolicy_new_run st e req role he hne hv hkeys hperm hrole hP]
      exact removePolicy_after_new st.db e req role hne hkeys hperm hrole hP
    | some perm =>
      right
      refine ⟨perm, rfl, ?_⟩
      cases hcr : createRolePermission st.db role.id perm.id with
      | none =>
        left
        rw [addPolicy_existing_blocked st e req role perm he hne hv hperm hrole
          (hnot perm hperm) hcr]
        exact removePolicy_absent_run st e req role perm he hne hperm hrole (hnot perm hperm) hP
      | some db2 =>
        right
        rw [addPolicy_existing_run st e req role perm db2 he hne hv hperm hrole
          (hnot perm hperm) hcr hP]
        exact removePolicy_after_existing st.db e req role perm hne hperm hrole
          (hnot perm hperm) hP
  · rw [addPolicy_invalid_state st GrantFaults.none req hv]
    cases hperm : findPermission st.db req.path req.method with
    | none =>
      left
      exact ⟨rfl, Or.inl (removePolicy_no_permission st req hperm)⟩
    | some perm =>
      right
      exact ⟨perm, rfl, Or.inl
        (removePolicy_absent_run st e req role perm he hne hperm hrole (hnot perm hperm) hP)⟩

/-- When the role does not hold the pair, no live association joins it with the permission the
lookup returns. -/
theorem not_held_of_holds_false (db : DB) (role : Role) (path method : String)
    (h : holds db role.id path method = false) :
    ∀ perm, findPermission db path method = some perm →
      ∀ rp ∈ db.rolePermissions, rp.deleted = false →
        ¬ (rp.roleID = role.id ∧ rp.permissionID = perm.id) := by
  intro perm hperm rp hrp hd hk
  obtain ⟨hpm, hpl, hpr, hpa⟩ := findPermission_some hperm
  have : holds db role.id path method = true := by
    simp only [holds, List.any_eq_true, Bool.and_eq_true, Bool.not_eq_true', beq_iff_eq]
    exact ⟨rp, hrp, ⟨hd, hk.1⟩, perm, hpm, ⟨⟨⟨hpl, hk.2.symm⟩, hpr⟩, hpa⟩⟩
  rw [h] at this
  cases this

/-- C8, amended.  In a state where role `r` exists and does not hold `(p, a)` (no live
`role_permissions` row joins them and `(r, p, a)` is not in `P`), grant followed by revoke of
`(r, p, a)`, no backend call failing, leaves the engine (`P`, `G`), the tables `users`, `roles`
and `user_roles` and the live rows of `role_permissions` as they were before the grant.  When
no live permission `(p, a)` existed before, the live rows of `permissions` are as before (the
row the grant created is deleted again).  When one existed and a live `role_permissions` row
refers to it, `permissions` is unchanged; when one existed and no live row refers to it, it is
deleted and the other live rows are as before. -/
theorem grant_then_revoke_restores (st : State) (e : Enforcer) (req : PolicyRequest)
    (role : Role) (he : st.enforcer = some e)
    (hne : ¬ (req.role = "" ∨ req.path = "" ∨ req.method = ""))
    (hkeys : schemaKeys st.db)
    (hrole : findRole st.db req.role = some role)
    (hnot : holds st.db role.id req.path req.method = false)
    (hP : (req.role, req.path, req.method) ∉ e.p) :
    (grantThenRevoke st req).enforcer = some e ∧
      (grantThenRevoke st req).db.users = st.db.users ∧
      (grantThenRevoke st req).db.roles = st.db.roles ∧
      (grantThenRevoke st req).db.userRoles = st.db.userRoles ∧
      liveRolePermissions (grantThenRevoke st req).db = liveRolePermissions st.db ∧
      (findPermission st.db req.path req.method = none →
        livePermissions (grantThenRevoke st req).db = livePermissions st.db) ∧
      (∀ perm, findPermission st.db req.path req.method = some perm →
        (countRolePermissions st.db perm.id ≠ 0 →
          (grantThenRevoke st req).db.permissions = st.db.permissions) ∧
        (countRolePermissions st.db perm.id = 0 →
          livePermissions (grantThenRevoke st req).db =
            (livePermissions st.db).filter (fun q => q.id != perm.id))) := by
  rcases roundtrip_forms st e req role he hne hkeys hrole
      (not_held_of_holds_false st.db role req.path req.method hnot) hP with
    ⟨hperm, h | h⟩ | ⟨perm, hperm, h | h⟩
  · rw [h]
    simp [he, hperm]
  · rw [h]
    simp [hperm, liveRolePermissions, livePermissions, List.filter_append]
  · by_cases hc : countRolePermissions st.db perm.id = 0
    · rw [if_pos hc] at h
      rw [h]
      refine ⟨rfl, rfl, rfl, rfl, rfl, (fun hk => by rw [hperm] at hk; cases hk), ?_⟩
      intro p hp
      rw [hperm] at hp
      cases hp
      exact ⟨fun hk => absurd hc hk, fun _ => livePermissions_deletePermission st.db perm.id⟩
    · rw [if_neg hc] at h
      rw [h]
      refine ⟨rfl, rfl, rfl, rfl, rfl, (fun _ => rfl), ?_⟩
      intro p hp
      rw [hperm] at hp
      cases hp
      exact ⟨fun _ => rfl, fun hk => absurd hk hc⟩
  · by_cases hc : countRolePermissions st.db perm.id = 0
    · rw [if_pos hc] at h
      rw [h]
      refine ⟨rfl, rfl, rfl, rfl, ?_, (fun hk => by rw [hperm] at hk; cases hk), ?_⟩
      · simp [liveRolePermissions, deletePermission, List.filter_append]
      · intro p hp
        rw [hperm] at hp
        cases hp
        refine ⟨fun hk => absurd hc hk, fun _ => ?_⟩
        rw [livePermissions_deletePermission]
        rfl
    · rw [if_neg hc] at h
      rw [h]
      refine ⟨rfl, rfl, rfl, rfl, ?_, (fun hk => by rw [hperm] at hk; cases hk), ?_⟩
      · simp [liveRolePermissions, List.filter_append]
      · intro p hp
        rw [hperm] at hp
        cases hp
        exact ⟨fun _ => rfl, fun hk => absurd hk hc⟩

/-- C8 amended, at `(user, /t, GET)` on `exState`. -/
theorem grant_then_revoke_restores_witness :
    (exState.enforcer = some ⟨[("admin", "/t", "GET")], []⟩ ∧
        ¬ (exReq.role = "" ∨ exReq.path = "" ∨ exReq.method = "") ∧
        schemaKeys exState.db ∧
        findRole exState.db exReq.role = some ⟨2, "user", "", false⟩ ∧
        holds exState.db 2 exReq.path exReq.method = false ∧
        (exReq.role, exReq.path, exReq.method) ∉ [(("admin", "/t", "GET") : Policy)]) ∧
      (grantThenRevoke exState exReq).enforcer = some ⟨[("admin", "/t", "GET")], []⟩ ∧
      liveRolePermissions (grantThenRevoke exState exReq).db = liveRolePermissions exState.db :=
  ⟨by decide,
    (grant_then_revoke_restores exState ⟨[("admin", "/t", "GET")], []⟩ exReq
      ⟨2, "user", "", false⟩ (by decide) (by decide) (by decide) (by decide) (by decide)
      (by decide)).1,
    (grant_then_revoke_restores exState ⟨[("admin", "/t", "GET")], []⟩ exReq
      ⟨2, "user", "", false⟩ (by decide) (by decide) (by decide) (by decide) (by decide)
      (by decide)).2.2.2.2.1⟩

/-- C8, refuted as stated.  In `exOrphan` role `user` exists and does not hold `GET /t`, and the
permission row `GET /t` is live before the grant.  The grant is answered 200 and creates no
permission row, the revoke is answered 200, and afterwards the permission row that existed
before the grant is no longer live. -/
theorem grant_then_revoke_drops_existing_permission :
    findRole exOrphan.db "user" = some ⟨2, "user", "", false⟩ ∧
      holds exOrphan.db 2 "/t" "GET" = false ∧
      exOrphan.enforcer = some ⟨[], []⟩ ∧
      livePermissions exOrphan.db = [⟨1, "/t", "GET", "GET /t权限", false⟩] ∧
      (AddPolicy exOrphan GrantFaults.none (some exReq)).status = 200 ∧
      (AddPolicy exOrphan GrantFaults.none (some exReq)).st.db.permissions
        = exOrphan.db.permissions ∧
      (RemovePolicy (AddPolicy exOrphan GrantFaults.none (some exReq)).st RevokeFaults.none
        (some exReq)).status = 200 ∧
      livePermissions (grantThenRevoke exOrphan exReq).db = [] := by
  decide

/-- C9, amended.  In a state where role `r` and permission `(p, a)` both exist and `r` does
not hold `(p, a)` (no live `role_permissions` row joins them and `(r, p, a)` is not in `P`),
`RemovePolicy`, no backend call failing, leaves the engine (`P`, `G`) and the tables `users`,
`roles`, `user_roles` and `role_permissions` exactly as they were.  When a live
`role_permissions` row refers to the permission the whole state is exactly as it was; when
none does, the permission row is soft-deleted. -/
theorem removePolicy_absent_pair (st : State) (e : Enforcer) (req : PolicyRequest)
    (role : Role) (perm : Permission) (he : st.enforcer = some e)
    (hne : ¬ (req.role = "" ∨ req.path = "" ∨ req.method = ""))
    (hperm : findPermission st.db req.path req.method = some perm)
    (hrole : findRole st.db req.role = some role)
    (hnot : holds st.db role.id req.path req.method = false)
    (hP : (req.role, req.path, req.method) ∉ e.p) :
    (RemovePolicy st RevokeFaults.none (some req)).st.enforcer = some e ∧
      (RemovePolicy st RevokeFaults.none (some req)).st.db.users = st.db.users ∧
      (RemovePolicy st RevokeFaults.none (some req)).st.db.roles = st.db.roles ∧
      (RemovePolicy st RevokeFaults.none (some req)).st.db.userRoles = st.db.userRoles ∧
      (RemovePolicy st RevokeFaults.none (some req)).st.db.rolePermissions
        = st.db.rolePermissions ∧
      (countRolePermissions st.db perm.id ≠ 0 →
        (RemovePolicy st RevokeFaults.none (some req)).st = st) ∧
      (countRolePermissions st.db perm.id = 0 →
        (RemovePolicy st RevokeFaults.none (some req)).st.db.permissions
            = (deletePermission st.db perm.id).permissions ∧
          permissionLive (RemovePolicy st RevokeFaults.none (some req)).st.db perm.id = false) := by
  have hrun := removePolicy_absent_run st e req role perm he hne hperm hrole
    (not_held_of_holds_false st.db role req.path req.method hnot perm hperm) hP
  by_cases hc : countRolePermissions st.db perm.id = 0
  · rw [if_pos hc] at hrun
    rw [hrun]
    refine ⟨rfl, rfl, rfl, rfl, rfl, fun hk => absurd hc hk, fun _ => ⟨rfl, ?_⟩⟩
    rw [← Bool.not_eq_true, permissionLive_iff]
    rintro ⟨p, hp, hid⟩
    exact ((mem_deletePermission_live _ perm.id p).1 hp).2.2 hid
  · rw [if_neg hc] at hrun
    rw [hrun]
    refine ⟨rfl, rfl, rfl, rfl, rfl, fun _ => ?_, fun hk => absurd hk hc⟩
    cases st
    simp_all

/-- C9 amended, at `(user, /t, GET)` on `exState`, where `admin` holds the permission. -/
theorem removePolicy_absent_pair_witness :
    (exState.enforcer = some ⟨[("admin", "/t", "GET")], []⟩ ∧
        ¬ (exReq.role = "" ∨ exReq.path = "" ∨ exReq.method = "") ∧
        findPermission exState.db exReq.path exReq.method = some ⟨1, "/t", "GET", "", false⟩ ∧
        findRole exState.db exReq.role = some ⟨2, "user", "", false⟩ ∧
        holds exState.db 2 exReq.path exReq.method = false ∧
        (exReq.role, exReq.path, exReq.method) ∉ [(("admin", "/t", "GET") : Policy)] ∧
        countRolePermissions exState.db 1 ≠ 0) ∧
      (RemovePolicy exState RevokeFaults.none (some exReq)).st = exState :=
  ⟨by decide,
    (removePolicy_absent_pair exState ⟨[("admin", "/t", "GET")], []⟩ exReq
      ⟨2, "user", "", false⟩ ⟨1, "/t", "GET", "", false⟩ (by decide) (by decide) (by decide)
      (by decide) (by decide) (by decide)).2.2.2.2.2.1 (by decide)⟩

/-- C9, refuted as stated.  In `exOrphan` role `user` and permission `GET /t` both exist and
`user` does not hold it; `RemovePolicy` soft-deletes the permission row, so the `permissions`
table is not left as it was. -/
theorem removePolicy_absent_pair_deletes_orphan :
    findRole exOrphan.db "user" = some ⟨2, "user", "", false⟩ ∧
      findPermission exOrphan.db "/t" "GET" = some ⟨1, "/t", "GET", "GET /t权限", false⟩ ∧
      holds exOrphan.db 2 "/t" "GET" = false ∧
      exOrphan.enforcer = some ⟨[], []⟩ ∧
      (RemovePolicy exOrphan RevokeFaults.none (some exReq)).st.db.permissions
        = [⟨1, "/t", "GET", "GET /t权限", true⟩] ∧
      (RemovePolicy exOrphan RevokeFaults.none (some exReq)).st.db.permissions
        ≠ exOrphan.db.permissions := by
  decide

/-! ## Grant repeated -/

/-- A grant answered 200, repeated at once: the second call is answered 400 and leaves the state
of the first. -/
theorem addPolicy_again_conflict (st : State) (body : Option PolicyRequest)
    (h : (AddPolicy st GrantFaults.none body).status = 200) :
    (AddPolicy (AddPolicy st GrantFaults.none body).st GrantFaults.none body).status = 400 ∧
      (AddPolicy (AddPolicy st GrantFaults.none body).st GrantFaults.none body).st
        = (AddPolicy st GrantFaults.none body).st := by
  obtain ⟨req, e, db1, perm, role, db2, rfl, -, hperm, hrole, hfrp, hcr, -, hst, hval⟩ :=
    addPolicy_ok st GrantFaults.none body h
  have hne : ¬ (req.role = "" ∨ req.path = "" ∨ req.method = "") := by
    rintro (h1 | h1 | h1)
    · exact hval (Or.inl h1)
    · exact hval (Or.inr (Or.inl h1))
    · exact hval (Or.inr (Or.inr (Or.inl h1)))
  have hdb2 := createRolePermission_some hcr
  have hfp2 : findPermission db2 req.path req.method = some perm := by
    rcases hperm with ⟨hfp, rfl⟩ | ⟨hfp, hcp⟩
    · rw [hdb2]
      exact hfp
    · have hc1 : db1 = (createPermission st.db req.path req.method).1 := by rw [← hcp]
      have hc2 : perm = (createPermission st.db req.path req.method).2 := by rw [← hcp]
      rw [hdb2, hc1, hc2]
      unfold findPermission at hfp ⊢
      simp only [createPermission, List.find?_append, hfp]
      simp
  have hfr2 : findRole db2 req.role = some role := by
    rw [hdb2]
    exact hrole
  have hfrp2 : findRolePermission db2 role.id perm.id = some ⟨role.id, perm.id, false⟩ := by
    rw [hdb2]
    unfold findRolePermission at hfrp ⊢
    simp only [List.find?_append, hfrp]
    simp
  rw [hst]
  unfold AddPolicy
  simp only [bindPolicyRequest_of_nonempty req hne, hval, if_false, GrantFaults.none,
    Bool.false_eq_true, hfp2, addPolicyFrom, hfr2, hfrp2]
  simp [Out.status]

/-! ## Store failures -/

/-- A store call of `AddPolicy` whose error is tested, failing when reached: the run is not
answered 200 and the engine is as before. -/
theorem addPolicy_store_failure (st : State) (f : GrantFaults) (body : Option PolicyRequest)
    (hf : f.permQuery = true ∨ f.roleQuery = true ∨ f.assocQuery = true ∨ f.assocCreate = true ∨
      (f.permCreate = true ∧ ∀ req, body = some req →
        findPermission st.db req.path req.method = none)) :
    (AddPolicy st f body).status ≠ 200 ∧ (AddPolicy st f body).st.enforcer = st.enforcer := by
  unfold AddPolicy
  cases hb : bindPolicyRequest body with
  | none => simp [Out.status]
  | some req =>
    cases bindPolicyRequest_some hb
    simp only []
    by_cases hv : req.role = "" ∨ req.path = "" ∨ req.method = "" ∨ req.method ∉ validMethods
    · simp [hv, Out.status]
    simp only [hv, if_false]
    cases he : st.enforcer with
    | none => simp [Out.status, he]
    | some e =>
      simp only []
      by_cases h1 : f.permQuery = true
      · simp [h1, Out.status, he]
      replace h1 : f.permQuery = false := by simpa using h1
      simp only [h1, Bool.false_eq_true, if_false]
      have key : ∀ db perm calls,
          (f.roleQuery = true ∨ f.assocQuery = true ∨ f.assocCreate = true) →
          (addPolicyFrom e f req db perm calls).status ≠ 200 ∧
            (addPolicyFrom e f req db perm calls).st.enforcer = some e := by
        intro db perm calls hf2
        unfold addPolicyFrom
        by_cases h2 : f.roleQuery = true
        · simp [h2, Out.status]
        replace h2 : f.roleQuery = false := by simpa using h2
        simp only [h2, Bool.false_eq_true, if_false]
        cases hrole : findRole db req.role with
        | none => simp [Out.status]
        | some role =>
          simp only []
          by_cases h3 : f.assocQuery = true
          · simp [h3, Out.status]
          replace h3 : f.assocQuery = false := by simpa using h3
          simp only [h3, Bool.false_eq_true, if_false]
          cases hrp : findRolePermission db role.id perm.id with
          | some rp => simp [Out.status]
          | none =>
            have h4 : f.assocCreate = true := by
              rcases hf2 with h | h | h
              · rw [h2] at h; cases h
              · rw [h3] at h; cases h
              · exact h
            simp [h4, Out.status]
      cases hp : findPermission st.db req.path req.method with
      | some perm =>
        simp only []
        rcases hf with h | h | h | h | ⟨-, h⟩
        · rw [h1] at h; cases h
        · exact key _ _ _ (Or.inl h)
        · exact key _ _ _ (Or.inr (Or.inl h))
        · exact key _ _ _ (Or.inr (Or.inr h))
        · rw [h req rfl] at hp; cases hp
      | none =>
        simp only []
        by_cases h5 : f.permCreate = true
        · simp [h5, Out.status, he]
        replace h5 : f.permCreate = false := by simpa using h5
        simp only [h5, Bool.false_eq_true, if_false]
        rcases hf with h | h | h | h | ⟨h, -⟩
        · rw [h1] at h; cases h
        · exact key _ _ _ (Or.inl h)
        · exact key _ _ _ (Or.inr (Or.inl h))
        · exact key _ _ _ (Or.inr (Or.inr h))
        · rw [h5] at h; cases h

/-- A store call of `RemovePolicy` whose error is tested, failing when reached: the run is not
answered 200 and the engine is as before. -/
theorem removePolicy_store_failure (st : State) (f : RevokeFaults)
    (body : Option PolicyRequest)
    (hf : f.permQuery = true ∨ f.roleQuery = true ∨ f.assocDelete = true) :
    (RemovePolicy st f body).status ≠ 200 ∧ (RemovePolicy st f body).st.enforcer = st.enforcer := by
  unfold RemovePolicy
  cases hb : bindPolicyRequest body with
  | none => simp [Out.status]
  | some req =>
    cases bindPolicyRequest_some hb
    simp only []
    by_cases hv : req.role = "" ∨ req.path = "" ∨ req.method = ""
    · simp [hv, Out.status]
    simp only [hv, if_false]
    cases he : st.enforcer with
    | none => simp [Out.status, he]
    | some e =>
      simp only []
      by_cases h1 : f.permQuery = true
      · simp [h1, Out.status, he]
      replace h1 : f.permQuery = false := by simpa using h1
      simp only [h1, Bool.false_eq_true, if_false]
      cases hp : findPermission st.db req.path req.method with
      | none => simp [Out.status, he]
      | some perm =>
        simp only []
        by_cases h2 : f.roleQuery = true
        · simp [h2, Out.status, he]
        replace h2 : f.roleQuery = false := by simpa using h2
        simp only [h2, Bool.false_eq_true, if_false]
        cases hr : findRole st.db req.role with
        | none => simp [Out.status, he]
        | some role =>
          have h3 : f.assocDelete = true := by
            rcases hf with h | h | h
            · rw [h1] at h; cases h
            · rw [h2] at h; cases h
            · exact h
          simp [h3, Out.status, he]

/-- C10. Revoke with a failing store step.  In `exBoth` (`admin` and `user` both hold
`GET /t`) the `Count` query of the revoke of `(user, /t, GET)` fails.  The handler goes on:
it deletes the permission row, calls `Enforcer.RemovePolicy` and `SavePolicy`, answers 200, and
`P` has lost the tuple of `user`; the store projection has lost the tuple of `admin` too. -/
theorem removePolicy_count_failure_reaches_engine :
    holds exBoth.db 1 "/t" "GET" = true ∧ holds exBoth.db 2 "/t" "GET" = true ∧
      exBoth.enforcer = some ⟨[("admin", "/t", "GET"), ("user", "/t", "GET")], []⟩ ∧
      countFails.assocCount = true ∧
      (RemovePolicy exBoth countFails (some exReq)).status = 200 ∧
      (RemovePolicy exBoth countFails (some exReq)).calls =
        [Call.permFirst, Call.roleFirst, Call.assocDelete, Call.assocCount, Call.permDelete,
          Call.removePolicy, Call.savePolicy, Call.savePolicy] ∧
      (RemovePolicy exBoth countFails (some exReq)).st.enforcer
        = some ⟨[("admin", "/t", "GET")], []⟩ ∧
      livePermissions (RemovePolicy exBoth countFails (some exReq)).st.db = [] ∧
      holds (RemovePolicy exBoth countFails (some exReq)).st.db 1 "/t" "GET" = false := by
  decide

/-! ## Engine failure after the store mutation -/

/-- C11, refuted as stated.  On `exState` the grant of `(user, /t, GET)` inserts the
association, then `Enforcer.AddPolicy` returns an error: the handler answers 500 and its last
call is that engine call, no rebuild is attempted; the engine is as before and misses the
tuple the store now projects, although a rebuild from that store returns nil and would put
the engine in step. -/
theorem addPolicy_engine_failure_no_rebuild :
    (AddPolicy exState addPolicyFails (some exReq)).status = 500 ∧
      (AddPolicy exState addPolicyFails (some exReq)).calls =
        [Call.permFirst, Call.roleFirst, Call.assocFirst, Call.assocCreate, Call.addPolicy] ∧
      holds (AddPolicy exState addPolicyFails (some exReq)).st.db 2 "/t" "GET" = true ∧
      (AddPolicy exState addPolicyFails (some exReq)).st.enforcer = exState.enforcer ∧
      ¬ (AddPolicy exState addPolicyFails (some exReq)).st.inSync ∧
      (SyncCasbinPolicy (AddPolicy exState addPolicyFails (some exReq)).st.db
        ⟨[("admin", "/t", "GET")], []⟩ SyncFaults.none).2 = false ∧
      State.inSync ⟨(AddPolicy exState addPolicyFails (some exReq)).st.db,
        some (SyncCasbinPolicy (AddPolicy exState addPolicyFails (some exReq)).st.db
          ⟨[("admin", "/t", "GET")], []⟩ SyncFaults.none).1⟩ := by
  decide

/-! ## Absent entities -/

/-- C12, refuted as stated.  On `exBare` no role is named `ghost`; the grant naming it is
answered 500, not 404. -/
theorem addPolicy_unknown_role_is_500 :
    findRole exBare.db "ghost" = none ∧
      (AddPolicy exBare GrantFaults.none (some ⟨"ghost", "/t", "GET"⟩)).status = 500 ∧
      (AddPolicy exBare GrantFaults.none (some ⟨"ghost", "/t", "GET"⟩)).status ≠ 404 := by
  decide

/-- C13, refuted as stated.  On `exBare` the request `(ghost, /t, GET)` passes validation and
the grant ends in a 500 (the role does not exist); the permission row `GET /t`, absent before
the call, is in the store after it. -/
theorem addPolicy_error_keeps_created_permission :
    bindPolicyRequest (some ⟨"ghost", "/t", "GET"⟩) = some ⟨"ghost", "/t", "GET"⟩ ∧
      ("GET" : String) ∈ validMethods ∧
      (AddPolicy exBare GrantFaults.none (some ⟨"ghost", "/t", "GET"⟩)).status = 500 ∧
      exBare.db.permissions = [] ∧
      (AddPolicy exBare GrantFaults.none (some ⟨"ghost", "/t", "GET"⟩)).st.db.permissions
        = [⟨1, "/t", "GET", "GET /t权限", false⟩] := by
  decide

/-! ## Role assignment -/

/-- C15. Role assignment with a repeated name.  On `exDB` user 1 is live and the name `admin`
resolves to a live role; the list `[admin, admin]` is answered 400 (one row found for two
names), while the list `[admin]` is answered 200. -/
theorem updateUserRole_repeated_name_rejected :
    findUserByID exDB 1 = some ⟨1, "admin", false⟩ ∧
      (["admin", "admin"].all (fun n => (findRole exDB n).isSome)) = true ∧
      (UpdateUserRole exDB exEngine AssignFaults.none (some ⟨1, ["admin", "admin"]⟩)).status
        = 400 ∧
      (UpdateUserRole exDB exEngine AssignFaults.none (some ⟨1, ["admin"]⟩)).status = 200 := by
  decide

/-- C16, refuted as stated.  On `exDB` the assignment of `[admin]` to user `admin`, in a run
where `SyncCasbinPolicy` fails at its first query, is answered 200; the store holds the
membership and `G` does not contain `(admin, admin)`. -/
theorem updateUserRole_success_with_failed_sync :
    (SyncCasbinPolicy (UpdateUserRole exDB exEngine syncFails (some ⟨1, ["admin"]⟩)).st.db
        exEngine syncFails.sync).2 = true ∧
      (UpdateUserRole exDB exEngine syncFails (some ⟨1, ["admin"]⟩)).status = 200 ∧
      (UpdateUserRole exDB exEngine syncFails (some ⟨1, ["admin"]⟩)).st.db.userRoles
        = [⟨1, 1, false⟩] ∧
      (UpdateUserRole exDB exEngine syncFails (some ⟨1, ["admin"]⟩)).st.enforcer
        = some ⟨[], []⟩ := by
  decide

/-! ## Full rebuild -/

/-- C17. Rebuild over a soft-deleted role.  In `exRoleDeleted` role `user` is soft-deleted and
its `role_permissions` row is live.  `SyncCasbinPolicy` returns nil and `P` holds the tuple
`(, /t, GET)` with the empty role name, which the join of the live rows does not hold. -/
theorem syncCasbinPolicy_empty_role_name :
    findRoleByID exRoleDeleted.db 2 = none ∧
      liveRolePermissions exRoleDeleted.db = [⟨1, 1, false⟩, ⟨2, 1, false⟩] ∧
      (SyncCasbinPolicy exRoleDeleted.db ⟨[], []⟩ SyncFaults.none).2 = false ∧
      (SyncCasbinPolicy exRoleDeleted.db ⟨[], []⟩ SyncFaults.none).1.p
        = [("admin", "/t", "GET"), ("", "/t", "GET")] ∧
      policyProjection exRoleDeleted.db = [("admin", "/t", "GET")] := by
  decide

/-! ## Role deletion -/

/-- C19. Role deletion and the associations of the role.  On `exBoth` role `user` (key 2) is
live and holds `GET /t`.  `DeleteRole` is answered 200; afterwards the role is not live, no
`user_roles` row refers to it, and the live `role_permissions` row with `role_id = 2` is still
there. -/
theorem deleteRole_leaves_role_permissions :
    findRoleByID exBoth.db 2 = some ⟨2, "user", "", false⟩ ∧
      (DeleteRole exBoth.db ⟨[("admin", "/t", "GET"), ("user", "/t", "GET")], []⟩
        DeleteRoleFaults.none (some 2)).status = 200 ∧
      findRoleByID exRoleDeleted.db 2 = none ∧
      exRoleDeleted.db.userRoles.all (fun ur => ur.roleID != 2) = true ∧
      liveRolePermissions exRoleDeleted.db = [⟨1, 1, false⟩, ⟨2, 1, false⟩] := by
  decide

/-! ## Bootstrap -/

set_option maxRecDepth 100000 in
/-- C20. Bootstrap scenario S1.  The start-up sequence on the empty store returns no error and
leaves a live user `admin` whose only role is `admin`, role `admin` holding every seeded
permission, an engine with `(admin, admin)` in `G` and `(admin, /api/v1/test, GET)` in `P`,
and `Enforce(admin, /api/v1/test, GET)` true. -/
theorem bootstrap_scenario_S1 :
    (bootstrap emptyDB ⟨[], []⟩ true SyncFaults.none).2 = false ∧
      findUser bootState.db "admin" = some ⟨1, "admin", false⟩ ∧
      (rolesOfUser bootState.db ⟨1, "admin", false⟩).map (fun r => r.name) = ["admin"] ∧
      seedPermissions.all (fun s => holds bootState.db 1 s.1 s.2.1) = true ∧
      (bootState.enforcer.map (fun e => e.g.contains ("admin", "admin"))) = some true ∧
      (bootState.enforcer.map (fun e => e.p.contains ("admin", "/api/v1/test", "GET")))
        = some true ∧
      (bootState.enforcer.map (fun e => e.enforce "admin" "/api/v1/test" "GET")) = some true := by
  refine ⟨by decide, by decide, by decide, by decide, by decide, by decide, by decide⟩

/-! ## The full rebuild is a function of the store -/

/-- Without faults the first loop does not depend on the call number it starts from. -/
theorem addGroupings_none_index (ts : List (String × String)) :
    ∀ (i j : Nat) (e : Enforcer), addGroupings none i e ts = addGroupings none j e ts := by
  induction ts with
  | nil => intro i j e; rfl
  | cons t ts ih =>
    intro i j e
    have hi : ((none : Option Nat) == some i) = false := rfl
    have hj : ((none : Option Nat) == some j) = false := rfl
    simp only [addGroupings, hi, hj]
    rw [ih (i + 1) (j + 1)]

/-- Without faults the second loop does not depend on the call number it starts from. -/
theorem addPolicies_none_index (ts : List Policy) :
    ∀ (i j : Nat) (e : Enforcer), addPolicies none i e ts = addPolicies none j e ts := by
  induction ts with
  | nil => intro i j e; rfl
  | cons t ts ih =>
    intro i j e
    have hi : ((none : Option Nat) == some i) = false := rfl
    have hj : ((none : Option Nat) == some j) = false := rfl
    simp only [addPolicies, hi, hj]
    rw [ih (i + 1) (j + 1)]

/-- A first loop that returned no error did what the loop without faults does. -/
theorem addGroupings_ok (failAt : Option Nat) (ts : List (String × String)) :
    ∀ (i : Nat) (e : Enforcer), (addGroupings failAt i e ts).2 = false →
      (addGroupings failAt i e ts).1 = (addGroupings none 0 e ts).1 ∧
        (addGroupings none 0 e ts).2 = false := by
  induction ts with
  | nil => intro i e _; exact ⟨rfl, rfl⟩
  | cons t ts ih =>
    intro i e h
    have h0 : ((none : Option Nat) == some 0) = false := rfl
    by_cases hm : t ∈ e.g
    · simp only [addGroupings, Enforcer.addGroupingPolicy, hm, if_true, Bool.false_eq_true,
        if_false] at h ⊢
      rw [addGroupings_none_index ts (0 + 1) 0 e]
      exact ih (i + 1) e h
    · by_cases hf : (failAt == some i) = true
      · simp [addGroupings, Enforcer.addGroupingPolicy, hm, hf] at h
      · simp only [addGroupings, Enforcer.addGroupingPolicy, hm, hf, if_false,
          Bool.false_eq_true, h0] at h ⊢
        rw [addGroupings_none_index ts (0 + 1) 0]
        exact ih (i + 1) _ h

/-- A second loop that returned no error did what the loop without faults does. -/
theorem addPolicies_ok (failAt : Option Nat) (ts : List Policy) :
    ∀ (i : Nat) (e : Enforcer), (addPolicies failAt i e ts).2 = false →
      (addPolicies failAt i e ts).1 = (addPolicies none 0 e ts).1 ∧
        (addPolicies none 0 e ts).2 = false := by
  induction ts with
  | nil => intro i e _; exact ⟨rfl, rfl⟩
  | cons t ts ih =>
    intro i e h
    have h0 : ((none : Option Nat) == some 0) = false := rfl
    by_cases hm : t ∈ e.p
    · simp only [addPolicies, Enforcer.addPolicy, hm, if_true, Bool.false_eq_true,
        if_false] at h ⊢
      rw [addPolicies_none_index ts (0 + 1) 0 e]
      exact ih (i + 1) e h
    · by_cases hf : (failAt == some i) = true
      · simp [addPolicies, Enforcer.addPolicy, hm, hf] at h
      · simp only [addPolicies, Enforcer.addPolicy, hm, hf, if_false,
          Bool.false_eq_true, h0] at h ⊢
        rw [addPolicies_none_index ts (0 + 1) 0]
        exact ih (i + 1) _ h

/-- The engine a rebuild leaves when it returns nil: the one the rebuild without faults leaves,
whatever the engine was before. -/
theorem syncCasbinPolicy_ok (db : DB) (e : Enforcer) (f : SyncFaults)
    (h : (SyncCasbinPolicy db e f).2 = false) :
    (SyncCasbinPolicy db e f).1 = (SyncCasbinPolicy db ⟨[], []⟩ SyncFaults.none).1 ∧
      (SyncCasbinPolicy db ⟨[], []⟩ SyncFaults.none).2 = false := by
  unfold SyncCasbinPolicy at h ⊢
  simp only [Enforcer.clearPolicy, SyncFaults.none, Bool.false_eq_true, if_false] at h ⊢
  by_cases h1 : f.userRolesFind = true
  · simp [h1] at h
  replace h1 : f.userRolesFind = false := by simpa using h1
  simp only [h1, Bool.false_eq_true, if_false] at h ⊢
  by_cases h2 : (addGroupings f.addGrouping 0 ⟨[], []⟩ (groupingRows db)).2 = true
  · simp [h2] at h
  replace h2 : (addGroupings f.addGrouping 0 ⟨[], []⟩ (groupingRows db)).2 = false := by
    simpa using h2
  obtain ⟨g1, g2⟩ := addGroupings_ok _ _ _ _ h2
  simp only [h2, Bool.false_eq_true, if_false, g1, g2] at h ⊢
  by_cases h3 : f.rolePermissionsFind = true
  · simp [h3] at h
  replace h3 : f.rolePermissionsFind = false := by simpa using h3
  simp only [h3, Bool.false_eq_true, if_false] at h ⊢
  by_cases h4 : (addPolicies f.addPolicy 0 (addGroupings none 0 ⟨[], []⟩ (groupingRows db)).1
      (policyRows db)).2 = true
  · simp [h4] at h
  replace h4 : (addPolicies f.addPolicy 0 (addGroupings none 0 ⟨[], []⟩ (groupingRows db)).1
      (policyRows db)).2 = false := by simpa using h4
  obtain ⟨p1, p2⟩ := addPolicies_ok _ _ _ _ h4
  simp only [h4, Bool.false_eq_true, if_false, p1, p2] at h ⊢
  by_cases h5 : f.savePolicy = true
  · simp [h5] at h
  replace h5 : f.savePolicy = false := by simpa using h5
  simp [h5]

/-- C18. The full rebuild is a fixed point.  Let a run of `SyncCasbinPolicy` on a store return
nil from any engine `e1`.  A second run on the same store from the engine the first one left,
if it returns nil, leaves that same engine (`P` and `G`); and a run on the same store from any
other engine `e2`, if it returns nil, leaves that engine too: the engine after a run does not
depend on the engine before it. -/
theorem syncCasbinPolicy_fixed_point (db : DB) (e1 e2 : Enforcer) (f1 f2 f3 : SyncFaults)
    (h1 : (SyncCasbinPolicy db e1 f1).2 = false) :
    ((SyncCasbinPolicy db (SyncCasbinPolicy db e1 f1).1 f2).2 = false →
        (SyncCasbinPolicy db (SyncCasbinPolicy db e1 f1).1 f2).1 = (SyncCasbinPolicy db e1 f1).1) ∧
      ((SyncCasbinPolicy db e2 f3).2 = false →
        (SyncCasbinPolicy db e2 f3).1 = (SyncCasbinPolicy db e1 f1).1) := by
  constructor
  · intro h2
    rw [(syncCasbinPolicy_ok db _ f2 h2).1, (syncCasbinPolicy_ok db e1 f1 h1).1]
  · intro h2
    rw [(syncCasbinPolicy_ok db e2 f3 h2).1, (syncCasbinPolicy_ok db e1 f1 h1).1]

/-! ## Role assignment replaces the role set -/

/-- Rows stay through the inserts of `Replace`. -/
theorem mem_foldl_insertUserRole_of_mem (uid : Nat) (rids : List Nat) :
    ∀ (rows : List UserRole) (ur : UserRole), ur ∈ rows →
      ur ∈ rids.foldl (fun rows rid => insertUserRole rows uid rid) rows := by
  induction rids with
  | nil => intro rows ur h; exact h
  | cons rid rids ih =>
    intro rows ur h
    simp only [List.foldl_cons]
    apply ih
    unfold insertUserRole
    split
    · exact h
    · exact List.mem_append_left _ h

/-- After the inserts of `Replace` every given role has a row of the user. -/
theorem exists_row_foldl_insertUserRole (uid : Nat) (rids : List Nat) :
    ∀ (rows : List UserRole) (rid : Nat), rid ∈ rids →
      ∃ ur ∈ rids.foldl (fun rows rid => insertUserRole rows uid rid) rows,
        ur.userID = uid ∧ ur.roleID = rid := by
  induction rids with
  | nil => intro rows rid h; cases h
  | cons r rids ih =>
    intro rows rid h
    simp only [List.foldl_cons]
    rcases List.mem_cons.1 h with rfl | h
    · have : ∃ ur ∈ insertUserRole rows uid rid, ur.userID = uid ∧ ur.roleID = rid := by
        unfold insertUserRole
        by_cases hany : rows.any (fun ur => ur.userID == uid && ur.roleID == rid) = true
        · rw [if_pos hany]
          obtain ⟨ur, hur, hk⟩ := List.any_eq_true.1 hany
          simp only [Bool.and_eq_true, beq_iff_eq] at hk
          exact ⟨ur, hur, hk⟩
        · rw [if_neg hany]
          exact ⟨⟨uid, rid, false⟩, by simp, rfl, rfl⟩
      obtain ⟨ur, hur, hk⟩ := this
      exact ⟨ur, mem_foldl_insertUserRole_of_mem uid rids _ ur hur, hk⟩
    · exact ih _ rid h

/-- A row after the inserts of `Replace` was there before or is a fresh live row of the user
for one of the given roles. -/
theorem mem_foldl_insertUserRole (uid : Nat) (rids : List Nat) :
    ∀ (rows : List UserRole) (ur : UserRole),
      ur ∈ rids.foldl (fun rows rid => insertUserRole rows uid rid) rows →
      ur ∈ rows ∨ ∃ rid ∈ rids, ur = ⟨uid, rid, false⟩ := by
  induction rids with
  | nil => intro rows ur h; exact Or.inl h
  | cons r rids ih =>
    intro rows ur h
    simp only [List.foldl_cons] at h
    rcases ih _ ur h with h1 | ⟨rid, hrid, rfl⟩
    · unfold insertUserRole at h1
      split at h1
      · exact Or.inl h1
      · rcases List.mem_append.1 h1 with h2 | h2
        · exact Or.inl h2
        · right
          exact ⟨r, List.mem_cons_self _ _, by simpa using h2⟩
    · exact Or.inr ⟨rid, List.mem_cons_of_mem _ hrid, rfl⟩

/-- The rows of the user after `Replace`: one for each given role, and no other. -/
theorem replaceUserRoles_rows (db : DB) (uid : Nat) (rids : List Nat) (rid : Nat) :
    (∃ ur ∈ (replaceUserRoles db uid rids).userRoles, ur.userID = uid ∧ ur.roleID = rid) ↔
      rid ∈ rids := by
  simp only [replaceUserRoles, List.mem_filter, Bool.or_eq_true, Bool.not_eq_true',
    beq_eq_false_iff_ne, ne_eq]
  constructor
  · rintro ⟨ur, ⟨-, h | h⟩, hu, hr⟩
    · exact absurd hu h
    · rw [← hr]
      simpa using h
  · intro h
    obtain ⟨ur, hur, hu, hr⟩ := exists_row_foldl_insertUserRole uid rids db.userRoles rid h
    exact ⟨ur, ⟨hur, Or.inr (by rw [hr]; simpa using h)⟩, hu, hr⟩

/-- The rows of the other users are untouched by `Replace`. -/
theorem replaceUserRoles_others (db : DB) (uid : Nat) (rids : List Nat) (ur : UserRole)
    (hne : ur.userID ≠ uid) :
    ur ∈ (replaceUserRoles db uid rids).userRoles ↔ ur ∈ db.userRoles := by
  simp only [replaceUserRoles, List.mem_filter, Bool.or_eq_true, Bool.not_eq_true',
    beq_eq_false_iff_ne, ne_eq]
  constructor
  · rintro ⟨h, -⟩
    rcases mem_foldl_insertUserRole uid rids _ ur h with h1 | ⟨rid, -, rfl⟩
    · exact h1
    · exact absurd rfl hne
  · intro h
    exact ⟨mem_foldl_insertUserRole_of_mem uid rids _ ur h, Or.inl hne⟩

/-- No row is soft-deleted after `Replace` when none was before. -/
theorem replaceUserRoles_live (db : DB) (uid : Nat) (rids : List Nat)
    (h : ∀ ur ∈ db.userRoles, ur.deleted = false) :
    ∀ ur ∈ (replaceUserRoles db uid rids).userRoles, ur.deleted = false := by
  intro ur hur
  simp only [replaceUserRoles, List.mem_filter] at hur
  rcases mem_foldl_insertUserRole uid rids _ ur hur.1 with h1 | ⟨rid, -, rfl⟩
  · exact h ur h1
  · rfl

/-- What a run of `UpdateUserRole` answered 200 went through, and the state it left. -/
theorem updateUserRole_ok (db : DB) (e : Enforcer) (f : AssignFaults)
    (body : Option UpdateUserRoleRequest)
    (h : (UpdateUserRole db e f body).status = 200) :
    ∃ req user, body = some req ∧ req.roles ≠ [] ∧
      findUserByID db req.userID = some user ∧ user.id = req.userID ∧
      (getByNameIn db req.roles).length = req.roles.length ∧
      (UpdateUserRole db e f body).st =
        ⟨replaceUserRoles db req.userID ((getByNameIn db req.roles).map (fun r => r.id)),
          some (SyncCasbinPolicy
            (replaceUserRoles db req.userID ((getByNameIn db req.roles).map (fun r => r.id)))
            e f.sync).1⟩ := by
  unfold UpdateUserRole at h ⊢
  cases body with
  | none => simp [bindUpdateUserRole, Out.status] at h
  | some req =>
    by_cases hb : req.userID = 0 ∨ req.roles = []
    · simp [bindUpdateUserRole, hb, Out.status] at h
    simp only [bindUpdateUserRole, hb, if_false] at h ⊢
    by_cases h1 : f.userQuery = true
    · simp [h1, Out.status] at h
    replace h1 : f.userQuery = false := by simpa using h1
    simp only [h1, Bool.false_eq_true, if_false] at h ⊢
    cases hu : findUserByID db req.userID with
    | none => simp [hu, Out.status] at h
    | some user =>
      rw [hu] at h
      have hid : user.id = req.userID := by
        have := List.find?_some hu
        simp only [Bool.and_eq_true, beq_iff_eq] at this
        exact this.2
      simp only [] at h ⊢
      by_cases h0 : user.id = 0
      · simp [h0, Out.status] at h
      simp only [h0, if_false] at h ⊢
      by_cases h2 : f.rolesQuery = true
      · simp [h2, Out.status] at h
      replace h2 : f.rolesQuery = false := by simpa using h2
      simp only [h2, Bool.false_eq_true, if_false] at h ⊢
      by_cases h3 : (getByNameIn db req.roles).length ≠ req.roles.length
      · simp [h3, Out.status] at h
      simp only [h3, if_false] at h ⊢
      by_cases h4 : f.replace = true
      · simp [h4, Out.status] at h
      replace h4 : f.replace = false := by simpa using h4
      simp only [h4, Bool.false_eq_true, if_false, hid]
      exact ⟨req, user, rfl, fun hk => hb (Or.inr hk), hu, hid, by simpa using h3, rfl⟩

/-- C14. Role assignment replaces the role set.  When `UpdateUserRole` answers 200 (whatever
the `user_roles` rows were before, whichever backend flags are set), the request names a live
user, and afterwards the `user_roles` rows of that user refer to exactly the live roles whose
name is in the request list: every role of the list has a row, every row refers to a role of
the list.  The rows of the other users are as before, no soft-deleted row comes in, and the
other tables are unchanged. -/
theorem updateUserRole_replaces_role_set (db : DB) (e : Enforcer) (f : AssignFaults)
    (body : Option UpdateUserRoleRequest)
    (h : (UpdateUserRole db e f body).status = 200) :
    ∃ req user, body = some req ∧ findUserByID db req.userID = some user ∧
      (∀ rid, (∃ ur ∈ (UpdateUserRole db e f body).st.db.userRoles,
            ur.userID = req.userID ∧ ur.roleID = rid) ↔
          ∃ r ∈ db.roles, r.deleted = false ∧ r.name ∈ req.roles ∧ r.id = rid) ∧
      (∀ ur, ur.userID ≠ req.userID →
        (ur ∈ (UpdateUserRole db e f body).st.db.userRoles ↔ ur ∈ db.userRoles)) ∧
      ((∀ ur ∈ db.userRoles, ur.deleted = false) →
        ∀ ur ∈ (UpdateUserRole db e f body).st.db.userRoles, ur.deleted = false) ∧
      (UpdateUserRole db e f body).st.db.users = db.users ∧
      (UpdateUserRole db e f body).st.db.roles = db.roles ∧
      (UpdateUserRole db e f body).st.db.permissions = db.permissions ∧
      (UpdateUserRole db e f body).st.db.rolePermissions = db.rolePermissions := by
  obtain ⟨req, user, hb, -, hu, -, -, hst⟩ := updateUserRole_ok db e f body h
  refine ⟨req, user, hb, hu, ?_, ?_, ?_, ?_, ?_, ?_, ?_⟩
  · intro rid
    rw [hst]
    simp only []
    rw [replaceUserRoles_rows]
    simp only [getByNameIn, List.mem_map, List.mem_filter, Bool.and_eq_true, Bool.not_eq_true']
    constructor
    · rintro ⟨r, ⟨hr, hd, hn⟩, rfl⟩
      exact ⟨r, hr, hd, by simpa using hn, rfl⟩
    · rintro ⟨r, hr, hd, hn, rfl⟩
      exact ⟨r, ⟨hr, hd, by simpa using hn⟩, rfl⟩
  · intro ur hne
    rw [hst]
    exact replaceUserRoles_others db req.userID _ ur hne
  · intro hl
    rw [hst]
    exact replaceUserRoles_live db req.userID _ hl
  all_goals rw [hst]; rfl

/-- C14, at the assignment of `[user]` to user 1 of `exDB`, who held `user` and `admin`. -/
theorem updateUserRole_replaces_role_set_witness :
    (UpdateUserRole exDB exEngine AssignFaults.none exAssign).status = 200 ∧
      ∃ req user, exAssign = some req ∧ findUserByID exDB req.userID = some user ∧
        (∀ rid, (∃ ur ∈ (UpdateUserRole exDB exEngine AssignFaults.none exAssign).st.db.userRoles,
              ur.userID = req.userID ∧ ur.roleID = rid) ↔
            ∃ r ∈ exDB.roles, r.deleted = false ∧ r.name ∈ req.roles ∧ r.id = rid) ∧
        (∀ ur, ur.userID ≠ req.userID →
          (ur ∈ (UpdateUserRole exDB exEngine AssignFaults.none exAssign).st.db.userRoles ↔
            ur ∈ exDB.userRoles)) ∧
        ((∀ ur ∈ exDB.userRoles, ur.deleted = false) →
          ∀ ur ∈ (UpdateUserRole exDB exEngine AssignFaults.none exAssign).st.db.userRoles,
            ur.deleted = false) ∧
        (UpdateUserRole exDB exEngine AssignFaults.none exAssign).st.db.users = exDB.users ∧
        (UpdateUserRole exDB exEngine AssignFaults.none exAssign).st.db.roles = exDB.roles ∧
        (UpdateUserRole exDB exEngine AssignFaults.none exAssign).st.db.permissions
          = exDB.permissions ∧
        (UpdateUserRole exDB exEngine AssignFaults.none exAssign).st.db.rolePermissions
          = exDB.rolePermissions :=
  ⟨by decide,
    updateUserRole_replaces_role_set exDB exEngine AssignFaults.none exAssign (by decide)⟩

/-- C18, at the rebuild from `exDB`, from the empty engine and from an engine holding a stale
tuple. -/
theorem syncCasbinPolicy_fixed_point_witness :
    (SyncCasbinPolicy exDB ⟨[], []⟩ SyncFaults.none).2 = false ∧
      ((SyncCasbinPolicy exDB (SyncCasbinPolicy exDB ⟨[], []⟩ SyncFaults.none).1
            SyncFaults.none).2 = false →
          (SyncCasbinPolicy exDB (SyncCasbinPolicy exDB ⟨[], []⟩ SyncFaults.none).1
            SyncFaults.none).1 = (SyncCasbinPolicy exDB ⟨[], []⟩ SyncFaults.none).1) ∧
      ((SyncCasbinPolicy exDB ⟨[("ghost", "/x", "GET")], [("bob", "ghost")]⟩
            SyncFaults.none).2 = false →
          (SyncCasbinPolicy exDB ⟨[("ghost", "/x", "GET")], [("bob", "ghost")]⟩
            SyncFaults.none).1 = (SyncCasbinPolicy exDB ⟨[], []⟩ SyncFaults.none).1) :=
  ⟨by decide,
    syncCasbinPolicy_fixed_point exDB ⟨[], []⟩ ⟨[("ghost", "/x", "GET")], [("bob", "ghost")]⟩
      SyncFaults.none SyncFaults.none SyncFaults.none (by decide)⟩

/-! ## The answer of the administration handlers and the rebuild -/

/-- The grouping tuples after the first loop without faults: those from before and those
submitted. -/
theorem mem_addGroupings_g (ts : List (String × String)) :
    ∀ (i : Nat) (e : Enforcer) (t : String × String),
      t ∈ (addGroupings none i e ts).1.g ↔ t ∈ e.g ∨ t ∈ ts := by
  induction ts with
  | nil => intro i e t; simp [addGroupings]
  | cons a ts ih =>
    intro i e t
    have hi : ((none : Option Nat) == some i) = false := rfl
    by_cases hm : a ∈ e.g
    · simp only [addGroupings, Enforcer.addGroupingPolicy, hm, if_true, Bool.false_eq_true,
        if_false, ih, List.mem_cons]
      constructor
      · rintro (h | h)
        · exact Or.inl h
        · exact Or.inr (Or.inr h)
      · rintro (h | rfl | h)
        · exact Or.inl h
        · exact Or.inl hm
        · exact Or.inr h
    · simp only [addGroupings, Enforcer.addGroupingPolicy, hm, hi, if_false,
        Bool.false_eq_true, ih, List.mem_cons, List.mem_append, List.mem_singleton]
      tauto

/-- The second loop leaves `G` alone. -/
theorem addPolicies_g (failAt : Option Nat) (ts : List Policy) :
    ∀ (i : Nat) (e : Enforcer), (addPolicies failAt i e ts).1.g = e.g := by
  induction ts with
  | nil => intro i e; rfl
  | cons a ts ih =>
    intro i e
    by_cases hm : a ∈ e.p
    · simp only [addPolicies, Enforcer.addPolicy, hm, if_true, Bool.false_eq_true, if_false, ih]
    · by_cases hf : (failAt == some i) = true
      · simp [addPolicies, Enforcer.addPolicy, hm, hf]
      · simp only [addPolicies, Enforcer.addPolicy, hm, hf, if_false, Bool.false_eq_true, ih]

/-- After a rebuild that returned nil, `G` holds exactly the tuples of the live `user_roles`
rows. -/
theorem mem_syncCasbinPolicy_g (db : DB) (e : Enforcer) (f : SyncFaults)
    (h : (SyncCasbinPolicy db e f).2 = false) (t : String × String) :
    t ∈ (SyncCasbinPolicy db e f).1.g ↔ t ∈ groupingRows db := by
  rw [(syncCasbinPolicy_ok db e f h).1]
  unfold SyncCasbinPolicy
  simp only [SyncFaults.none, Enforcer.clearPolicy, Bool.false_eq_true, if_false]
  split_ifs <;> simp [addPolicies_g, mem_addGroupings_g]

/-- The tuple of a live user and a name is submitted by the rebuild exactly when a live
`user_roles` row of the user preloads that role name, in a store whose live usernames are
unique. -/
theorem mem_groupingRows_of_user (db : DB) (user : User) (r : String)
    (hu : findUserByID db user.id = some user) (hname : user.username ≠ "")
    (hU : uniqueUsernames db) :
    (user.username, r) ∈ groupingRows db ↔
      ∃ ur ∈ db.userRoles, ur.deleted = false ∧ ur.userID = user.id ∧
        preloadRoleName db ur.roleID = r := by
  have hum := List.mem_of_find?_eq_some hu
  have hul := List.find?_some hu
  simp only [Bool.and_eq_true, Bool.not_eq_true', beq_iff_eq] at hul
  simp only [groupingRows, List.mem_map, List.mem_filter, Bool.not_eq_true', Prod.mk.injEq]
  constructor
  · rintro ⟨ur, ⟨hur, hd⟩, h1, h2⟩
    refine ⟨ur, hur, hd, ?_, h2⟩
    unfold preloadUsername at h1
    cases hq : findUserByID db ur.userID with
    | none => rw [hq] at h1; exact absurd h1.symm hname
    | some v =>
      rw [hq] at h1
      have hvm := List.mem_of_find?_eq_some hq
      have hvl := List.find?_some hq
      simp only [Bool.and_eq_true, Bool.not_eq_true', beq_iff_eq] at hvl
      rw [← hvl.2]
      exact hU v hvm user hum hvl.1 hul.1 h1
  · rintro ⟨ur, hur, hd, hid, hrn⟩
    refine ⟨ur, ⟨hur, hd⟩, ?_, hrn⟩
    unfold preloadUsername
    rw [hid, hu]

/-- The role name preloaded for the key of a live role is the name of that role. -/
theorem preloadRoleName_of_live (db : DB) (role : Role) (hm : role ∈ db.roles)
    (hl : role.deleted = false) (hk : ∀ r ∈ db.roles, ∀ q ∈ db.roles, r.id = q.id → r = q) :
    preloadRoleName db role.id = role.name := by
  unfold preloadRoleName
  cases hq : findRoleByID db role.id with
  | none =>
    have := List.find?_eq_none.1 hq role hm
    simp [hl] at this
  | some v =>
    have hvm := List.mem_of_find?_eq_some hq
    have hvl := List.find?_some hq
    simp only [Bool.and_eq_true, Bool.not_eq_true', beq_iff_eq] at hvl
    simp only []
    rw [hk v hvm role hm hvl.2]

/-- When `GetByNameIn` returns as many rows as names were given, every name given is the name
of a row returned, in a store whose live role names are unique. -/
theorem getByNameIn_covers (db : DB) (S : List String) (hN : uniqueRoleNames db)
    (hnd : db.roles.Nodup) (hlen : (getByNameIn db S).length = S.length) :
    ∀ n ∈ S, ∃ role ∈ getByNameIn db S, role.name = n := by
  have hmem : ∀ x ∈ getByNameIn db S, x ∈ db.roles ∧ x.deleted = false ∧ x.name ∈ S := by
    intro x hx
    simp only [getByNameIn, List.mem_filter, Bool.and_eq_true, Bool.not_eq_true'] at hx
    exact ⟨hx.1, hx.2.1, by simpa using hx.2.2⟩
  have hnodup : ((getByNameIn db S).map (fun r => r.name)).Nodup := by
    apply List.Nodup.map_on
    · intro x hx y hy hxy
      exact hN x (hmem x hx).1 y (hmem y hy).1 (hmem x hx).2.1 (hmem y hy).2.1 hxy
    · exact hnd.filter _
  have hsub : (getByNameIn db S).map (fun r => r.name) ⊆ S := by
    intro n hn
    obtain ⟨x, hx, rfl⟩ := List.mem_map.1 hn
    exact (hmem x hx).2.2
  have hperm := (List.subperm_of_subset hnodup hsub).perm_of_length_le (by simp [hlen])
  intro n hn
  obtain ⟨x, hx, hxn⟩ := List.mem_map.1 (hperm.mem_iff.2 hn)
  exact ⟨x, hx, hxn⟩

/-- The answer of `UpdateUserRole` and the store it leaves do not depend on the errors of
`SyncCasbinPolicy`. -/
theorem updateUserRole_ignores_sync (db : DB) (e : Enforcer) (f : AssignFaults) (s : SyncFaults)
    (body : Option UpdateUserRoleRequest) :
    (UpdateUserRole db e { f with sync := s } body).responses
        = (UpdateUserRole db e f body).responses ∧
      (UpdateUserRole db e { f with sync := s } body).st.db
        = (UpdateUserRole db e f body).st.db := by
  unfold UpdateUserRole
  simp only []
  repeat' split
  all_goals first | exact ⟨rfl, rfl⟩ | simp_all

/-- The answer of `DeleteRole` and the store it leaves do not depend on the errors of
`SyncCasbinPolicy`. -/
theorem deleteRole_ignores_sync (db : DB) (e : Enforcer) (f : DeleteRoleFaults) (s : SyncFaults)
    (idParam : Option Nat) :
    (DeleteRole db e { f with sync := s } idParam).responses
        = (DeleteRole db e f idParam).responses ∧
      (DeleteRole db e { f with sync := s } idParam).st.db
        = (DeleteRole db e f idParam).st.db := by
  unfold DeleteRole
  simp only []
  repeat' split
  all_goals first | exact ⟨rfl, rfl⟩ | simp_all

/-- The answer of `CreateRole` and the store it leaves do not depend on the errors of
`SyncCasbinPolicy`. -/
theorem createRole_ignores_sync (db : DB) (e : Enforcer) (f : CreateRoleFaults) (s : SyncFaults)
    (body : Option CreateRoleRequest) :
    (CreateRole db e { f with sync := s } body).responses
        = (CreateRole db e f body).responses ∧
      (CreateRole db e { f with sync := s } body).st.db
        = (CreateRole db e f body).st.db := by
  unfold CreateRole
  simp only []
  repeat' split
  all_goals first | exact ⟨rfl, rfl⟩ | simp_all

/-- C16, amended.  The status of `UpdateUserRole`, `DeleteRole` and `CreateRole` is the same
whether or not `SyncCasbinPolicy` fails: its error is logged and the envelope is written all the
same (`s` is any other outcome of the rebuild).  When `UpdateUserRole` answers 200 and the
rebuild it ran returned nil, then, in a store with unique live usernames, unique live role
names, role keys that identify a row and no soft-deleted `user_roles` row, and for a user with
a non-empty username, the engine's `G` holds `(username, r)` for exactly the names `r` of the
request list. -/
theorem success_does_not_wait_for_rebuild (db : DB) (e : Enforcer) (s : SyncFaults)
    (f : AssignFaults) (body : Option UpdateUserRoleRequest) (req : UpdateUserRoleRequest)
    (fd : DeleteRoleFaults) (idParam : Option Nat)
    (fc : CreateRoleFaults) (cbody : Option CreateRoleRequest) :
    (UpdateUserRole db e { f with sync := s } body).status
        = (UpdateUserRole db e f body).status ∧
      (DeleteRole db e { fd with sync := s } idParam).status
        = (DeleteRole db e fd idParam).status ∧
      (CreateRole db e { fc with sync := s } cbody).status
        = (CreateRole db e fc cbody).status ∧
      ((UpdateUserRole db e f (some req)).status = 200 →
        (SyncCasbinPolicy (UpdateUserRole db e f (some req)).st.db e f.sync).2 = false →
        preloadUsername db req.userID ≠ "" → uniqueUsernames db → uniqueRoleNames db →
        roleKeys db → (∀ ur ∈ db.userRoles, ur.deleted = false) →
        ∃ g, (UpdateUserRole db e f (some req)).st.enforcer = some g ∧
          ∀ r, (preloadUsername db req.userID, r) ∈ g.g ↔ r ∈ req.roles) := by
  refine ⟨?_, ?_, ?_, ?_⟩
  · unfold Out.status
    rw [(updateUserRole_ignores_sync db e f s body).1]
  · unfold Out.status
    rw [(deleteRole_ignores_sync db e fd s idParam).1]
  · unfold Out.status
    rw [(createRole_ignores_sync db e fc s cbody).1]
  · intro h hs hname hU hN hK hUR
    obtain ⟨req1, user, hb, -, hu, hid, hlen, hst⟩ := updateUserRole_ok db e f (some req) h
    cases hb
    rw [hst] at hs ⊢
    simp only [] at hs ⊢
    have hpre : preloadUsername db req.userID = user.username := by
      unfold preloadUsername
      rw [hu]
    refine ⟨_, rfl, fun r => ?_⟩
    have hu1 : findUserByID
        (replaceUserRoles db req.userID ((getByNameIn db req.roles).map (fun r => r.id)))
        user.id = some user := by
      rw [hid]
      exact hu
    rw [hpre, mem_syncCasbinPolicy_g _ _ _ hs,
      mem_groupingRows_of_user
        (replaceUserRoles db req.userID ((getByNameIn db req.roles).map (fun r => r.id)))
        user r hu1 (by rw [← hpre]; exact hname) hU]
    constructor
    · rintro ⟨ur, hur, -, huid, hrn⟩
      have hrid := (replaceUserRoles_rows db req.userID _ ur.roleID).1
        ⟨ur, hur, by rw [huid, hid], rfl⟩
      obtain ⟨role, hrole, hroleid⟩ := List.mem_map.1 hrid
      simp only [getByNameIn, List.mem_filter, Bool.and_eq_true, Bool.not_eq_true'] at hrole
      have := preloadRoleName_of_live db role hrole.1 hrole.2.1 hK.1
      rw [hroleid] at this
      have hrn2 : preloadRoleName db ur.roleID = r := hrn
      rw [← hrn2, this]
      simpa using hrole.2.2
    · intro hr
      obtain ⟨role, hrole, hroleName⟩ := getByNameIn_covers db req.roles hN hK.2 hlen r hr
      obtain ⟨ur, hur, huid, hrid⟩ := (replaceUserRoles_rows db req.userID
        ((getByNameIn db req.roles).map (fun r => r.id)) role.id).2
          (List.mem_map.2 ⟨role, hrole, rfl⟩)
      refine ⟨ur, hur, replaceUserRoles_live db req.userID _ hUR ur hur, by rw [huid, hid], ?_⟩
      simp only [getByNameIn, List.mem_filter, Bool.and_eq_true, Bool.not_eq_true'] at hrole
      have := preloadRoleName_of_live db role hrole.1 hrole.2.1 hK.1
      show preloadRoleName db ur.roleID = r
      rw [hrid, this, hroleName]

/-- C16 amended, at the assignment of `[user]` to user 1 (`admin`) of `exDB`. -/
theorem success_does_not_wait_for_rebuild_witness :
    ((UpdateUserRole exDB exEngine AssignFaults.none exAssign).status = 200 ∧
        (SyncCasbinPolicy (UpdateUserRole exDB exEngine AssignFaults.none exAssign).st.db
          exEngine SyncFaults.none).2 = false ∧
        preloadUsername exDB 1 = "admin" ∧ uniqueUsernames exDB ∧ uniqueRoleNames exDB ∧
        roleKeys exDB ∧ (∀ ur ∈ exDB.userRoles, ur.deleted = false)) ∧
      ∃ g, (UpdateUserRole exDB exEngine AssignFaults.none exAssign).st.enforcer = some g ∧
        ∀ r, ("admin", r) ∈ g.g ↔ r ∈ ["user"] :=
  ⟨by decide,
    (success_does_not_wait_for_rebuild exDB exEngine SyncFaults.none AssignFaults.none none
      ⟨1, ["user"]⟩ DeleteRoleFaults.none none CreateRoleFaults.none none).2.2.2
      (by decide) (by decide) (by decide) (by decide) (by decide) (by decide) (by decide)⟩

/-! ## Engine failure: what the handlers do -/

/-- The tail of `AddPolicy` when `Enforcer.AddPolicy` is reached and returns an error: the
answer is 500, the engine call is the last call, the engine is as before and the association
inserted before the engine call is in the store. -/
theorem addPolicyFrom_engine_error (e : Enforcer) (f : GrantFaults) (req : PolicyRequest)
    (db : DB) (perm : Permission) (calls : List Call) (hc : Call.addPolicy ∉ calls)
    (hcall : Call.addPolicy ∈ (addPolicyFrom e f req db perm calls).calls)
    (herr : (e.addPolicy f.addPolicy (req.role, req.path, req.method)).2.2 = true) :
    (addPolicyFrom e f req db perm calls).status = 500 ∧
      (addPolicyFrom e f req db perm calls).calls.getLast? = some Call.addPolicy ∧
      (addPolicyFrom e f req db perm calls).st.enforcer = some e ∧
      ∃ rp, rp.deleted = false ∧
        (addPolicyFrom e f req db perm calls).st.db.rolePermissions = db.rolePermissions ++ [rp] ∧
        (addPolicyFrom e f req db perm calls).st.db.permissions = db.permissions := by
  unfold addPolicyFrom at hcall ⊢
  by_cases h1 : f.roleQuery = true
  · simp [h1, hc] at hcall
  replace h1 : f.roleQuery = false := by simpa using h1
  simp only [h1, Bool.false_eq_true, if_false] at hcall ⊢
  cases hr : findRole db req.role with
  | none => simp [hr, hc] at hcall
  | some role =>
    rw [hr] at hcall
    simp only [] at hcall ⊢
    by_cases h2 : f.assocQuery = true
    · simp [h2, hc] at hcall
    replace h2 : f.assocQuery = false := by simpa using h2
    simp only [h2, Bool.false_eq_true, if_false] at hcall ⊢
    cases hrp : findRolePermission db role.id perm.id with
    | some x => simp [hrp, hc] at hcall
    | none =>
      rw [hrp] at hcall
      simp only [] at hcall ⊢
      by_cases h3 : f.assocCreate = true
      · simp [h3, hc] at hcall
      replace h3 : f.assocCreate = false := by simpa using h3
      simp only [h3, Bool.false_eq_true, if_false] at hcall ⊢
      cases hcr : createRolePermission db role.id perm.id with
      | none => simp [hcr, hc] at hcall
      | some db2 =>
        simp only [herr, if_true]
        refine ⟨rfl, by simp, trivial, ?_⟩
        unfold createRolePermission at hcr
        split at hcr
        · cases hcr
        · cases hcr
          exact ⟨_, rfl, rfl, rfl⟩

/-- The tail of `RemovePolicy` when `Enforcer.RemovePolicy` returns an error. -/
theorem removePolicyFrom_engine_error (e : Enforcer) (f : RevokeFaults) (req : PolicyRequest)
    (db : DB) (calls : List Call)
    (herr : (e.removePolicy f.removePolicy (req.role, req.path, req.method)).2.2 = true) :
    (removePolicyFrom e f req db calls).status = 500 ∧
      (removePolicyFrom e f req db calls).calls.getLast? = some Call.removePolicy ∧
      (removePolicyFrom e f req db calls).st = ⟨db, some e⟩ := by
  unfold removePolicyFrom
  simp only [herr, if_true]
  exact ⟨rfl, by simp, trivial⟩

/-- What a run of `RemovePolicy` that reached `Enforcer.RemovePolicy` went through. -/
theorem removePolicy_reaches_engine (st : State) (f : RevokeFaults) (req : PolicyRequest)
    (hcall : Call.removePolicy ∈ (RemovePolicy st f (some req)).calls) :
    ∃ e perm role db1 calls, st.enforcer = some e ∧
      findPermission st.db req.path req.method = some perm ∧
      findRole st.db req.role = some role ∧
      (db1 = deleteRolePermission st.db role.id perm.id ∨
        db1 = deletePermission (deleteRolePermission st.db role.id perm.id) perm.id) ∧
      RemovePolicy st f (some req) = removePolicyFrom e f req db1 calls := by
  unfold RemovePolicy at hcall ⊢
  cases hb : bindPolicyRequest (some req) with
  | none => simp [hb] at hcall
  | some req1 =>
    have hbody := bindPolicyRequest_some hb
    cases hbody
    rw [hb] at hcall
    simp only [] at hcall ⊢
    by_cases hv : req.role = "" ∨ req.path = "" ∨ req.method = ""
    · simp [hv] at hcall
    simp only [hv, if_false] at hcall ⊢
    cases he : st.enforcer with
    | none => simp [he] at hcall
    | some e =>
      rw [he] at hcall
      simp only [] at hcall ⊢
      by_cases h1 : f.permQuery = true
      · simp [h1] at hcall
      replace h1 : f.permQuery = false := by simpa using h1
      simp only [h1, Bool.false_eq_true, if_false] at hcall ⊢
      cases hp : findPermission st.db req.path req.method with
      | none => simp [hp] at hcall
      | some perm =>
        rw [hp] at hcall
        simp only [] at hcall ⊢
        by_cases h2 : f.roleQuery = true
        · simp [h2] at hcall
        replace h2 : f.roleQuery = false := by simpa using h2
        simp only [h2, Bool.false_eq_true, if_false] at hcall ⊢
        cases hr : findRole st.db req.role with
        | none => simp [hr] at hcall
        | some role =>
          rw [hr] at hcall
          simp only [] at hcall ⊢
          by_cases h3 : f.assocDelete = true
          · simp [h3] at hcall
          replace h3 : f.assocDelete = false := by simpa using h3
          simp only [h3, Bool.false_eq_true, if_false] at hcall ⊢
          by_cases hc : (if f.assocCount = true then 0
              else countRolePermissions (deleteRolePermission st.db role.id perm.id) perm.id) = 0
          · simp only [hc, if_true] at hcall ⊢
            by_cases h4 : f.permDelete = true
            · simp [h4] at hcall
            replace h4 : f.permDelete = false := by simpa using h4
            simp only [h4, Bool.false_eq_true, if_false] at hcall ⊢
            exact ⟨e, perm, role, _, _, rfl, rfl, rfl, Or.inr rfl, rfl⟩
          · simp only [hc, if_false] at hcall ⊢
            exact ⟨e, perm, role, _, _, rfl, rfl, rfl, Or.inl rfl, rfl⟩

/-- Neither handler calls `SyncCasbinPolicy`. -/
theorem addPolicyFrom_no_rebuild (e : Enforcer) (f : GrantFaults) (req : PolicyRequest)
    (db : DB) (perm : Permission) (calls : List Call) (hc : Call.syncCasbinPolicy ∉ calls) :
    Call.syncCasbinPolicy ∉ (addPolicyFrom e f req db perm calls).calls := by
  unfold addPolicyFrom
  repeat' split
  all_goals first | (simp [hc]; done) | (simp only []; split_ifs <;> simp [hc])

/-- The tail of `RemovePolicy` does not call `SyncCasbinPolicy`. -/
theorem removePolicyFrom_no_rebuild (e : Enforcer) (f : RevokeFaults) (req : PolicyRequest)
    (db : DB) (calls : List Call) (hc : Call.syncCasbinPolicy ∉ calls) :
    Call.syncCasbinPolicy ∉ (removePolicyFrom e f req db calls).calls := by
  unfold removePolicyFrom
  simp only []
  split_ifs <;> simp [hc]

/-- The handler `AddPolicy` does not call `SyncCasbinPolicy`. -/
theorem addPolicy_no_rebuild (st : State) (f : GrantFaults) (body : Option PolicyRequest) :
    Call.syncCasbinPolicy ∉ (AddPolicy st f body).calls := by
  unfold AddPolicy
  repeat' split
  all_goals first | (simp; done) | exact addPolicyFrom_no_rebuild _ _ _ _ _ _ (by simp)

/-- The handler `RemovePolicy` does not call `SyncCasbinPolicy`. -/
theorem removePolicy_no_rebuild (st : State) (f : RevokeFaults) (body : Option PolicyRequest) :
    Call.syncCasbinPolicy ∉ (RemovePolicy st f body).calls := by
  unfold RemovePolicy
  repeat' split
  all_goals try simp only []
  all_goals try split_ifs
  all_goals first | exact removePolicyFrom_no_rebuild _ _ _ _ _ (by simp) | simp

/-- C11, amended.  When the store steps of a grant have succeeded and `Enforcer.AddPolicy` is
reached and returns an error, `AddPolicy` answers 500 with that error; the engine call is its
last call, the engine is as before the call, and the association inserted before it stays in the
store.  When `Enforcer.RemovePolicy` is reached in a revoke and returns an error,
`RemovePolicy` answers 500, the engine call is its last call and the engine is as before.
Neither handler calls `SyncCasbinPolicy`, in any run. -/
theorem engine_failure_returned_without_rebuild (st : State) (e : Enforcer) (f : GrantFaults)
    (fr : RevokeFaults) (req reqR : PolicyRequest) (he : st.enforcer = some e) :
    (Call.addPolicy ∈ (AddPolicy st f (some req)).calls →
      (e.addPolicy f.addPolicy (req.role, req.path, req.method)).2.2 = true →
      (AddPolicy st f (some req)).status = 500 ∧
        (AddPolicy st f (some req)).calls.getLast? = some Call.addPolicy ∧
        (AddPolicy st f (some req)).st.enforcer = some e ∧
        ∃ rp, rp.deleted = false ∧
          (AddPolicy st f (some req)).st.db.rolePermissions
            = st.db.rolePermissions ++ [rp]) ∧
      (Call.removePolicy ∈ (RemovePolicy st fr (some reqR)).calls →
        (e.removePolicy fr.removePolicy (reqR.role, reqR.path, reqR.method)).2.2 = true →
        (RemovePolicy st fr (some reqR)).status = 500 ∧
          (RemovePolicy st fr (some reqR)).calls.getLast? = some Call.removePolicy ∧
          (RemovePolicy st fr (some reqR)).st.enforcer = some e) ∧
      Call.syncCasbinPolicy ∉ (AddPolicy st f (some req)).calls ∧
      Call.syncCasbinPolicy ∉ (RemovePolicy st fr (some reqR)).calls := by
  refine ⟨?_, ?_, addPolicy_no_rebuild _ _ _, removePolicy_no_rebuild _ _ _⟩
  · intro hcall herr
    unfold AddPolicy at hcall ⊢
    cases hb : bindPolicyRequest (some req) with
    | none => simp [hb] at hcall
    | some req1 =>
      have hbody := bindPolicyRequest_some hb
      cases hbody
      rw [hb] at hcall
      simp only [] at hcall ⊢
      by_cases hv : req.role = "" ∨ req.path = "" ∨ req.method = "" ∨ req.method ∉ validMethods
      · simp [hv] at hcall
      simp only [hv, if_false, he] at hcall ⊢
      by_cases h1 : f.permQuery = true
      · simp [h1] at hcall
      replace h1 : f.permQuery = false := by simpa using h1
      simp only [h1, Bool.false_eq_true, if_false] at hcall ⊢
      cases hp : findPermission st.db req.path req.method with
      | some perm =>
        rw [hp] at hcall
        simp only [] at hcall ⊢
        obtain ⟨a, b, c, rp, d1, d2, -⟩ :=
          addPolicyFrom_engine_error e f req st.db perm [.permFirst] (by simp) hcall herr
        exact ⟨a, b, c, rp, d1, d2⟩
      | none =>
        rw [hp] at hcall
        simp only [] at hcall ⊢
        by_cases h2 : f.permCreate = true
        · simp [h2] at hcall
        replace h2 : f.permCreate = false := by simpa using h2
        simp only [h2, Bool.false_eq_true, if_false] at hcall ⊢
        obtain ⟨a, b, c, rp, d1, d2, -⟩ :=
          addPolicyFrom_engine_error e f req _ _ [.permFirst, .permCreate] (by simp) hcall herr
        exact ⟨a, b, c, rp, d1, d2⟩
  · intro hcall herr
    obtain ⟨e1, perm, role, db1, calls, he1, -, -, -, hrun⟩ :=
      removePolicy_reaches_engine st fr reqR hcall
    rw [he] at he1
    cases he1
    rw [hrun]
    obtain ⟨a, b, c⟩ := removePolicyFrom_engine_error e fr reqR db1 calls herr
    exact ⟨a, b, by rw [c]⟩

/-- C11 amended, on `exState`: the grant of `(user, /t, GET)` with the engine call failing,
and the revoke of `(admin, /t, GET)` with the engine call failing. -/
theorem engine_failure_returned_without_rebuild_witness :
    ((Call.addPolicy ∈ (AddPolicy exState addPolicyFails (some exReq)).calls ∧
        ((Enforcer.mk [("admin", "/t", "GET")] []).addPolicy addPolicyFails.addPolicy
          (exReq.role, exReq.path, exReq.method)).2.2 = true) ∧
      (Call.removePolicy ∈
          (RemovePolicy exState removePolicyFails (some ⟨"admin", "/t", "GET"⟩)).calls ∧
        ((Enforcer.mk [("admin", "/t", "GET")] []).removePolicy removePolicyFails.removePolicy
          ("admin", "/t", "GET")).2.2 = true)) ∧
      ((AddPolicy exState addPolicyFails (some exReq)).status = 500 ∧
        (AddPolicy exState addPolicyFails (some exReq)).calls.getLast? = some Call.addPolicy ∧
        (AddPolicy exState addPolicyFails (some exReq)).st.enforcer
          = some ⟨[("admin", "/t", "GET")], []⟩ ∧
        ∃ rp, rp.deleted = false ∧
          (AddPolicy exState addPolicyFails (some exReq)).st.db.rolePermissions
            = exState.db.rolePermissions ++ [rp]) ∧
      ((RemovePolicy exState removePolicyFails (some ⟨"admin", "/t", "GET"⟩)).status = 500 ∧
        (RemovePolicy exState removePolicyFails (some ⟨"admin", "/t", "GET"⟩)).calls.getLast?
          = some Call.removePolicy ∧
        (RemovePolicy exState removePolicyFails (some ⟨"admin", "/t", "GET"⟩)).st.enforcer
          = some ⟨[("admin", "/t", "GET")], []⟩) :=
  ⟨by decide,
    (engine_failure_returned_without_rebuild exState ⟨[("admin", "/t", "GET")], []⟩
      addPolicyFails removePolicyFails exReq ⟨"admin", "/t", "GET"⟩ rfl).1
      (by decide) (by decide),
    (engine_failure_returned_without_rebuild exState ⟨[("admin", "/t", "GET")], []⟩
      addPolicyFails removePolicyFails exReq ⟨"admin", "/t", "GET"⟩ rfl).2.1
      (by decide) (by decide)⟩

/-! ## Grant: an absent role, and the writes that stay -/

/-- The tail of `AddPolicy` leaves every table but `role_permissions` alone, and appends to
that one at most the association it inserts. -/
theorem addPolicyFrom_frame (e : Enforcer) (f : GrantFaults) (req : PolicyRequest)
    (db : DB) (perm : Permission) (calls : List Call) :
    (addPolicyFrom e f req db perm calls).st.db.users = db.users ∧
      (addPolicyFrom e f req db perm calls).st.db.roles = db.roles ∧
      (addPolicyFrom e f req db perm calls).st.db.userRoles = db.userRoles ∧
      (addPolicyFrom e f req db perm calls).st.db.permissions = db.permissions ∧
      ∃ l, (addPolicyFrom e f req db perm calls).st.db.rolePermissions
        = db.rolePermissions ++ l := by
  have hnil : ∃ l, db.rolePermissions = db.rolePermissions ++ l := ⟨[], by simp⟩
  unfold addPolicyFrom
  split
  · exact ⟨rfl, rfl, rfl, rfl, hnil⟩
  · split
    · exact ⟨rfl, rfl, rfl, rfl, hnil⟩
    · split
      · exact ⟨rfl, rfl, rfl, rfl, hnil⟩
      · split
        · exact ⟨rfl, rfl, rfl, rfl, hnil⟩
        · rename_i db2 hcr
          have hdb2 : db2.users = db.users ∧ db2.roles = db.roles ∧
              db2.userRoles = db.userRoles ∧ db2.permissions = db.permissions ∧
              ∃ l, db2.rolePermissions = db.rolePermissions ++ l := by
            split at hcr
            · cases hcr
            · unfold createRolePermission at hcr
              split at hcr
              · cases hcr
              · cases hcr
                exact ⟨rfl, rfl, rfl, rfl, _, rfl⟩
          simp only []
          split_ifs <;> exact hdb2

/-- The tail of `AddPolicy` answers 500 when no live role carries the name of the request. -/
theorem addPolicyFrom_absent_role (e : Enforcer) (f : GrantFaults) (req : PolicyRequest)
    (db : DB) (perm : Permission) (calls : List Call) (h : findRole db req.role = none) :
    (addPolicyFrom e f req db perm calls).status = 500 ∧
      (addPolicyFrom e f req db perm calls).st.db = db := by
  unfold addPolicyFrom
  cases hq : f.roleQuery <;> simp [h, Out.status]

/-- C12, amended.  A grant whose request passes validation and names a role that no live row
of `roles` carries is answered 500 (the error of the role query is mapped to the internal
error), in every state and whichever backend calls fail; it is never answered 404. -/
theorem addPolicy_absent_role_is_500 (st : State) (f : GrantFaults) (req : PolicyRequest)
    (hv : ¬ (req.role = "" ∨ req.path = "" ∨ req.method = "" ∨ req.method ∉ validMethods))
    (h : findRole st.db req.role = none) :
    (AddPolicy st f (some req)).status = 500 ∧ (AddPolicy st f (some req)).status ≠ 404 := by
  have hb : bindPolicyRequest (some req) = some req :=
    bindPolicyRequest_of_nonempty req (fun hk => hv (by tauto))
  have key : (AddPolicy st f (some req)).status = 500 := by
    unfold AddPolicy
    rw [hb]
    simp only [hv, if_false]
    cases he : st.enforcer with
    | none => rfl
    | some e =>
      simp only []
      by_cases h1 : f.permQuery = true
      · simp [h1, Out.status]
      replace h1 : f.permQuery = false := by simpa using h1
      simp only [h1, Bool.false_eq_true, if_false]
      cases hp : findPermission st.db req.path req.method with
      | some perm => exact (addPolicyFrom_absent_role e f req st.db perm _ h).1
      | none =>
        simp only []
        by_cases h2 : f.permCreate = true
        · simp [h2, Out.status]
        replace h2 : f.permCreate = false := by simpa using h2
        simp only [h2, Bool.false_eq_true, if_false]
        exact (addPolicyFrom_absent_role e f req
          (createPermission st.db req.path req.method).1 _ _ h).1
  exact ⟨key, by rw [key]; decide⟩

/-- C12 amended, at the grant to the unknown role `ghost` on `exBare`. -/
theorem addPolicy_absent_role_is_500_witness :
    (¬ (("ghost" : String) = "" ∨ ("/t" : String) = "" ∨ ("GET" : String) = "" ∨
        ("GET" : String) ∉ validMethods) ∧ findRole exBare.db "ghost" = none) ∧
      (AddPolicy exBare GrantFaults.none (some ⟨"ghost", "/t", "GET"⟩)).status = 500 ∧
      (AddPolicy exBare GrantFaults.none (some ⟨"ghost", "/t", "GET"⟩)).status ≠ 404 :=
  ⟨by decide,
    addPolicy_absent_role_is_500 exBare GrantFaults.none ⟨"ghost", "/t", "GET"⟩
      (by decide) (by decide)⟩

/-- C13, amended.  A grant is not undone when it ends in an error: what the handler wrote
before the error stays.  For every request that passes validation, in every run: the tables
`users`, `roles` and `user_roles` are as before, and `permissions` and `role_permissions` are
the tables from before with the rows the handler inserted appended.  When no live permission
row `(path, method)` existed and neither the permission query nor the insert failed, the
permission row created by the handler is in the store after the call, whatever the answer;
when moreover the named role does not exist, the answer is 500 and the store is the one from
before plus that permission row. -/
theorem addPolicy_error_keeps_writes (st : State) (e : Enforcer) (f : GrantFaults)
    (req : PolicyRequest)
    (hv : ¬ (req.role = "" ∨ req.path = "" ∨ req.method = "" ∨ req.method ∉ validMethods))
    (he : st.enforcer = some e) :
    ((AddPolicy st f (some req)).st.db.users = st.db.users ∧
        (AddPolicy st f (some req)).st.db.roles = st.db.roles ∧
        (AddPolicy st f (some req)).st.db.userRoles = st.db.userRoles ∧
        (∃ l, (AddPolicy st f (some req)).st.db.permissions = st.db.permissions ++ l) ∧
        ∃ l, (AddPolicy st f (some req)).st.db.rolePermissions = st.db.rolePermissions ++ l) ∧
      (f.permQuery = false → f.permCreate = false →
        findPermission st.db req.path req.method = none →
        (AddPolicy st f (some req)).st.db.permissions
            = st.db.permissions ++ [(createPermission st.db req.path req.method).2] ∧
          (findRole st.db req.role = none →
            (AddPolicy st f (some req)).status = 500 ∧
              (AddPolicy st f (some req)).st.db
                = (createPermission st.db req.path req.method).1)) := by
  have hb : bindPolicyRequest (some req) = some req :=
    bindPolicyRequest_of_nonempty req (fun hk => hv (by tauto))
  have hnilp : ∃ l, st.db.permissions = st.db.permissions ++ l := ⟨[], by simp⟩
  have hnilr : ∃ l, st.db.rolePermissions = st.db.rolePermissions ++ l := ⟨[], by simp⟩
  unfold AddPolicy
  rw [hb]
  simp only [hv, if_false, he]
  by_cases h1 : f.permQuery = true
  · simp only [h1, if_true]
    exact ⟨⟨trivial, trivial, trivial, hnilp, hnilr⟩, fun hk => by simp at hk⟩
  replace h1 : f.permQuery = false := by simpa using h1
  simp only [h1, Bool.false_eq_true, if_false]
  cases hp : findPermission st.db req.path req.method with
  | some perm =>
    simp only []
    obtain ⟨a, b, c, d, l, hl⟩ := addPolicyFrom_frame e f req st.db perm [.permFirst]
    exact ⟨⟨a, b, c, ⟨[], by rw [d]; simp⟩, l, hl⟩, fun _ _ hk => by simp at hk⟩
  | none =>
    simp only []
    by_cases h2 : f.permCreate = true
    · simp only [h2, if_true]
      exact ⟨⟨trivial, trivial, trivial, hnilp, hnilr⟩, fun _ hk => by simp at hk⟩
    replace h2 : f.permCreate = false := by simpa using h2
    simp only [h2, Bool.false_eq_true, if_false]
    obtain ⟨a, b, c, d, l, hl⟩ := addPolicyFrom_frame e f req
      (createPermission st.db req.path req.method).1
      (createPermission st.db req.path req.method).2 [.permFirst, .permCreate]
    refine ⟨⟨a, b, c, ⟨_, d⟩, l, hl⟩, fun _ _ _ => ⟨d, fun hr => ?_⟩⟩
    exact addPolicyFrom_absent_role e f req (createPermission st.db req.path req.method).1
      _ _ hr

/-- C13 amended, at the grant to the unknown role `ghost` on `exBare`. -/
theorem addPolicy_error_keeps_writes_witness :
    (¬ (("ghost" : String) = "" ∨ ("/t" : String) = "" ∨ ("GET" : String) = "" ∨
          ("GET" : String) ∉ validMethods) ∧
        exBare.enforcer = some ⟨[], []⟩ ∧
        findPermission exBare.db "/t" "GET" = none ∧ findRole exBare.db "ghost" = none) ∧
      (AddPolicy exBare GrantFaults.none (some ⟨"ghost", "/t", "GET"⟩)).st.db.permissions
        = exBare.db.permissions ++ [(createPermission exBare.db "/t" "GET").2] ∧
      (AddPolicy exBare GrantFaults.none (some ⟨"ghost", "/t", "GET"⟩)).status = 500 ∧
      (AddPolicy exBare GrantFaults.none (some ⟨"ghost", "/t", "GET"⟩)).st.db
        = (createPermission exBare.db "/t" "GET").1 :=
  ⟨by decide,
    ((addPolicy_error_keeps_writes exBare ⟨[], []⟩ GrantFaults.none ⟨"ghost", "/t", "GET"⟩
      (by decide) rfl).2 rfl rfl (by decide)).1,
    ((addPolicy_error_keeps_writes exBare ⟨[], []⟩ GrantFaults.none ⟨"ghost", "/t", "GET"⟩
      (by decide) rfl).2 rfl rfl (by decide)).2 (by decide)⟩

/-! ## Bootstrap: the role `user` -/

set_option maxRecDepth 100000 in
/-- C21. The role `user` after the bootstrap.  `InitRolesAndPermissions` on the empty store
returns no error; the role `user` (key 2) and the seeded permission `(/api/v1/users/*, GET)`
(key 3) are there, and no `role_permissions` row of the role `user` is stored: the query for
the permissions of `user` asks for the resources `/api/v1/users` and `/api/v1/users/:id`,
which no seeded row carries, so the role is bound to nothing. -/
theorem initRolesAndPermissions_user_role_unbound :
    (InitRolesAndPermissions emptyDB ⟨[], []⟩ ⟨[], []⟩).2.2 = false ∧
      findRole seededDB "user" = some ⟨2, "user", "普通用户", false⟩ ∧
      findPermission seededDB "/api/v1/users/*" "GET"
        = some ⟨3, "/api/v1/users/*", "GET", "查看用户详情", false⟩ ∧
      holds seededDB 2 "/api/v1/users/*" "GET" = false ∧
      seededDB.rolePermissions.filter (fun rp => rp.roleID == 2) = [] ∧
      (seededDB.permissions.filter (fun p =>
        (p.resource == "/api/v1/users" || p.resource == "/api/v1/users/:id") &&
          p.action == "GET")) = [] := by
  refine ⟨by decide, by decide, by decide, by decide, by decide, by decide⟩

/-! ## Scenarios on the bootstrap state -/

set_option maxRecDepth 100000 in
/-- C22, refuted as stated.  In the bootstrap state the permission row
`(/api/v1/permissions/policies, GET)` is stored (key 13, seeded); the grant to `user` is
answered 200 and the `permissions` table after it is the table from before: no permission row
was created. -/
theorem grant_policies_creates_no_permission :
    findPermission bootState.db "/api/v1/permissions/policies" "GET"
        = some ⟨13, "/api/v1/permissions/policies", "GET", "获取所有权限策略", false⟩ ∧
      (AddPolicy bootState GrantFaults.none (some policiesReq)).status = 200 ∧
      bootGranted.db.permissions = bootState.db.permissions := by
  refine ⟨by decide, by decide, by decide⟩

set_option maxRecDepth 100000 in
/-- C22, amended.  In the bootstrap state `Enforce(user, /api/v1/permissions/policies, GET)`
is false.  The grant of that triple is answered 200; afterwards the same `Enforce` is true, the
listing of `GetPolicies` contains `user,/api/v1/permissions/policies,GET`, the `permissions`
table is as before (the handler used the seeded row, key 13), and a `role_permissions` row
joining `user` (key 2) to that permission exists that did not exist before. -/
theorem scenario_S2_S3 :
    bootState.enforcer.map (fun e => e.enforce "user" "/api/v1/permissions/policies" "GET")
        = some false ∧
      (AddPolicy bootState GrantFaults.none (some policiesReq)).status = 200 ∧
      bootGranted.enforcer.map (fun e => e.enforce "user" "/api/v1/permissions/policies" "GET")
        = some true ∧
      bootGranted.enforcer.map (fun e =>
        decide ("user,/api/v1/permissions/policies,GET" ∈ (GetPolicies e false).2)) = some true ∧
      bootGranted.db.permissions = bootState.db.permissions ∧
      findRolePermission bootState.db 2 13 = none ∧
      findRolePermission bootGranted.db 2 13 = some ⟨2, 13, false⟩ := by
  refine ⟨by decide, by decide, by decide, by decide, by decide, by decide, by decide⟩

set_option maxRecDepth 100000 in
/-- C23, refuted as stated.  After the grant of `(user, /api/v1/permissions/policies, GET)` on
the bootstrap state and the revoke of the same triple, both answered 200, the permission row
(key 13) is still live: the role `admin` (key 1) holds it. -/
theorem revoke_after_grant_keeps_seeded_permission :
    (AddPolicy bootState GrantFaults.none (some policiesReq)).status = 200 ∧
      (RemovePolicy bootGranted RevokeFaults.none (some policiesReq)).status = 200 ∧
      findPermission bootRevoked.db "/api/v1/permissions/policies" "GET"
        = some ⟨13, "/api/v1/permissions/policies", "GET", "获取所有权限策略", false⟩ ∧
      holds bootRevoked.db 1 "/api/v1/permissions/policies" "GET" = true := by
  refine ⟨by decide, by decide, by decide, by decide⟩

set_option maxRecDepth 100000 in
/-- C23, amended.  After the grant of `(user, /api/v1/permissions/policies, GET)` on the
bootstrap state and the revoke of the same triple, the revoke is answered 200, the role `user`
no longer holds the permission (its `role_permissions` row is soft-deleted), the permission
row is still live because the role `admin` refers to it, the engine is the one from before the
grant, and `Enforce(user, /api/v1/permissions/policies, GET)` is false again. -/
theorem scenario_S4 :
    (RemovePolicy bootGranted RevokeFaults.none (some policiesReq)).status = 200 ∧
      holds bootRevoked.db 2 "/api/v1/permissions/policies" "GET" = false ∧
      bootRevoked.db.rolePermissions.filter (fun rp => rp.roleID == 2) = [⟨2, 13, true⟩] ∧
      permissionLive bootRevoked.db 13 = true ∧
      heldByOtherRole bootRevoked.db 2 13 = true ∧
      bootRevoked.enforcer = bootState.enforcer ∧
      bootRevoked.enforcer.map (fun e => e.enforce "user" "/api/v1/permissions/policies" "GET")
        = some false := by
  refine ⟨by decide, by decide, by decide, by decide, by decide, by decide, by decide⟩

/-! ## Revoke: checkpoints and envelopes -/

/-- C26. Revoke writes twice.  The revoke of `(admin, /t, GET)` on `exState`, no call failing,
calls `SavePolicy` twice and writes the success envelope twice; when the second `SavePolicy`
fails, the handler writes the success envelope and then a 500 envelope. -/
theorem removePolicy_saves_and_answers_twice :
    (RemovePolicy exState RevokeFaults.none (some ⟨"admin", "/t", "GET"⟩)).status = 200 ∧
      (RemovePolicy exState RevokeFaults.none (some ⟨"admin", "/t", "GET"⟩)).responses
        = [200, 200] ∧
      ((RemovePolicy exState RevokeFaults.none (some ⟨"admin", "/t", "GET"⟩)).calls.filter
        (fun c => c == Call.savePolicy)).length = 2 ∧
      (RemovePolicy exState secondSaveFails (some ⟨"admin", "/t", "GET"⟩)).responses
        = [200, 500] := by
  decide

/-! ## Grant after revoke -/

/-- C29. Grant after revoke.  In `exBoth` the roles `admin` and `user` both hold `GET /t`.
The revoke of `(user, /t, GET)` is answered 200 and leaves the `role_permissions` row of `user`
soft-deleted.  The grant of the same triple that follows is answered 500: the insert is
refused because that row keeps the primary key.  The role `user` does not hold the permission
and `P` does not hold the tuple. -/
theorem regrant_after_revoke_is_refused :
    holds exBoth.db 1 "/t" "GET" = true ∧ holds exBoth.db 2 "/t" "GET" = true ∧
      (RemovePolicy exBoth RevokeFaults.none (some exReq)).status = 200 ∧
      (RemovePolicy exBoth RevokeFaults.none (some exReq)).st.db.rolePermissions
        = [⟨1, 1, false⟩, ⟨2, 1, true⟩] ∧
      (AddPolicy (RemovePolicy exBoth RevokeFaults.none (some exReq)).st GrantFaults.none
        (some exReq)).status = 500 ∧
      (AddPolicy (RemovePolicy exBoth RevokeFaults.none (some exReq)).st GrantFaults.none
        (some exReq)).calls
        = [Call.permFirst, Call.roleFirst, Call.assocFirst, Call.assocCreate] ∧
      holds (AddPolicy (RemovePolicy exBoth RevokeFaults.none (some exReq)).st GrantFaults.none
        (some exReq)).st.db 2 "/t" "GET" = false ∧
      (AddPolicy (RemovePolicy exBoth RevokeFaults.none (some exReq)).st GrantFaults.none
        (some exReq)).st.enforcer = some ⟨[("admin", "/t", "GET")], []⟩ := by
  decide

/-! ## Administrative operations and the engine -/

set_option maxRecDepth 100000 in
/-- C25. Operations that leave the engine behind.  The bootstrap state satisfies I4 and I5.
From it: `UpdateRole` renaming `admin` to `root` is answered 200 and makes no engine call, so
`P` and `G` keep the old name and I4 and I5 fail; `CreateUser` of `bob` returns nil and
attaches the role `user` without an engine call, so I5 fails; `DeleteUser` of `admin` returns
nil and `G` keeps `(admin, admin)`, so I5 fails; `DeleteRole` of `user` after a grant to
`user` is answered 200 and the rebuild it runs leaves a tuple with an empty role name in `P`,
so I4 fails. -/
theorem admin_operations_break_I4_I5 :
    (bootState.enforcer = some bootEngine ∧ I4 bootState.db bootEngine ∧
        I5 bootState.db bootEngine) ∧
      ((UpdateRole bootState.db bootEngine UpdateRoleFaults.none (some renameReq)).status = 200 ∧
        bootRenamed.enforcer = some bootEngine ∧ ¬ I4 bootRenamed.db bootEngine ∧
        ¬ I5 bootRenamed.db bootEngine) ∧
      ((CreateUser bootState.db CreateUserFaults.none "bob").2 = false ∧
        ¬ I5 bootRegistered bootEngine) ∧
      ((DeleteUser bootState.db false 1).2 = false ∧ ¬ I5 bootUserDeleted bootEngine) ∧
      ((AddPolicy bootState GrantFaults.none (some policiesReq)).status = 200 ∧
        (DeleteRole bootGranted.db bootEngine DeleteRoleFaults.none (some 2)).status = 200 ∧
        ¬ bootRoleDeleted.inSync) := by
  refine ⟨by decide, by decide, by decide, by decide, by decide⟩

/-! ## The gate and the grouping pairs -/

set_option maxRecDepth 100000 in
/-- C27. A username equal to a role name.  In `exCollision` the user named `user` (key 2)
holds the role `admin`, and `bob` (key 3) holds the role `user` only; the engine is the one
`SyncCasbinPolicy` rebuilt.  `P` holds no tuple whose subject is `user`, yet the gate lets
`bob` through on `DELETE /api/v1/users/7`: the gate asks `Enforce(user, ...)` with the role
name as subject, and `G` links the subject `user` to `admin` through the pair of the other
user.  Without that pair the gate answers 403. -/
theorem gate_allows_through_foreign_grouping :
    (exCollision.enforcer = some collisionEngine ∧
        findUser exCollision.db "bob" = some ⟨3, "bob", false⟩ ∧
        (rolesOfUser exCollision.db ⟨3, "bob", false⟩).map (fun r => r.name) = ["user"] ∧
        findUser exCollision.db "user" = some ⟨2, "user", false⟩ ∧
        (rolesOfUser exCollision.db ⟨2, "user", false⟩).map (fun r => r.name) = ["admin"]) ∧
      collisionEngine.g = [("admin", "admin"), ("bob", "user"), ("user", "admin")] ∧
      collisionEngine.p.filter (fun t => t.1 == "user") = [] ∧
      (CasbinMiddleware exCollision.db collisionEngine.answer ⟨false, false⟩ (some "bob")
        "/api/v1/users/7" "DELETE").decision = Decision.next ∧
      (CasbinMiddleware exCollision.db
        (Enforcer.answer { collisionEngine with g := [("admin", "admin"), ("bob", "user")] })
        ⟨false, false⟩ (some "bob") "/api/v1/users/7" "DELETE").decision
        = Decision.abort 403 := by
  refine ⟨by decide, by decide, by decide, by decide, by decide⟩

/-! ## The full rebuild when it fails -/

/-- The first loop only adds submitted tuples to `G`, and leaves `P` alone. -/
theorem addGroupings_sub (failAt : Option Nat) (ts : List (String × String)) :
    ∀ (i : Nat) (e : Enforcer),
      (∀ t ∈ (addGroupings failAt i e ts).1.g, t ∈ e.g ∨ t ∈ ts) ∧
        (addGroupings failAt i e ts).1.p = e.p := by
  induction ts with
  | nil => intro i e; exact ⟨fun t ht => Or.inl ht, rfl⟩
  | cons a ts ih =>
    intro i e
    by_cases hm : a ∈ e.g
    · simp only [addGroupings, Enforcer.addGroupingPolicy, hm, if_true, Bool.false_eq_true,
        if_false]
      refine ⟨fun t ht => ?_, (ih (i + 1) e).2⟩
      rcases (ih (i + 1) e).1 t ht with h | h
      · exact Or.inl h
      · exact Or.inr (List.mem_cons_of_mem _ h)
    · by_cases hf : (failAt == some i) = true
      · simp only [addGroupings, Enforcer.addGroupingPolicy, hm, hf, if_true, if_false]
        exact ⟨fun t ht => Or.inl ht, trivial⟩
      · simp only [addGroupings, Enforcer.addGroupingPolicy, hm, hf, if_false,
          Bool.false_eq_true]
        refine ⟨fun t ht => ?_, (ih (i + 1) _).2⟩
        rcases (ih (i + 1) _).1 t ht with h | h
        · rcases List.mem_append.1 h with h | h
          · exact Or.inl h
          · exact Or.inr (by simp at h; simp [h])
        · exact Or.inr (List.mem_cons_of_mem _ h)

/-- The second loop only adds submitted tuples to `P`. -/
theorem addPolicies_sub (failAt : Option Nat) (ts : List Policy) :
    ∀ (i : Nat) (e : Enforcer),
      ∀ t ∈ (addPolicies failAt i e ts).1.p, t ∈ e.p ∨ t ∈ ts := by
  induction ts with
  | nil => intro i e t ht; exact Or.inl ht
  | cons a ts ih =>
    intro i e
    by_cases hm : a ∈ e.p
    · simp only [addPolicies, Enforcer.addPolicy, hm, if_true, Bool.false_eq_true, if_false]
      intro t ht
      rcases ih (i + 1) e t ht with h | h
      · exact Or.inl h
      · exact Or.inr (List.mem_cons_of_mem _ h)
    · by_cases hf : (failAt == some i) = true
      · simp only [addPolicies, Enforcer.addPolicy, hm, hf, if_true, if_false]
        exact fun t ht => Or.inl ht
      · simp only [addPolicies, Enforcer.addPolicy, hm, hf, if_false, Bool.false_eq_true]
        intro t ht
        rcases ih (i + 1) _ t ht with h | h
        · rcases List.mem_append.1 h with h | h
          · exact Or.inl h
          · exact Or.inr (by simp at h; simp [h])
        · exact Or.inr (List.mem_cons_of_mem _ h)

/-- C28, refuted as stated.  On `exDB` with the engine `exEngine`, a run of `SyncCasbinPolicy`
whose first query fails returns an error and leaves `P` and `G` empty: the tuples held before
the call are gone, and `Enforce(admin, /t, GET)`, true before, is false after. -/
theorem syncCasbinPolicy_failure_clears_engine :
    exEngine = ⟨[("admin", "/t", "GET")], [("admin", "user"), ("admin", "admin")]⟩ ∧
      (SyncCasbinPolicy exDB exEngine syncFails.sync).2 = true ∧
      (SyncCasbinPolicy exDB exEngine syncFails.sync).1 = ⟨[], []⟩ ∧
      exEngine.enforce "admin" "/t" "GET" = true ∧
      (SyncCasbinPolicy exDB exEngine syncFails.sync).1.enforce "admin" "/t" "GET" = false := by
  decide

/-- C28, amended.  `SyncCasbinPolicy` is not atomic on the engine: it clears `P` and `G`
first.  When it returns an error, the engine it leaves does not depend on the engine before
the call; `G` holds only tuples of live `user_roles` rows and `P` only tuples of live
`role_permissions` rows, those added before the failure; when the first query failed both are
empty, and when the failure came before the second loop `P` is empty.  The error is that of
one of the five steps: a query, a loop, or the save. -/
theorem syncCasbinPolicy_failure_not_atomic (db : DB) (e : Enforcer) (f : SyncFaults)
    (h : (SyncCasbinPolicy db e f).2 = true) :
    (∀ e2, SyncCasbinPolicy db e2 f = SyncCasbinPolicy db e f) ∧
      (∀ t ∈ (SyncCasbinPolicy db e f).1.g, t ∈ groupingRows db) ∧
      (∀ t ∈ (SyncCasbinPolicy db e f).1.p, t ∈ policyRows db) ∧
      (f.userRolesFind = true → (SyncCasbinPolicy db e f).1 = ⟨[], []⟩) ∧
      ((addGroupings f.addGrouping 0 ⟨[], []⟩ (groupingRows db)).2 = true ∨
          f.rolePermissionsFind = true → (SyncCasbinPolicy db e f).1.p = []) ∧
      (f.userRolesFind = true ∨
        (addGroupings f.addGrouping 0 ⟨[], []⟩ (groupingRows db)).2 = true ∨
        f.rolePermissionsFind = true ∨
        (addPolicies f.addPolicy 0 (addGroupings f.addGrouping 0 ⟨[], []⟩ (groupingRows db)).1
          (policyRows db)).2 = true ∨
        f.savePolicy = true) := by
  have hg := addGroupings_sub f.addGrouping (groupingRows db) 0 ⟨[], []⟩
  have hp := addPolicies_sub f.addPolicy (policyRows db) 0
    (addGroupings f.addGrouping 0 ⟨[], []⟩ (groupingRows db)).1
  have hpg := addPolicies_g f.addPolicy (policyRows db) 0
    (addGroupings f.addGrouping 0 ⟨[], []⟩ (groupingRows db)).1
  have hG : ∀ t ∈ (addGroupings f.addGrouping 0 ⟨[], []⟩ (groupingRows db)).1.g,
      t ∈ groupingRows db := by
    intro t ht
    rcases hg.1 t ht with h1 | h1
    · simp at h1
    · exact h1
  have hP : ∀ t ∈ (addPolicies f.addPolicy 0
      (addGroupings f.addGrouping 0 ⟨[], []⟩ (groupingRows db)).1 (policyRows db)).1.p,
      t ∈ policyRows db := by
    intro t ht
    rcases hp t ht with h1 | h1
    · rw [hg.2] at h1
      simp at h1
    · exact h1
  refine ⟨fun e2 => rfl, ?_, ?_, ?_, ?_, ?_⟩
  · unfold SyncCasbinPolicy
    simp only [Enforcer.clearPolicy]
    split_ifs
    · simp
    · exact hG
    · exact hG
    · rw [hpg]; exact hG
    · rw [hpg]; exact hG
    · rw [hpg]; exact hG
  · unfold SyncCasbinPolicy
    simp only [Enforcer.clearPolicy]
    split_ifs
    · simp
    · rw [hg.2]; simp
    · rw [hg.2]; simp
    · exact hP
    · exact hP
    · exact hP
  · intro h1
    unfold SyncCasbinPolicy
    simp [Enforcer.clearPolicy, h1]
  · intro h1
    unfold SyncCasbinPolicy
    simp only [Enforcer.clearPolicy]
    split_ifs with a b c
    · rfl
    · rw [hg.2]
    · rw [hg.2]
    · rcases h1 with h1 | h1
      · exact absurd h1 b
      · exact absurd h1 c
    · rcases h1 with h1 | h1
      · exact absurd h1 b
      · exact absurd h1 c
    · rcases h1 with h1 | h1
      · exact absurd h1 b
      · exact absurd h1 c
  · unfold SyncCasbinPolicy at h
    simp only [Enforcer.clearPolicy] at h
    split_ifs at h with a b c d e5
    · exact Or.inl a
    · exact Or.inr (Or.inl b)
    · exact Or.inr (Or.inr (Or.inl c))
    · exact Or.inr (Or.inr (Or.inr (Or.inl d)))
    · exact Or.inr (Or.inr (Or.inr (Or.inr e5)))

/-- C28 amended, at the rebuild from `exDB` whose first query fails, from the engine
`exEngine`. -/
theorem syncCasbinPolicy_failure_not_atomic_witness :
    (SyncCasbinPolicy exDB exEngine syncFails.sync).2 = true ∧
      (∀ e2, SyncCasbinPolicy exDB e2 syncFails.sync
        = SyncCasbinPolicy exDB exEngine syncFails.sync) ∧
      (syncFails.sync.userRolesFind = true →
        (SyncCasbinPolicy exDB exEngine syncFails.sync).1 = ⟨[], []⟩) :=
  ⟨by decide,
    (syncCasbinPolicy_failure_not_atomic exDB exEngine syncFails.sync (by decide)).1,
    (syncCasbinPolicy_failure_not_atomic exDB exEngine syncFails.sync (by decide)).2.2.2.1⟩

/-! ## The order of the roles -/

/-- When `Enforce` returns no error, the role loop ends without error and with `true` exactly
when some role of the list gets `true`. -/
theorem checkRoles_no_error (enforce : String → String → String → EnforceResult)
    (hne : ∀ s o a, (enforce s o a).err = none) (path method : String) (R : List Role) :
    (checkRoles enforce path method R).1.err = none ∧
      (checkRoles enforce path method R).1.ok
        = R.any (fun r => (enforce r.name path method).ok) := by
  induction R with
  | nil => exact ⟨rfl, rfl⟩
  | cons r rs ih =>
    have hr := hne r.name path method
    cases hok : (enforce r.name path method).ok with
    | true => simp [checkRoles, hr, hok]
    | false => simpa [checkRoles, hr, hok] using ih

/-- Whether some role of a list gets `true` does not depend on the order of the list. -/
theorem any_role_perm (p : Role → Bool) (R1 R2 : List Role) (h : R1.Perm R2) :
    R1.any p = R2.any p := by
  rw [Bool.eq_iff_iff]
  simp only [List.any_eq_true]
  constructor
  · rintro ⟨x, hx, hp⟩
    exact ⟨x, h.mem_iff.1 hx, hp⟩
  · rintro ⟨x, hx, hp⟩
    exact ⟨x, h.mem_iff.2 hx, hp⟩

/-- C30. Role order does not matter.  Let `Enforce` return no error.  The role loop of the
gate gives the same `(ok, err)` on two role lists that are permutations of each other; and for
two stores in which the username resolves to the same user and the roles loaded for that user
are permutations of each other, the gate reaches the same decision on every request. -/
theorem casbinMiddleware_role_order (enforce : String → String → String → EnforceResult)
    (hne : ∀ s o a, (enforce s o a).err = none) (path method : String) :
    (∀ R1 R2 : List Role, R1.Perm R2 →
        (checkRoles enforce path method R1).1 = (checkRoles enforce path method R2).1) ∧
      ∀ (db1 db2 : DB) (faults : GateFaults) (name : String) (u : User),
        findUser db1 name = some u → findUser db2 name = some u →
        (loadedRoles db1 faults u).Perm (loadedRoles db2 faults u) →
        (CasbinMiddleware db1 enforce faults (some name) path method).decision
          = (CasbinMiddleware db2 enforce faults (some name) path method).decision := by
  have key : ∀ R1 R2 : List Role, R1.Perm R2 →
      (checkRoles enforce path method R1).1 = (checkRoles enforce path method R2).1 := by
    intro R1 R2 h
    obtain ⟨e1, o1⟩ := checkRoles_no_error enforce hne path method R1
    obtain ⟨e2, o2⟩ := checkRoles_no_error enforce hne path method R2
    have ho : (checkRoles enforce path method R1).1.ok
        = (checkRoles enforce path method R2).1.ok := by
      rw [o1, o2]
      exact any_role_perm _ R1 R2 h
    cases h1 : (checkRoles enforce path method R1).1 with
    | mk ok1 err1 =>
      cases h2 : (checkRoles enforce path method R2).1 with
      | mk ok2 err2 =>
        rw [h1] at e1 ho
        rw [h2] at e2 ho
        simp only at e1 e2 ho
        rw [e1, e2, ho]
  refine ⟨key, ?_⟩
  intro db1 db2 faults name u h1 h2 hperm
  unfold CasbinMiddleware
  simp only []
  cases hq : faults.userQuery with
  | true => simp
  | false =>
    simp only [Bool.false_eq_true, if_false, h1, h2]
    rw [key _ _ hperm]
    split_ifs <;> rfl

/-- C30, at `admin` asking `GET /t` on `exDB` and on the store with the roles in the other
order. -/
theorem casbinMiddleware_role_order_witness :
    ((∀ s o a, (exEnforce s o a).err = none) ∧
        findUser exDB "admin" = some ⟨1, "admin", false⟩ ∧
        findUser exDBSwapped "admin" = some ⟨1, "admin", false⟩ ∧
        loadedRoles exDB ⟨false, false⟩ ⟨1, "admin", false⟩
          = [⟨1, "admin", "", false⟩, ⟨2, "user", "", false⟩] ∧
        loadedRoles exDBSwapped ⟨false, false⟩ ⟨1, "admin", false⟩
          = [⟨2, "user", "", false⟩, ⟨1, "admin", "", false⟩]) ∧
      (CasbinMiddleware exDB exEnforce ⟨false, false⟩ (some "admin") "/t" "GET").decision
        = (CasbinMiddleware exDBSwapped exEnforce ⟨false, false⟩ (some "admin") "/t"
            "GET").decision :=
  ⟨⟨fun _ _ _ => rfl, by decide, by decide, by decide, by decide⟩,
    (casbinMiddleware_role_order exEnforce (fun _ _ _ => rfl) "/t" "GET").2 exDB exDBSwapped
      ⟨false, false⟩ "admin" ⟨1, "admin", false⟩ (by decide) (by decide)
      (by
        have h1 : loadedRoles exDB ⟨false, false⟩ ⟨1, "admin", false⟩
            = [⟨1, "admin", "", false⟩, ⟨2, "user", "", false⟩] := by decide
        have h2 : loadedRoles exDBSwapped ⟨false, false⟩ ⟨1, "admin", false⟩
            = [⟨2, "user", "", false⟩, ⟨1, "admin", "", false⟩] := by decide
        rw [h1, h2]
        exact List.Perm.swap _ _ _)⟩

/-! ## Revoke with a failing count query: I4 and the orphan rule -/

/-- C6. Incremental sync and the revoke whose count query fails.  In `exBoth` the roles `admin`
and `user` both hold `GET /t`, `P` holds exactly the projection of the store, and
`(resource, action)` and role names are unique among the live rows.  The revoke of
`(user, /t, GET)` whose `Count` query fails is answered 200; afterwards `P` holds
`(admin, /t, GET)` while the projection of the updated store is empty, so `P` does not equal
the projection. -/
theorem revoke_count_failure_breaks_I4 :
    (exBoth.inSync ∧ uniquePermissions exBoth.db ∧ uniqueRoleNames exBoth.db ∧
        schemaKeys exBoth.db) ∧
      (RemovePolicy exBoth countFails (some exReq)).status = 200 ∧
      (RemovePolicy exBoth countFails (some exReq)).st.enforcer
        = some ⟨[("admin", "/t", "GET")], []⟩ ∧
      policyProjection (RemovePolicy exBoth countFails (some exReq)).st.db = [] ∧
      ¬ (RemovePolicy exBoth countFails (some exReq)).st.inSync := by
  decide

/-- C7. The orphan rule and the revoke whose count query fails.  In `exBoth` the request
`(user, /t, GET)` resolves to the permission with key 1 and the role with key 2.  The revoke
whose `Count` query fails is answered 200; afterwards a live `role_permissions` row of another
role (`admin`) still refers to the permission, and the permission row is no longer live. -/
theorem revoke_count_failure_deletes_held_permission :
    findPermission exBoth.db "/t" "GET" = some ⟨1, "/t", "GET", "", false⟩ ∧
      findRole exBoth.db "user" = some ⟨2, "user", "", false⟩ ∧
      (RemovePolicy exBoth countFails (some exReq)).status = 200 ∧
      heldByOtherRole (RemovePolicy exBoth countFails (some exReq)).st.db 2 1 = true ∧
      permissionLive (RemovePolicy exBoth countFails (some exReq)).st.db 1 = false := by
  decide

/-! ## The matcher on the pattern `/api/v1/users/*` -/

end Autops
